import Mathlib

/-!
# Versioned store storage: repository and service layer

A shallow embedding of the Storage Service of the repository
(`internal/model`, `internal/repository/postgres/repository.go`,
`internal/service/store_service.go`) together with the properties of its
version chain.  Further down follow the message handler of the Storage Service
(`internal/handler/message_handler.go`), the connection loop of its
`cmd/app/main.go`, and of the Gateway Service the handlers of
`internal/handler/stores_handler.go`, the validators of
`internal/handler/validation/validation.go` and `RetryConnection` of
`internal/provider/auth_client.go`.

The relational database is an explicit value `DB` holding the rows of the two
tables.  A repository method is a function from the database before the call
to the returned Go `error` (`Option Error`, `none` for `nil`) and the database
after the call.  Everything the program cannot decide by itself is an explicit
argument: the identifiers the database assigns to inserted rows, the clock
reading of `time.Now()`, and, for each database round trip, whether the driver
reports a failure there.

Conventions.
* `store_id` and `version_id` are integer keys.  Go carries the store key of a
  version as decimal text (`strconv.Itoa`); the embedding carries the key.
* `version_number` is a Go `int`.  `Repository.CreateStoreVersion` adds 1 in
  the unbounded `Int`; it serves the runs from the empty database, where by
  `version_numbers_in_range` the numbers reached by `n` calls lie between 1 and
  `n`.  `Repository.CreateStoreVersion64` is the same method with the sum
  wrapped to the 64 bits of the Go `int`; the two agree whenever the previous
  number is below `9223372036854775807` (`createStoreVersion64_eq`).
* A transaction works on a copy of the database; `Commit` installs the copy,
  `Rollback` discards it.  Calls run one after another (no interleaving).
-/

namespace VersionsStorage

/-! ## `internal/model` -/

namespace model

/-- Go struct `model.Store` (`store_model.go`). -/
structure Store where
  StoreID : Nat
  Name : String
  Address : String
  CreatorLogin : String
  OwnerName : String
  OpeningTime : String
  ClosingTime : String
  CreatedAt : String
deriving DecidableEq, Repr

/-- Go struct `model.StoreVersion` (`store_version_model.go`). -/
structure StoreVersion where
  VersionID : Nat
  StoreID : Nat
  VersionNumber : Int
  CreatorLogin : String
  OwnerName : String
  OpeningTime : String
  ClosingTime : String
  CreatedAt : String
  IsLast : Bool
deriving DecidableEq, Repr

/-- The Go zero value of `model.StoreVersion`, the content of
`var previousVersion model.StoreVersion` before anything is scanned into it. -/
def StoreVersion.zero : StoreVersion :=
  { VersionID := 0, StoreID := 0, VersionNumber := 0, CreatorLogin := "", OwnerName := "",
    OpeningTime := "", ClosingTime := "", CreatedAt := "", IsLast := false }

end model

/-! ## The database -/

/-- The rows of the tables `stores` and `store_versions`, in table order. -/
structure DB where
  stores : List model.Store
  store_versions : List model.StoreVersion
deriving DecidableEq, Repr

/-- The database with both tables empty. -/
def DB.empty : DB := { stores := [], store_versions := [] }

/-- Go `error` values that the storage service produces or passes on. -/
inductive Error where
  /-- The sentinel `sql.ErrNoRows`. -/
  | ErrNoRows
  /-- Any other error raised by the database driver, with its text. -/
  | driver (msg : String)
  /-- The sentinel `service.ErrVersionNotFound`. -/
  | ErrVersionNotFound
  /-- The sentinel `service.ErrStoreNotFound`. -/
  | ErrStoreNotFound
  /-- The sentinel `service.ErrPermissionDenied`. -/
  | ErrPermissionDenied
deriving DecidableEq, Repr

/-- The outcome of one database round trip as far as the driver is concerned:
`none` when the round trip goes through, `some msg` when the driver reports the
failure `msg` (lost connection, serialization failure, ...). -/
abbrev Outcome := Option String

/-! ## Schema constraints -/

/-- Modelled from the spec: the schema is created by the package
`internal/migration`, which is not among the sources.  The spec gives every
store an identity ("opaque numeric id, assigned by the repository on
creation"): `store_id` is the key of `stores`, so an insert of a key that is
already present is refused. -/
def storeKeyTaken (db : DB) (storeID : Nat) : Bool :=
  db.stores.any (fun s => s.StoreID == storeID)

/-- Modelled from the spec: the schema is created by the package
`internal/migration`, which is not among the sources.  The spec gives every
version an identity ("opaque numeric id"): `version_id` is the key of
`store_versions`. -/
def versionKeyTaken (db : DB) (versionID : Nat) : Bool :=
  db.store_versions.any (fun v => v.VersionID == versionID)

/-- Modelled from the spec: the schema is created by the package
`internal/migration`, which is not among the sources.  The spec says a version
"belongs to exactly one entity (foreign relationship to entity id)":
`store_versions.store_id` references `stores.store_id`, so a version row can
only be inserted for a store row that is present. -/
def storeRowPresent (db : DB) (storeID : Nat) : Bool :=
  db.stores.any (fun s => s.StoreID == storeID)

/-! ## The SQL statements of `repository.go` -/

namespace postgres

open model

/-- The statement `INSERT INTO stores (name, address, creator_login, owner_name,
opening_time, closing_time, created_at) VALUES (...) RETURNING store_id`.
The key `storeID` is the one the database assigns and returns; the `StoreID`
field of the argument is not among the inserted columns. -/
def insertStore (db : DB) (store : Store) (storeID : Nat) (o : Outcome) : Except Error DB :=
  match o with
  | some msg => .error (.driver msg)
  | none =>
    if storeKeyTaken db storeID then .error (.driver "stores: duplicate key")
    else .ok { db with stores := db.stores ++ [{ store with StoreID := storeID }] }

/-- The statement `INSERT INTO store_versions (store_id, version_number,
creator_login, owner_name, opening_time, closing_time, created_at, is_last)
VALUES (...)`.  The key `versionID` is the one the database assigns; the
`VersionID` field of the argument is not among the inserted columns. -/
def insertStoreVersion (db : DB) (version : StoreVersion) (versionID : Nat) (o : Outcome) :
    Except Error DB :=
  match o with
  | some msg => .error (.driver msg)
  | none =>
    if versionKeyTaken db versionID then .error (.driver "store_versions: duplicate key")
    else if !storeRowPresent db version.StoreID then
      .error (.driver "store_versions: store_id is not present in stores")
    else .ok { db with store_versions := db.store_versions ++ [{ version with VersionID := versionID }] }

/-- The query `SELECT * FROM store_versions WHERE store_id = $1 AND is_last = true`
read with `tx.Get`, which scans the first row of the result. -/
def selectLastVersion (db : DB) (storeID : Nat) : Option StoreVersion :=
  db.store_versions.find? (fun v => v.StoreID == storeID && v.IsLast)

/-- The statement `UPDATE store_versions SET is_last = false WHERE store_id = $1
AND is_last = true`. -/
def clearLast (db : DB) (storeID : Nat) : DB :=
  let clear : StoreVersion → StoreVersion :=
    fun v => if v.StoreID == storeID && v.IsLast then { v with IsLast := false } else v
  { db with store_versions := db.store_versions.map clear }

/-- The statement `DELETE FROM store_versions WHERE store_id = $1`. -/
def deleteVersionsOfStore (db : DB) (storeID : Nat) : DB :=
  { db with store_versions := db.store_versions.filter (fun v => !(v.StoreID == storeID)) }

/-- The statement `DELETE FROM stores WHERE store_id = $1`. -/
def deleteStoreRow (db : DB) (storeID : Nat) : DB :=
  { db with stores := db.stores.filter (fun s => !(s.StoreID == storeID)) }

/-- The statement `DELETE FROM store_versions WHERE version_id = $1`. -/
def deleteVersionRow (db : DB) (versionID : Nat) : DB :=
  { db with store_versions := db.store_versions.filter (fun v => !(v.VersionID == versionID)) }

/-! ## `Repository` -/

/-- The database round trips of `Repository.CreateStore`, in program order. -/
inductive CreateStoreStep where
  | Beginx | SetIsolation | InsertStore | InsertVersion | Commit
deriving DecidableEq, Repr

/-- `Repository.CreateStore` (`repository.go`, lines 56-115).  `storeID` and
`versionID` are the keys the database assigns to the two inserted rows.
The deferred function rolls back when `err != nil` and otherwise calls
`tx.Commit()` without looking at its result.  `sqlx.Named` only binds the
fields of the argument to the named parameters of the statement and is no
round trip. -/
def Repository.CreateStore (db : DB) (store : Store) (storeID versionID : Nat)
    (drv : CreateStoreStep → Outcome) : Option Error × DB :=
  match drv .Beginx with
  | some msg => (some (.driver msg), db)
  | none =>
    match drv .SetIsolation with
    | some msg => (some (.driver msg), db)
    | none =>
      match insertStore db store storeID (drv .InsertStore) with
      | .error e => (some e, db)
      | .ok tx1 =>
        let version : StoreVersion :=
          { VersionID := 0
            StoreID := storeID
            VersionNumber := 1
            CreatorLogin := store.CreatorLogin
            OwnerName := store.OwnerName
            OpeningTime := store.OpeningTime
            ClosingTime := store.ClosingTime
            CreatedAt := store.CreatedAt
            IsLast := true }
        match insertStoreVersion tx1 version versionID (drv .InsertVersion) with
        | .error e => (some e, db)
        | .ok tx2 =>
          match drv .Commit with
          | some _ => (none, db)
          | none => (none, tx2)

/-- The database round trips of `Repository.CreateStoreVersion`, in program order. -/
inductive CreateStoreVersionStep where
  | Beginx | SetIsolation | GetPrevious | UpdatePrevious | Insert | Commit
deriving DecidableEq, Repr

/-- `Repository.CreateStoreVersion` (`repository.go`, lines 117-164).
`versionID` is the key the database assigns to the inserted row.
`previousVersion` keeps its zero value unless a row is scanned into it; a
scanned `StoreID` is the decimal text of a key and never the empty string, so
the test `previousVersion.StoreID != ""` holds exactly when a row was found.
The sum `previousVersion.VersionNumber + 1` is taken in the unbounded `Int`;
`Repository.CreateStoreVersion64` is the method with the sum wrapped to the 64
bits of the Go `int`. -/
def Repository.CreateStoreVersion (db : DB) (storeVersion : StoreVersion) (versionID : Nat)
    (drv : CreateStoreVersionStep → Outcome) : Option Error × DB :=
  match drv .Beginx with
  | some msg => (some (.driver msg), db)
  | none =>
    match drv .SetIsolation with
    | some msg => (some (.driver msg), db)
    | none =>
      match drv .GetPrevious with
      | some msg => (some (.driver msg), db)
      | none =>
        let found := selectLastVersion db storeVersion.StoreID
        let previousVersion := found.getD StoreVersion.zero
        let afterUpdate : Except Error DB :=
          if found.isSome then
            match drv .UpdatePrevious with
            | some msg => .error (.driver msg)
            | none => .ok (clearLast db storeVersion.StoreID)
          else .ok db
        match afterUpdate with
        | .error e => (some e, db)
        | .ok tx1 =>
          let storeVersion := { storeVersion with VersionNumber := previousVersion.VersionNumber + 1 }
          match insertStoreVersion tx1 storeVersion versionID (drv .Insert) with
          | .error e => (some e, db)
          | .ok tx2 =>
            match drv .Commit with
            | some msg => (some (.driver msg), db)
            | none => (none, tx2)

/-- The database round trips of `DeleteStoreVersions`, `DeleteStoreVersion`
and of the outer transaction of `DeleteStore`, in program order. -/
inductive TxStep where
  | BeginTx | Exec | Commit
deriving DecidableEq, Repr

/-- `Repository.DeleteStoreVersions` (`repository.go`, lines 299-323): a
transaction of its own, begun on `r.db` and committed before returning. -/
def Repository.DeleteStoreVersions (db : DB) (storeId : Nat) (drv : TxStep → Outcome) :
    Option Error × DB :=
  match drv .BeginTx with
  | some msg => (some (.driver msg), db)
  | none =>
    match drv .Exec with
    | some msg => (some (.driver msg), db)
    | none =>
      match drv .Commit with
      | some msg => (some (.driver msg), db)
      | none => (none, deleteVersionsOfStore db storeId)

/-- `Repository.DeleteStore` (`repository.go`, lines 166-195).  The outer
transaction `tx` is begun first; `r.DeleteStoreVersions(storeId)` then runs and
commits its own transaction (`drvVersions`); the outer transaction deletes the
store row and commits (`drv`).  A rollback of `tx` discards the work of `tx`
only. -/
def Repository.DeleteStore (db : DB) (storeId : Nat) (drv drvVersions : TxStep → Outcome) :
    Option Error × DB :=
  match drv .BeginTx with
  | some msg => (some (.driver msg), db)
  | none =>
    match Repository.DeleteStoreVersions db storeId drvVersions with
    | (some e, db1) => (some e, db1)
    | (none, db1) =>
      match drv .Exec with
      | some msg => (some (.driver msg), db1)
      | none =>
        match drv .Commit with
        | some msg => (some (.driver msg), db1)
        | none => (none, deleteStoreRow db1 storeId)

/-- `Repository.DeleteStoreVersion` (`repository.go`, lines 197-220). -/
def Repository.DeleteStoreVersion (db : DB) (versionId : Nat) (drv : TxStep → Outcome) :
    Option Error × DB :=
  match drv .BeginTx with
  | some msg => (some (.driver msg), db)
  | none =>
    match drv .Exec with
    | some msg => (some (.driver msg), db)
    | none =>
      match drv .Commit with
      | some msg => (some (.driver msg), db)
      | none => (none, deleteVersionRow db versionId)

/-- `Repository.GetStoreByID` (`repository.go`, lines 222-235): `db.Get` scans
the first matching row and yields `sql.ErrNoRows` when there is none. -/
def Repository.GetStoreByID (db : DB) (storeId : Nat) (o : Outcome) : Except Error Store :=
  match o with
  | some msg => .error (.driver msg)
  | none =>
    match db.stores.find? (fun s => s.StoreID == storeId) with
    | some s => .ok s
    | none => .error .ErrNoRows

/-- `Repository.GetStoreVersionHistory` (`repository.go`, lines 237-251): the
versions of the store, `ORDER BY created_at DESC`.  Rows with equal
`created_at` are returned in table order. -/
def Repository.GetStoreVersionHistory (db : DB) (storeId : Nat) (o : Outcome) :
    Except Error (List StoreVersion) :=
  match o with
  | some msg => .error (.driver msg)
  | none =>
    .ok ((db.store_versions.filter (fun v => v.StoreID == storeId)).insertionSort
          (fun a b => ¬ a.CreatedAt < b.CreatedAt))

/-- `Repository.GetStoreVersionByID` (`repository.go`, lines 253-266). -/
def Repository.GetStoreVersionByID (db : DB) (versionId : Nat) (o : Outcome) :
    Except Error StoreVersion :=
  match o with
  | some msg => .error (.driver msg)
  | none =>
    match db.store_versions.find? (fun v => v.VersionID == versionId) with
    | some v => .ok v
    | none => .error .ErrNoRows

/-- `Repository.GetStoreVersionForStore` (`repository.go`, lines 268-281). -/
def Repository.GetStoreVersionForStore (db : DB) (storeId versionId : Nat) (o : Outcome) :
    Except Error StoreVersion :=
  match o with
  | some msg => .error (.driver msg)
  | none =>
    match db.store_versions.find? (fun v => v.VersionID == versionId && v.StoreID == storeId) with
    | some v => .ok v
    | none => .error .ErrNoRows

/-- `Repository.CheckStoreCreator` (`repository.go`, lines 283-297): `SELECT 1
... WHERE store_id = $1 AND creator_login = $2 LIMIT 1`, scanned with
`QueryRow(...).Scan`. -/
def Repository.CheckStoreCreator (db : DB) (storeID : Nat) (login : String) (o : Outcome) :
    Option Error :=
  match o with
  | some msg => some (.driver msg)
  | none =>
    if db.stores.any (fun s => s.StoreID == storeID && s.CreatorLogin == login) then none
    else some .ErrNoRows

end postgres

/-! ## `internal/service` -/

namespace service

open postgres

/-- Go struct `service.Store` (`store_service.go`). -/
structure Store where
  Name : String
  Address : String
  OwnerName : String
  OpeningTime : String
  ClosingTime : String
deriving DecidableEq, Repr

/-- Go struct `service.StoreVersion` (`store_service.go`). -/
structure StoreVersion where
  OwnerName : String
  OpeningTime : String
  ClosingTime : String
  CreatedAt : String
deriving DecidableEq, Repr

/-- `StoreService.CreateStore` (`store_service.go`, lines 55-76).  `now` is the
text `time.Now().Format("2006-01-02 15:04:05")`. -/
def StoreService.CreateStore (db : DB) (data : Store) (login : String) (now : String)
    (storeID versionID : Nat) (drv : CreateStoreStep → Outcome) : Option Error × DB :=
  let storeModel : model.Store :=
    { StoreID := 0
      Name := data.Name
      Address := data.Address
      CreatorLogin := login
      OwnerName := data.OwnerName
      OpeningTime := data.OpeningTime
      ClosingTime := data.ClosingTime
      CreatedAt := now }
  match Repository.CreateStore db storeModel storeID versionID drv with
  | (some err, db1) => (some err, db1)
  | (none, db1) => (none, db1)

/-- `StoreService.CreateStoreVersion` (`store_service.go`, lines 78-114).
`oGet` is the driver outcome of the `GetStoreByID` read, `now` the clock text. -/
def StoreService.CreateStoreVersion (db : DB) (data : StoreVersion) (storeID : Nat)
    (login : String) (now : String) (versionID : Nat) (oGet : Outcome)
    (drv : CreateStoreVersionStep → Outcome) : Option Error × DB :=
  match Repository.GetStoreByID db storeID oGet with
  | .error _ => (some .ErrStoreNotFound, db)
  | .ok _ =>
    let storeVersionModel : model.StoreVersion :=
      { VersionID := 0
        StoreID := storeID
        VersionNumber := 0
        CreatorLogin := login
        OwnerName := data.OwnerName
        OpeningTime := data.OpeningTime
        ClosingTime := data.ClosingTime
        CreatedAt := now
        IsLast := true }
    match Repository.CreateStoreVersion db storeVersionModel versionID drv with
    | (some err, db1) => (some err, db1)
    | (none, db1) => (none, db1)

/-- `StoreService.DeleteStore` (`store_service.go`, lines 116-147).  `oGet` and
`oCheck` are the driver outcomes of the two reads. -/
def StoreService.DeleteStore (db : DB) (storeID : Nat) (login : String) (oGet oCheck : Outcome)
    (drv drvVersions : TxStep → Outcome) : Option Error × DB :=
  match Repository.GetStoreByID db storeID oGet with
  | .error _ => (some .ErrStoreNotFound, db)
  | .ok _ =>
    match Repository.CheckStoreCreator db storeID login oCheck with
    | some _ => (some .ErrPermissionDenied, db)
    | none =>
      match Repository.DeleteStore db storeID drv drvVersions with
      | (some err, db1) => (some err, db1)
      | (none, db1) => (none, db1)

/-- `StoreService.DeleteStoreVersion` (`store_service.go`, lines 149-181). -/
def StoreService.DeleteStoreVersion (db : DB) (storeID versionID : Nat) (login : String)
    (oGet oCheck : Outcome) (drv : TxStep → Outcome) : Option Error × DB :=
  match Repository.GetStoreVersionForStore db storeID versionID oGet with
  | .error _ => (some .ErrVersionNotFound, db)
  | .ok _ =>
    match Repository.CheckStoreCreator db storeID login oCheck with
    | some _ => (some .ErrPermissionDenied, db)
    | none =>
      match Repository.DeleteStoreVersion db versionID drv with
      | (some err, db1) => (some err, db1)
      | (none, db1) => (none, db1)

/-- `StoreService.GetStoreByID` (`store_service.go`, lines 183-195). -/
def StoreService.GetStoreByID (db : DB) (storeID : Nat) (o : Outcome) : Except Error model.Store :=
  match Repository.GetStoreByID db storeID o with
  | .error _ => .error .ErrStoreNotFound
  | .ok store => .ok store

/-- `StoreService.GetStoreVersionHistory` (`store_service.go`, lines 197-214). -/
def StoreService.GetStoreVersionHistory (db : DB) (storeID : Nat) (o : Outcome) :
    Except Error (List model.StoreVersion) :=
  match Repository.GetStoreVersionHistory db storeID o with
  | .error err => .error err
  | .ok storeHistory =>
    if storeHistory.length = 0 then .error .ErrStoreNotFound else .ok storeHistory

/-- `StoreService.GetStoreVersionByID` (`store_service.go`, lines 216-238). -/
def StoreService.GetStoreVersionByID (db : DB) (storeID versionID : Nat) (oFor oGet : Outcome) :
    Except Error model.StoreVersion :=
  match Repository.GetStoreVersionForStore db storeID versionID oFor with
  | .error _ => .error .ErrVersionNotFound
  | .ok _ =>
    match Repository.GetStoreVersionByID db versionID oGet with
    | .error _ => .error .ErrVersionNotFound
    | .ok storeVersion => .ok storeVersion

end service

/-! ## Sequential runs of the storage operations -/

/-- A driver that reports no failure at any round trip. -/
def healthy {Step : Type} : Step → Outcome := fun _ => none

/-- One call of a mutating repository method, with the keys the database
assigns where the method inserts rows. -/
inductive Op where
  | CreateStore (store : model.Store) (storeID versionID : Nat)
  | CreateStoreVersion (storeVersion : model.StoreVersion) (versionID : Nat)
  | DeleteStore (storeId : Nat)
  | DeleteStoreVersion (versionId : Nat)
deriving DecidableEq, Repr

/-- The call `op` on the database `db`, every round trip going through. -/
def Op.exec (db : DB) : Op → Option Error × DB
  | .CreateStore store storeID versionID =>
      postgres.Repository.CreateStore db store storeID versionID healthy
  | .CreateStoreVersion storeVersion versionID =>
      postgres.Repository.CreateStoreVersion db storeVersion versionID healthy
  | .DeleteStore storeId => postgres.Repository.DeleteStore db storeId healthy healthy
  | .DeleteStoreVersion versionId => postgres.Repository.DeleteStoreVersion db versionId healthy

/-- The calls `ops` one after another from `db`; `none` as soon as a call
returns an error. -/
def run (db : DB) : List Op → Option DB
  | [] => some db
  | op :: rest =>
    match op.exec db with
    | (none, db1) => run db1 rest
    | (some _, _) => none

/-- The rows of `store_versions` that belong to the store. -/
def versionsOf (db : DB) (storeID : Nat) : List model.StoreVersion :=
  db.store_versions.filter (fun v => v.StoreID == storeID)

/-- The rows of `store_versions` of the store that are marked `is_last`. -/
def currentVersions (db : DB) (storeID : Nat) : List model.StoreVersion :=
  db.store_versions.filter (fun v => v.StoreID == storeID && v.IsLast)

/-! ## State predicates -/

/-- Every version row refers to a store row that is present (the foreign key
of `store_versions.store_id`). -/
def DB.VersionsReferStores (db : DB) : Prop :=
  ∀ v ∈ db.store_versions, ∃ s ∈ db.stores, s.StoreID = v.StoreID

/-- Each store has at most one version row marked `is_last`. -/
def DB.AtMostOneCurrent (db : DB) : Prop :=
  ∀ storeID : Nat, (currentVersions db storeID).length ≤ 1

/-! ## Sample data -/

/-- A store record as `StoreService.CreateStore` builds it for the login `alice`. -/
def sampleStore : model.Store :=
  { StoreID := 0, Name := "Corner Shop", Address := "1 Main Street", CreatorLogin := "alice",
    OwnerName := "Alice", OpeningTime := "08:00", ClosingTime := "20:00",
    CreatedAt := "2024-01-01 10:00:00" }

/-- A version record for store 1 as `StoreService.CreateStoreVersion` builds it. -/
def sampleVersion : model.StoreVersion :=
  { VersionID := 0, StoreID := 1, VersionNumber := 0, CreatorLogin := "alice",
    OwnerName := "Alice", OpeningTime := "09:00", ClosingTime := "21:00",
    CreatedAt := "2024-01-02 10:00:00", IsLast := true }

/-- Create store 1, add two versions, delete the current version, add a version. -/
def sampleOps : List Op :=
  [.CreateStore sampleStore 1 1, .CreateStoreVersion sampleVersion 2,
   .CreateStoreVersion sampleVersion 3, .DeleteStoreVersion 3,
   .CreateStoreVersion sampleVersion 4]

/-- The database reached by `sampleOps` from the empty database. -/
def sampleDb : DB := (run DB.empty sampleOps).getD DB.empty

/-! ## Runs that keep the version chain -/

/-- The calls that leave the chain of a store intact: a created version is
inserted with `is_last = true` (what `StoreService.CreateStoreVersion` always
passes), and `DeleteStoreVersion` does not remove a row that is marked
`is_last` at that moment. -/
def Op.keepsCurrent (db : DB) : Op → Bool
  | .CreateStore _ _ _ => true
  | .CreateStoreVersion storeVersion _ => storeVersion.IsLast
  | .DeleteStore _ => true
  | .DeleteStoreVersion versionId =>
      db.store_versions.all (fun v => !(v.VersionID == versionId && v.IsLast))

/-- The calls `ops` one after another from `db`, like `run`, and `none` also
when a call does not satisfy `Op.keepsCurrent`. -/
def runKeepingCurrent (db : DB) : List Op → Option DB
  | [] => some db
  | op :: rest =>
    if op.keepsCurrent db then
      match op.exec db with
      | (none, db1) => runKeepingCurrent db1 rest
      | (some _, _) => none
    else none

/-- Every store that has version rows has one marked `is_last`. -/
def DB.CurrentPresent (db : DB) : Prop :=
  ∀ storeID : Nat, versionsOf db storeID ≠ [] → currentVersions db storeID ≠ []

/-- A version marked `is_last` carries the highest version number of its store. -/
def DB.CurrentIsHighest (db : DB) : Prop :=
  ∀ storeID : Nat, ∀ c ∈ currentVersions db storeID, ∀ v ∈ versionsOf db storeID,
    v.VersionNumber ≤ c.VersionNumber

/-- Create store 1, add a version with `IsLast = false`, add a version. -/
def sampleUnmarkedOps : List Op :=
  [.CreateStore sampleStore 1 1, .CreateStoreVersion { sampleVersion with IsLast := false } 2,
   .CreateStoreVersion sampleVersion 3]

/-- The database reached by `sampleUnmarkedOps` from the empty database. -/
def sampleUnmarkedDb : DB := (run DB.empty sampleUnmarkedOps).getD DB.empty

/-- Create store 1, add two versions, delete version 2 (not current), add a version. -/
def sampleKeptOps : List Op :=
  [.CreateStore sampleStore 1 1, .CreateStoreVersion sampleVersion 2,
   .CreateStoreVersion sampleVersion 3, .DeleteStoreVersion 2,
   .CreateStoreVersion sampleVersion 4]

/-- The database reached by `sampleKeptOps` from the empty database. -/
def sampleKeptDb : DB := (run DB.empty sampleKeptOps).getD DB.empty

/-! ## The version numbers handed out to a store -/

/-- The version numbers of the rows of `store_versions` with the given key. -/
def numbersOfRow (db : DB) (versionID : Nat) : List Int :=
  (db.store_versions.filter (fun v => v.VersionID == versionID)).map (fun v => v.VersionNumber)

/-- The list `given` of version numbers handed out to the versions created for
the store `storeID`, oldest first, brought up to date after the successful call
`op` has led to the database `db1`: a call that creates a version for the store
appends the number found in the created row, and `DeleteStore` of the store
ends the life of the store and empties the list (a store created later under
the same key is another store). -/
def Op.record (storeID : Nat) (db1 : DB) (given : List Int) : Op → List Int
  | .CreateStore _ k j => if k = storeID then given ++ numbersOfRow db1 j else given
  | .CreateStoreVersion sv j => if sv.StoreID = storeID then given ++ numbersOfRow db1 j else given
  | .DeleteStore k => if k = storeID then [] else given
  | .DeleteStoreVersion _ => given

/-- The version numbers handed out to the versions created for the store
`storeID` during the run of `ops` from `db`, in the order of creation, starting
from the list `given`; the run is followed as long as the calls succeed. -/
def numbersGiven (storeID : Nat) : DB → List Int → List Op → List Int
  | _, given, [] => given
  | db, given, op :: rest =>
    match op.exec db with
    | (none, db1) => numbersGiven storeID db1 (op.record storeID db1 given) rest
    | (some _, _) => given

/-- The bookkeeping of one store along a run: the numbers given so far are
`1, ..., n`, the current version carries the number `n`, and nothing has been
given when the store has no versions. -/
def Counted (db : DB) (s : Nat) (given : List Int) : Prop :=
  given = (List.range given.length).map (fun i : Nat => (i : Int) + 1) ∧
    (∀ c ∈ currentVersions db s, c.VersionNumber = given.length) ∧
    (versionsOf db s = [] → given = [])

/-- The database after `CreateStore` of the sample store under key 1, with
version key 1. -/
def sampleStoreDb : DB := (run DB.empty [.CreateStore sampleStore 1 1]).getD DB.empty

/-- The database after a second version (key 2) was added to the sample store. -/
def sampleTwoVersionsDb : DB :=
  (run DB.empty [.CreateStore sampleStore 1 1, .CreateStoreVersion sampleVersion 2]).getD DB.empty

/-! ## Repeated service calls on one store -/

/-- One call of `StoreService.CreateStoreVersion`: the request data and login,
and what the environment supplies (clock text, assigned key, driver outcomes). -/
structure VersionCall where
  data : service.StoreVersion
  login : String
  now : String
  versionID : Nat
  oGet : Outcome
  drv : postgres.CreateStoreVersionStep → Outcome

/-- The calls of `StoreService.CreateStoreVersion` in `calls`, one after another,
all for the store `storeID`; `none` as soon as a call returns an error. -/
def createVersions (db : DB) (storeID : Nat) : List VersionCall → Option DB
  | [] => some db
  | c :: rest =>
    match service.StoreService.CreateStoreVersion db c.data storeID c.login c.now c.versionID
        c.oGet c.drv with
    | (none, db1) => createVersions db1 storeID rest
    | (some _, _) => none

/-- Two calls that add a version to the sample store, with keys 2 and 3. -/
def sampleCalls : List VersionCall :=
  [{ data := { OwnerName := "Alice", OpeningTime := "09:00", ClosingTime := "21:00",
               CreatedAt := "" },
     login := "alice", now := "2024-01-02 10:00:00", versionID := 2, oGet := none,
     drv := healthy },
   { data := { OwnerName := "Bob", OpeningTime := "10:00", ClosingTime := "22:00",
               CreatedAt := "" },
     login := "bob", now := "2024-01-03 10:00:00", versionID := 3, oGet := none,
     drv := healthy }]

/-- The request data of the sample store. -/
def sampleData : service.Store :=
  { Name := "Corner Shop", Address := "1 Main Street", OwnerName := "Alice",
    OpeningTime := "08:00", ClosingTime := "20:00" }

/-- The database after the two `sampleCalls` on the sample store. -/
def sampleThreeVersionsDb : DB := (createVersions sampleStoreDb 1 sampleCalls).getD DB.empty

/-- The versions of the store are numbered `1, ..., m + 1` in table order and
only the last one is marked. -/
def ChainOf (db : DB) (s : Nat) (m : Nat) : Prop :=
  ∃ (l : List model.StoreVersion) (p : model.StoreVersion), versionsOf db s = l ++ [p] ∧
    p.IsLast = true ∧ p.VersionNumber = (m : Int) + 1 ∧ (∀ v ∈ l, v.IsLast = false) ∧
    l.map (fun v => v.VersionNumber) = (List.range m).map (fun i : Nat => (i : Int) + 1)

/-- A driver that reports the failure `msg` at the round trip `step` and lets
every other round trip through. -/
def failingAt {Step : Type} [DecidableEq Step] (step : Step) (msg : String) : Step → Outcome :=
  fun t => if t = step then some msg else none

/-- Stores 1 (created by `alice`) and 2 (created by `bob`) with their first
versions 1 and 2, and a second version, key 3, of store 1. -/
def sampleTwoStoresDb : DB :=
  (run DB.empty [.CreateStore sampleStore 1 1,
    .CreateStore { sampleStore with Name := "Second Shop", CreatorLogin := "bob" } 2 2,
    .CreateStoreVersion sampleVersion 3]).getD DB.empty

/-- No two rows of `store_versions` carry the same `version_id` (the key of the
table). -/
def DB.VersionKeysUnique (db : DB) : Prop :=
  ∀ v ∈ db.store_versions, ∀ w ∈ db.store_versions, v.VersionID = w.VersionID → v = w

/-! ## Error texts -/

set_option linter.dupNamespace false in
/-- The method `Error()` of a Go `error`: the texts of the three sentinels of
`store_service.go`, of `sql.ErrNoRows`, and the text a driver error carries. -/
def Error.Error : Error → String
  | .ErrNoRows => "sql: no rows in result set"
  | .driver msg => msg
  | .ErrVersionNotFound => "store version not found"
  | .ErrStoreNotFound => "store not found"
  | .ErrPermissionDenied => "user is not a store creator"

/-! ## `encoding/json`

The two services exchange JSON texts.  The byte text of a document is not
modelled: a text is the document it spells, or `invalid` when it spells none
(the empty text included).  `json.Marshal` and `json.Unmarshal` are modelled
for the Go types the repository passes to them, following the documentation of
the package `encoding/json` of the Go standard library. -/

namespace json

/-- A JSON document. -/
inductive Value where
  | null
  | bool (b : Bool)
  | number (text : String)
  | string (s : String)
  | array (items : List Value)
  | object (members : List (String × Value))

/-- A `[]byte` that is handed to `json.Unmarshal` or comes from `json.Marshal`
(`amqp.Delivery.Body`, `json.RawMessage`). -/
inductive Text where
  /-- Bytes that are not a JSON document; the Go zero value (no bytes) is one. -/
  | invalid
  /-- The bytes of the document `v`. -/
  | doc (v : Value)

/-- The case folding under which `json.Unmarshal` matches the key of an object
member with the JSON name of a struct field: ASCII letters regardless of case,
and the two letters outside ASCII that fold to ASCII letters, LATIN SMALL
LETTER LONG S (to `s`) and KELVIN SIGN (to `k`). -/
def foldChar (c : Char) : Char :=
  if c = Char.ofNat 0x17F then 's'
  else if c = Char.ofNat 0x212A then 'k'
  else c.toLower

/-- Whether `json.Unmarshal` stores the member with key `key` in the struct
field with JSON name `field`. -/
def sameName (key field : String) : Bool :=
  key.data.map foldChar == field.data.map foldChar

/-- What `json.Unmarshal` does with a value for a Go field of type `string`
holding `old`: a JSON string is stored, `null` leaves the field as it is, every
other value is a type error (`none`). -/
def intoString (old : String) : Value → Option String
  | .string s => some s
  | .null => some old
  | _ => none

end json

/-! ## Go strings on the gateway side

A Go `string` is a sequence of bytes.  The strings of the storage service all
come out of `json.Unmarshal` or out of the database and are valid UTF-8; they
are embedded as Lean strings.  The strings the gateway passes to `json.Marshal`
(path parameters among them) are arbitrary byte sequences. -/

/-- A Go `string` as the gateway holds it: its bytes. -/
abbrev GoString := List (Fin 256)

namespace GoString

/-- For a byte that can start a UTF-8 sequence of more than one byte: the
length of the sequence and the range the second byte has to lie in (RFC 3629,
the table of `unicode/utf8`). -/
def lead (b0 : Nat) : Option (Nat × Nat × Nat) :=
  if 0xC2 ≤ b0 ∧ b0 ≤ 0xDF then some (2, 0x80, 0xBF)
  else if b0 = 0xE0 then some (3, 0xA0, 0xBF)
  else if 0xE1 ≤ b0 ∧ b0 ≤ 0xEC then some (3, 0x80, 0xBF)
  else if b0 = 0xED then some (3, 0x80, 0x9F)
  else if 0xEE ≤ b0 ∧ b0 ≤ 0xEF then some (3, 0x80, 0xBF)
  else if b0 = 0xF0 then some (4, 0x90, 0xBF)
  else if 0xF1 ≤ b0 ∧ b0 ≤ 0xF3 then some (4, 0x80, 0xBF)
  else if b0 = 0xF4 then some (4, 0x80, 0x8F)
  else none

/-- Whether the byte is a continuation byte of UTF-8. -/
def isCont (b : Nat) : Bool := 0x80 ≤ b && b ≤ 0xBF

/-- The function `utf8.DecodeRune` on the bytes `bs` (not empty): the code
point at the front and the number of bytes it takes, or the replacement
character U+FFFD and 1 when the front is not valid UTF-8. -/
def decodeRune (bs : List Nat) : Nat × Nat :=
  match bs with
  | [] => (0xFFFD, 1)
  | b0 :: rest =>
    if b0 < 0x80 then (b0, 1)
    else
      match lead b0, rest with
      | some (2, lo, hi), b1 :: _ =>
        if lo ≤ b1 ∧ b1 ≤ hi then ((b0 % 32) * 64 + b1 % 64, 2) else (0xFFFD, 1)
      | some (3, lo, hi), b1 :: b2 :: _ =>
        if lo ≤ b1 ∧ b1 ≤ hi ∧ isCont b2 then
          ((b0 % 16) * 4096 + (b1 % 64) * 64 + b2 % 64, 3)
        else (0xFFFD, 1)
      | some (4, lo, hi), b1 :: b2 :: b3 :: _ =>
        if lo ≤ b1 ∧ b1 ≤ hi ∧ isCont b2 ∧ isCont b3 then
          ((b0 % 8) * 262144 + (b1 % 64) * 4096 + (b2 % 64) * 64 + b3 % 64, 4)
        else (0xFFFD, 1)
      | _, _ => (0xFFFD, 1)

/-- The characters of the bytes `bs`, every byte that is not part of a valid
UTF-8 sequence replaced by U+FFFD; `fuel` bounds the number of characters and
the length of `bs` is enough. -/
def runes : Nat → List Nat → List Char
  | 0, _ => []
  | _ + 1, [] => []
  | fuel + 1, b :: bs =>
    Char.ofNat (decodeRune (b :: bs)).1 :: runes fuel ((b :: bs).drop (decodeRune (b :: bs)).2)

/-- The text `json.Marshal` writes for a Go string and `json.Unmarshal` reads
back: the string "coerced to valid UTF-8, replacing invalid bytes with the
Unicode replacement rune". -/
def toValidUTF8 (s : GoString) : String :=
  String.mk (runes s.length (s.map (fun b => b.val)))

/-- The UTF-8 bytes of one character. -/
def encodeChar (c : Char) : GoString :=
  let n := c.toNat
  if n < 0x80 then [Fin.ofNat n]
  else if n < 0x800 then [Fin.ofNat (0xC0 + n / 64), Fin.ofNat (0x80 + n % 64)]
  else if n < 0x10000 then
    [Fin.ofNat (0xE0 + n / 4096), Fin.ofNat (0x80 + n / 64 % 64), Fin.ofNat (0x80 + n % 64)]
  else
    [Fin.ofNat (0xF0 + n / 262144), Fin.ofNat (0x80 + n / 4096 % 64),
     Fin.ofNat (0x80 + n / 64 % 64), Fin.ofNat (0x80 + n % 64)]

/-- The Go string with the content `s`: its UTF-8 bytes. -/
def ofString (s : String) : GoString :=
  s.data.flatMap encodeChar

/-- The bytes `encodeChar` writes for the code point `n`, as numbers. -/
def encodeNat (n : Nat) : List Nat :=
  if n < 0x80 then [n]
  else if n < 0x800 then [0xC0 + n / 64, 0x80 + n % 64]
  else if n < 0x10000 then [0xE0 + n / 4096, 0x80 + n / 64 % 64, 0x80 + n % 64]
  else [0xF0 + n / 262144, 0x80 + n / 4096 % 64, 0x80 + n / 64 % 64, 0x80 + n % 64]

end GoString

/-! ## Gateway Service: `internal/handler/stores_handler.go` -/

namespace gateway

/-- Go struct `handler.Store` of the gateway (`stores_handler.go`). -/
structure Store where
  Name : GoString
  Address : GoString
  OwnerName : GoString
  OpeningTime : GoString
  ClosingTime : GoString
deriving DecidableEq, Repr

/-- Go struct `handler.StoreVersion` of the gateway (`stores_handler.go`). -/
structure StoreVersion where
  OwnerName : GoString
  OpeningTime : GoString
  ClosingTime : GoString
deriving DecidableEq, Repr

/-- The values the handlers pass as `data interface{}` to `buildMessage`. -/
inductive Data where
  | nil
  | store (s : Store)
  | storeVersion (v : StoreVersion)
deriving DecidableEq, Repr

/-- `json.Marshal` of a Go string. -/
def marshalString (s : GoString) : json.Value :=
  .string (GoString.toValidUTF8 s)

/-- `json.Marshal` of a `Store`: an object with the JSON names of the struct
tags, in the order of the fields. -/
def Store.marshal (s : Store) : json.Value :=
  .object [("name", marshalString s.Name), ("address", marshalString s.Address),
    ("ownerName", marshalString s.OwnerName), ("openingTime", marshalString s.OpeningTime),
    ("closingTime", marshalString s.ClosingTime)]

/-- `json.Marshal` of a `StoreVersion`. -/
def StoreVersion.marshal (v : StoreVersion) : json.Value :=
  .object [("ownerName", marshalString v.OwnerName),
    ("openingTime", marshalString v.OpeningTime), ("closingTime", marshalString v.ClosingTime)]

/-- `json.Marshal` of the `data` argument; a nil interface is written `null`. -/
def Data.marshal : Data → json.Value
  | .nil => .null
  | .store s => s.marshal
  | .storeVersion v => v.marshal

/-- `buildMessage` (`stores_handler.go`, lines 256-271): `json.Marshal` of the
map with the keys `storeId`, `versionId`, `data`, `action`, `userLogin`, which
writes the members sorted by key.  `json.Marshal` does not fail on these
values, so the result is never nil. -/
def buildMessage (data : Data) (action login storeId versionId : GoString) : json.Text :=
  .doc (.object [("action", marshalString action), ("data", data.marshal),
    ("storeId", marshalString storeId), ("userLogin", marshalString login),
    ("versionId", marshalString versionId)])

end gateway

/-! ## Storage Service: `internal/handler/message_handler.go` -/

namespace handler

/-- Go struct `StoreFromMessage` (`message_handler.go`). -/
structure StoreFromMessage where
  Name : String
  Address : String
  OwnerName : String
  OpeningTime : String
  ClosingTime : String
deriving DecidableEq, Repr

/-- Go struct `StoreVersionFromMessage` (`message_handler.go`). -/
structure StoreVersionFromMessage where
  OwnerName : String
  OpeningTime : String
  ClosingTime : String
deriving DecidableEq, Repr

/-- Go struct `Message` (`message_handler.go`); `Data` is a `json.RawMessage`. -/
structure Message where
  Action : String
  Data : json.Text
  StoreID : String
  UserLogin : String
  VersionID : String

/-- The Go zero value of `Message`. -/
def Message.zero : Message :=
  { Action := "", Data := .invalid, StoreID := "", UserLogin := "", VersionID := "" }

/-- `json.Unmarshal` storing one member of the object in the `Message`: the
field is chosen by the JSON names of the struct tags, a `json.RawMessage` takes
the bytes of any value (of `null` too), members with other keys are skipped;
`none` for a type error. -/
def Message.store (m : Message) (key : String) (v : json.Value) : Option Message :=
  if json.sameName key "action" then
    (json.intoString m.Action v).map (fun s => { m with Action := s })
  else if json.sameName key "data" then some { m with Data := .doc v }
  else if json.sameName key "storeId" then
    (json.intoString m.StoreID v).map (fun s => { m with StoreID := s })
  else if json.sameName key "userLogin" then
    (json.intoString m.UserLogin v).map (fun s => { m with UserLogin := s })
  else if json.sameName key "versionId" then
    (json.intoString m.VersionID v).map (fun s => { m with VersionID := s })
  else some m

/-- The members of an object stored one after another; a later member with the
same key overwrites an earlier one. -/
def Message.storeAll : Message → List (String × json.Value) → Option Message
  | m, [] => some m
  | m, (key, v) :: rest =>
    match m.store key v with
    | some m1 => Message.storeAll m1 rest
    | none => none

/-- `json.Unmarshal(body, &message)` for a `Message` holding its zero value:
an error for bytes that are no JSON document, for a document that is neither
an object nor `null`, and for a member of the wrong type; `null` leaves the
zero value. -/
def Message.unmarshal : json.Text → Except String Message
  | .invalid => .error "invalid character or unexpected end of JSON input"
  | .doc .null => .ok Message.zero
  | .doc (.object members) =>
    match Message.zero.storeAll members with
    | some m => .ok m
    | none => .error "json: cannot unmarshal value into Go struct field"
  | .doc _ => .error "json: cannot unmarshal value into Go value of type handler.Message"

/-- The Go zero value of `StoreFromMessage`. -/
def StoreFromMessage.zero : StoreFromMessage :=
  { Name := "", Address := "", OwnerName := "", OpeningTime := "", ClosingTime := "" }

/-- `json.Unmarshal` storing one member of the object in the `StoreFromMessage`. -/
def StoreFromMessage.store (d : StoreFromMessage) (key : String) (v : json.Value) :
    Option StoreFromMessage :=
  if json.sameName key "name" then
    (json.intoString d.Name v).map (fun s => { d with Name := s })
  else if json.sameName key "address" then
    (json.intoString d.Address v).map (fun s => { d with Address := s })
  else if json.sameName key "ownerName" then
    (json.intoString d.OwnerName v).map (fun s => { d with OwnerName := s })
  else if json.sameName key "openingTime" then
    (json.intoString d.OpeningTime v).map (fun s => { d with OpeningTime := s })
  else if json.sameName key "closingTime" then
    (json.intoString d.ClosingTime v).map (fun s => { d with ClosingTime := s })
  else some d

/-- The members of an object stored one after another. -/
def StoreFromMessage.storeAll :
    StoreFromMessage → List (String × json.Value) → Option StoreFromMessage
  | d, [] => some d
  | d, (key, v) :: rest =>
    match d.store key v with
    | some d1 => StoreFromMessage.storeAll d1 rest
    | none => none

/-- `json.Unmarshal(message.Data, &storeData)` for a `StoreFromMessage` holding
its zero value. -/
def StoreFromMessage.unmarshal : json.Text → Except String StoreFromMessage
  | .invalid => .error "invalid character or unexpected end of JSON input"
  | .doc .null => .ok StoreFromMessage.zero
  | .doc (.object members) =>
    match StoreFromMessage.zero.storeAll members with
    | some d => .ok d
    | none => .error "json: cannot unmarshal value into Go struct field"
  | .doc _ => .error "json: cannot unmarshal value into Go value of type handler.StoreFromMessage"

/-- The Go zero value of `StoreVersionFromMessage`. -/
def StoreVersionFromMessage.zero : StoreVersionFromMessage :=
  { OwnerName := "", OpeningTime := "", ClosingTime := "" }

/-- `json.Unmarshal` storing one member of the object in the
`StoreVersionFromMessage`. -/
def StoreVersionFromMessage.store (d : StoreVersionFromMessage) (key : String) (v : json.Value) :
    Option StoreVersionFromMessage :=
  if json.sameName key "ownerName" then
    (json.intoString d.OwnerName v).map (fun s => { d with OwnerName := s })
  else if json.sameName key "openingTime" then
    (json.intoString d.OpeningTime v).map (fun s => { d with OpeningTime := s })
  else if json.sameName key "closingTime" then
    (json.intoString d.ClosingTime v).map (fun s => { d with ClosingTime := s })
  else some d

/-- The members of an object stored one after another. -/
def StoreVersionFromMessage.storeAll :
    StoreVersionFromMessage → List (String × json.Value) → Option StoreVersionFromMessage
  | d, [] => some d
  | d, (key, v) :: rest =>
    match d.store key v with
    | some d1 => StoreVersionFromMessage.storeAll d1 rest
    | none => none

/-- `json.Unmarshal(message.Data, &storeVersionData)` for a
`StoreVersionFromMessage` holding its zero value. -/
def StoreVersionFromMessage.unmarshal : json.Text → Except String StoreVersionFromMessage
  | .invalid => .error "invalid character or unexpected end of JSON input"
  | .doc .null => .ok StoreVersionFromMessage.zero
  | .doc (.object members) =>
    match StoreVersionFromMessage.zero.storeAll members with
    | some d => .ok d
    | none => .error "json: cannot unmarshal value into Go struct field"
  | .doc _ =>
    .error "json: cannot unmarshal value into Go value of type handler.StoreVersionFromMessage"

/-- The part of `amqp.Delivery` the handler reads: the body. -/
structure Delivery where
  Body : json.Text

/-- `extractStoreID` (`message_handler.go`, lines 276-283). -/
def extractStoreID (msg : Delivery) : String :=
  match Message.unmarshal msg.Body with
  | .error _ => ""
  | .ok message => message.StoreID

/-- `extractVersionID` (`message_handler.go`, lines 285-293). -/
def extractVersionID (msg : Delivery) : String :=
  match Message.unmarshal msg.Body with
  | .error _ => ""
  | .ok message => message.VersionID

/-- `extractAction` (`message_handler.go`, lines 295-302). -/
def extractAction (msg : Delivery) : String :=
  match Message.unmarshal msg.Body with
  | .error _ => ""
  | .ok message => message.Action

/-- `extractStoreData` (`message_handler.go`, lines 304-318). -/
def extractStoreData (msg : Delivery) : Except String StoreFromMessage :=
  match Message.unmarshal msg.Body with
  | .error err => .error err
  | .ok message =>
    match StoreFromMessage.unmarshal message.Data with
    | .error err => .error err
    | .ok storeData => .ok storeData

/-- `extractStoreVersionData` (`message_handler.go`, lines 320-334). -/
def extractStoreVersionData (msg : Delivery) : Except String StoreVersionFromMessage :=
  match Message.unmarshal msg.Body with
  | .error err => .error err
  | .ok message =>
    match StoreVersionFromMessage.unmarshal message.Data with
    | .error err => .error err
    | .ok storeVersionData => .ok storeVersionData

/-- `extractLogin` (`message_handler.go`, lines 336-343). -/
def extractLogin (msg : Delivery) : String :=
  match Message.unmarshal msg.Body with
  | .error _ => ""
  | .ok message => message.UserLogin

end handler

namespace handler

/-- What a result callback carries under its key: a text, or the value a read
returned (`interface{}` in `sendErrorResponseToGateway` and
`sendSuccessResponseToGateway`). -/
inductive Content where
  | text (s : String)
  | store (s : model.Store)
  | history (l : List model.StoreVersion)
  | version (v : model.StoreVersion)
deriving DecidableEq, Repr

/-- The `map[string]interface{}` of a result callback: its members. -/
abbrev Payload := List (String × Content)

/-- A call of a method of the interface `StoreService` with its arguments as
the handler passes them. -/
inductive Invocation where
  | CreateStore (data : service.Store) (login : String)
  | CreateStoreVersion (data : service.StoreVersion) (storeId login : String)
  | DeleteStore (storeId login : String)
  | DeleteStoreVersion (storeId versionId login : String)
  | GetStoreByID (storeId : String)
  | GetStoreVersionHistory (storeId : String)
  | GetStoreVersionByID (storeId versionId : String)
deriving DecidableEq, Repr

/-- What a call of a method of `StoreService` returned: an error, nil (a
mutation), or the value of a read. -/
inductive Answer where
  | failed (err : Error)
  | done
  | store (s : model.Store)
  | history (l : List model.StoreVersion)
  | version (v : model.StoreVersion)
deriving DecidableEq, Repr

/-- What the surroundings supply while one message is handled: how the
database reads the text of a key (`none` when it refuses the text; the column
types belong to the schema of `internal/migration`, which is not among the
sources), the clock text, the keys the database assigns to inserted rows, the
driver outcomes of the first and the second read of a service method and of
the round trips of the repository methods, and the outcome of the HTTP POST to
the gateway. -/
structure Env where
  keyOf : String → Option Nat
  now : String
  storeID : Nat
  versionID : Nat
  oFirst : Outcome
  oSecond : Outcome
  drvCreateStore : postgres.CreateStoreStep → Outcome
  drvCreateStoreVersion : postgres.CreateStoreVersionStep → Outcome
  drvTx : postgres.TxStep → Outcome
  drvVersions : postgres.TxStep → Outcome
  post : Outcome

/-- The key the database reads in the text `id`, with the outcome of the query
that carries the text: when the database refuses the text the query fails. -/
def Env.readKey (env : Env) (id : String) (o : Outcome) : Nat × Outcome :=
  match env.keyOf id with
  | some k => (k, o)
  | none => (0, some (o.getD "invalid input syntax for type integer"))

/-- The method `CreateStore` of the interface `StoreService`, implemented by
`service.StoreService` on the repository (wired in `cmd/app/main.go`). -/
def StoreService.CreateStore (env : Env) (db : DB) (data : service.Store) (login : String) :
    Option Error × DB :=
  service.StoreService.CreateStore db data login env.now env.storeID env.versionID
    env.drvCreateStore

/-- The method `CreateStoreVersion` of the interface `StoreService`. -/
def StoreService.CreateStoreVersion (env : Env) (db : DB) (data : service.StoreVersion)
    (storeId login : String) : Option Error × DB :=
  service.StoreService.CreateStoreVersion db data (env.readKey storeId env.oFirst).1 login
    env.now env.versionID (env.readKey storeId env.oFirst).2 env.drvCreateStoreVersion

/-- The method `DeleteStore` of the interface `StoreService`. -/
def StoreService.DeleteStore (env : Env) (db : DB) (storeId login : String) : Option Error × DB :=
  service.StoreService.DeleteStore db (env.readKey storeId env.oFirst).1 login
    (env.readKey storeId env.oFirst).2 env.oSecond env.drvTx env.drvVersions

/-- The method `DeleteStoreVersion` of the interface `StoreService`; its first
query carries both keys. -/
def StoreService.DeleteStoreVersion (env : Env) (db : DB) (storeId versionId login : String) :
    Option Error × DB :=
  service.StoreService.DeleteStoreVersion db (env.readKey storeId env.oFirst).1
    (env.readKey versionId (env.readKey storeId env.oFirst).2).1 login
    (env.readKey versionId (env.readKey storeId env.oFirst).2).2 env.oSecond env.drvTx

/-- The method `GetStoreByID` of the interface `StoreService`. -/
def StoreService.GetStoreByID (env : Env) (db : DB) (storeId : String) :
    Except Error model.Store :=
  service.StoreService.GetStoreByID db (env.readKey storeId env.oFirst).1
    (env.readKey storeId env.oFirst).2

/-- The method `GetStoreVersionHistory` of the interface `StoreService`. -/
def StoreService.GetStoreVersionHistory (env : Env) (db : DB) (storeId : String) :
    Except Error (List model.StoreVersion) :=
  service.StoreService.GetStoreVersionHistory db (env.readKey storeId env.oFirst).1
    (env.readKey storeId env.oFirst).2

/-- The method `GetStoreVersionByID` of the interface `StoreService`; its first
query carries both keys. -/
def StoreService.GetStoreVersionByID (env : Env) (db : DB) (storeId versionId : String) :
    Except Error model.StoreVersion :=
  service.StoreService.GetStoreVersionByID db (env.readKey storeId env.oFirst).1
    (env.readKey versionId (env.readKey storeId env.oFirst).2).1
    (env.readKey versionId (env.readKey storeId env.oFirst).2).2 env.oSecond

/-- What handling one message did: the database it leaves, the calls of
`StoreService` methods it made with what they returned, and the callbacks it
posted (URL and payload), each in the order of the program. -/
structure Handled where
  db : DB
  served : List (Invocation × Answer)
  posted : List (String × Payload)

/-- `sendResponseToGateway` (`message_handler.go`, lines 60-77): one HTTP POST
of the payload to the URL; the error it returns is the outcome of the POST
(transport failure or a status other than 200).  `json.Marshal` does not fail
on the payloads the handler builds. -/
def sendResponseToGateway (env : Env) (url : String) (payload : Payload) :
    Option String × List (String × Payload) :=
  (env.post, [(url, payload)])

/-- `sendErrorResponseToGateway` (`message_handler.go`, lines 345-350). -/
def sendErrorResponseToGateway (env : Env) (url : String) (errorMessage : Content) :
    Option String × List (String × Payload) :=
  sendResponseToGateway env url [("error", errorMessage)]

/-- `sendSuccessResponseToGateway` (`message_handler.go`, lines 352-357). -/
def sendSuccessResponseToGateway (env : Env) (url : String) (successMessage : Content) :
    Option String × List (String × Payload) :=
  sendResponseToGateway env url [("message", successMessage)]

/-- Go struct `MessageHandler`: the gateway URL (the service is the one above,
the logger has no effect on state). -/
structure MessageHandler where
  gatewayUrl : String

/-- `handleDeleteStore` (`message_handler.go`, lines 105-125).  The error of
the send is logged and nothing else. -/
def MessageHandler.handleDeleteStore (h : MessageHandler) (env : Env) (db : DB) (msg : Delivery)
    (userLogin : String) : Handled :=
  let storeId := extractStoreID msg
  match StoreService.DeleteStore env db storeId userLogin with
  | (some err, db1) =>
    { db := db1, served := [(.DeleteStore storeId userLogin, .failed err)],
      posted := (sendErrorResponseToGateway env h.gatewayUrl (.text err.Error)).2 }
  | (none, db1) =>
    { db := db1, served := [(.DeleteStore storeId userLogin, .done)],
      posted := (sendSuccessResponseToGateway env h.gatewayUrl
        (.text "Store deleted successfully")).2 }

/-- `handleDeleteStoreVersion` (`message_handler.go`, lines 127-148). -/
def MessageHandler.handleDeleteStoreVersion (h : MessageHandler) (env : Env) (db : DB)
    (msg : Delivery) (userLogin : String) : Handled :=
  let storeId := extractStoreID msg
  let versionId := extractVersionID msg
  match StoreService.DeleteStoreVersion env db storeId versionId userLogin with
  | (some err, db1) =>
    { db := db1, served := [(.DeleteStoreVersion storeId versionId userLogin, .failed err)],
      posted := (sendErrorResponseToGateway env h.gatewayUrl (.text err.Error)).2 }
  | (none, db1) =>
    { db := db1, served := [(.DeleteStoreVersion storeId versionId userLogin, .done)],
      posted := (sendSuccessResponseToGateway env h.gatewayUrl
        (.text "Store version deleted successfully")).2 }

/-- `handleCreateStore` (`message_handler.go`, lines 150-181). -/
def MessageHandler.handleCreateStore (h : MessageHandler) (env : Env) (db : DB) (msg : Delivery)
    (userLogin : String) : Handled :=
  match extractStoreData msg with
  | .error _ => { db := db, served := [], posted := [] }
  | .ok storeData =>
    let srvStore : service.Store :=
      { Name := storeData.Name
        Address := storeData.Address
        OwnerName := storeData.OwnerName
        OpeningTime := storeData.OpeningTime
        ClosingTime := storeData.ClosingTime }
    match StoreService.CreateStore env db srvStore userLogin with
    | (some err, db1) =>
      { db := db1, served := [(.CreateStore srvStore userLogin, .failed err)],
        posted := (sendErrorResponseToGateway env h.gatewayUrl (.text err.Error)).2 }
    | (none, db1) =>
      { db := db1, served := [(.CreateStore srvStore userLogin, .done)],
        posted := (sendSuccessResponseToGateway env h.gatewayUrl
          (.text "Store created successfully")).2 }

/-- `handleCreateStoreVersion` (`message_handler.go`, lines 183-213). -/
def MessageHandler.handleCreateStoreVersion (h : MessageHandler) (env : Env) (db : DB)
    (msg : Delivery) (login : String) : Handled :=
  let storeId := extractStoreID msg
  match extractStoreVersionData msg with
  | .error _ => { db := db, served := [], posted := [] }
  | .ok storeVersionData =>
    let srvStoreVersion : service.StoreVersion :=
      { OwnerName := storeVersionData.OwnerName
        OpeningTime := storeVersionData.OpeningTime
        ClosingTime := storeVersionData.ClosingTime
        CreatedAt := "" }
    match StoreService.CreateStoreVersion env db srvStoreVersion storeId login with
    | (some err, db1) =>
      { db := db1, served := [(.CreateStoreVersion srvStoreVersion storeId login, .failed err)],
        posted := (sendErrorResponseToGateway env h.gatewayUrl (.text err.Error)).2 }
    | (none, db1) =>
      { db := db1, served := [(.CreateStoreVersion srvStoreVersion storeId login, .done)],
        posted := (sendSuccessResponseToGateway env h.gatewayUrl
          (.text "Store version created successfully")).2 }

/-- `handleGetStore` (`message_handler.go`, lines 215-233). -/
def MessageHandler.handleGetStore (h : MessageHandler) (env : Env) (db : DB) (msg : Delivery) :
    Handled :=
  let storeId := extractStoreID msg
  match StoreService.GetStoreByID env db storeId with
  | .error err =>
    { db := db, served := [(.GetStoreByID storeId, .failed err)],
      posted := (sendErrorResponseToGateway env h.gatewayUrl (.text err.Error)).2 }
  | .ok store =>
    { db := db, served := [(.GetStoreByID storeId, .store store)],
      posted := (sendSuccessResponseToGateway env h.gatewayUrl (.store store)).2 }

/-- `handleGetStoreHistory` (`message_handler.go`, lines 235-253). -/
def MessageHandler.handleGetStoreHistory (h : MessageHandler) (env : Env) (db : DB)
    (msg : Delivery) : Handled :=
  let storeId := extractStoreID msg
  match StoreService.GetStoreVersionHistory env db storeId with
  | .error err =>
    { db := db, served := [(.GetStoreVersionHistory storeId, .failed err)],
      posted := (sendErrorResponseToGateway env h.gatewayUrl (.text err.Error)).2 }
  | .ok storeHistory =>
    { db := db, served := [(.GetStoreVersionHistory storeId, .history storeHistory)],
      posted := (sendSuccessResponseToGateway env h.gatewayUrl (.history storeHistory)).2 }

/-- `handleGetStoreVersion` (`message_handler.go`, lines 255-274). -/
def MessageHandler.handleGetStoreVersion (h : MessageHandler) (env : Env) (db : DB)
    (msg : Delivery) : Handled :=
  let storeId := extractStoreID msg
  let versionId := extractVersionID msg
  match StoreService.GetStoreVersionByID env db storeId versionId with
  | .error err =>
    { db := db, served := [(.GetStoreVersionByID storeId versionId, .failed err)],
      posted := (sendErrorResponseToGateway env h.gatewayUrl (.text err.Error)).2 }
  | .ok storeVersion =>
    { db := db, served := [(.GetStoreVersionByID storeId versionId, .version storeVersion)],
      posted := (sendSuccessResponseToGateway env h.gatewayUrl (.version storeVersion)).2 }

/-- `HandleMessage` (`message_handler.go`, lines 79-103). -/
def MessageHandler.HandleMessage (h : MessageHandler) (env : Env) (db : DB) (msg : Delivery) :
    Handled :=
  let userLogin := extractLogin msg
  let action := extractAction msg
  if action = "delete_store" then h.handleDeleteStore env db msg userLogin
  else if action = "delete_store_version" then h.handleDeleteStoreVersion env db msg userLogin
  else if action = "create_store" then h.handleCreateStore env db msg userLogin
  else if action = "create_store_version" then h.handleCreateStoreVersion env db msg userLogin
  else if action = "get_store" then h.handleGetStore env db msg
  else if action = "get_store_history" then h.handleGetStoreHistory env db msg
  else if action = "get_store_version" then h.handleGetStoreVersion env db msg
  else { db := db, served := [], posted := [] }

end handler

/-! ## The dispatch of a command, in the words of the spec -/

namespace handler

/-- The operation a command message is routed to ("route by action tag to
exactly one mutation/query operation"), with the fields of the envelope as its
arguments; `none` for a message that is dropped: the envelope is not decoded,
the action is none of the seven tags, or the data of a create action is not
decoded. -/
def route (msg : Delivery) : Option Invocation :=
  match Message.unmarshal msg.Body with
  | .error _ => none
  | .ok m =>
    if m.Action = "delete_store" then some (.DeleteStore m.StoreID m.UserLogin)
    else if m.Action = "delete_store_version" then
      some (.DeleteStoreVersion m.StoreID m.VersionID m.UserLogin)
    else if m.Action = "create_store" then
      match StoreFromMessage.unmarshal m.Data with
      | .error _ => none
      | .ok d =>
        some (.CreateStore { Name := d.Name, Address := d.Address, OwnerName := d.OwnerName,
                             OpeningTime := d.OpeningTime, ClosingTime := d.ClosingTime }
          m.UserLogin)
    else if m.Action = "create_store_version" then
      match StoreVersionFromMessage.unmarshal m.Data with
      | .error _ => none
      | .ok d =>
        some (.CreateStoreVersion { OwnerName := d.OwnerName, OpeningTime := d.OpeningTime,
                                    ClosingTime := d.ClosingTime, CreatedAt := "" }
          m.StoreID m.UserLogin)
    else if m.Action = "get_store" then some (.GetStoreByID m.StoreID)
    else if m.Action = "get_store_history" then some (.GetStoreVersionHistory m.StoreID)
    else if m.Action = "get_store_version" then some (.GetStoreVersionByID m.StoreID m.VersionID)
    else none

/-- The service operation of the invocation carried out on the database: what
it returns and the database it leaves. -/
def Invocation.perform (env : Env) (db : DB) : Invocation → Answer × DB
  | .CreateStore data login =>
    match StoreService.CreateStore env db data login with
    | (some err, db1) => (.failed err, db1)
    | (none, db1) => (.done, db1)
  | .CreateStoreVersion data storeId login =>
    match StoreService.CreateStoreVersion env db data storeId login with
    | (some err, db1) => (.failed err, db1)
    | (none, db1) => (.done, db1)
  | .DeleteStore storeId login =>
    match StoreService.DeleteStore env db storeId login with
    | (some err, db1) => (.failed err, db1)
    | (none, db1) => (.done, db1)
  | .DeleteStoreVersion storeId versionId login =>
    match StoreService.DeleteStoreVersion env db storeId versionId login with
    | (some err, db1) => (.failed err, db1)
    | (none, db1) => (.done, db1)
  | .GetStoreByID storeId =>
    match StoreService.GetStoreByID env db storeId with
    | .error err => (.failed err, db)
    | .ok store => (.store store, db)
  | .GetStoreVersionHistory storeId =>
    match StoreService.GetStoreVersionHistory env db storeId with
    | .error err => (.failed err, db)
    | .ok storeHistory => (.history storeHistory, db)
  | .GetStoreVersionByID storeId versionId =>
    match StoreService.GetStoreVersionByID env db storeId versionId with
    | .error err => (.failed err, db)
    | .ok storeVersion => (.version storeVersion, db)

/-- The fixed text reported after a mutation that succeeded. -/
def successText : Invocation → String
  | .CreateStore _ _ => "Store created successfully"
  | .CreateStoreVersion _ _ _ => "Store version created successfully"
  | .DeleteStore _ _ => "Store deleted successfully"
  | .DeleteStoreVersion _ _ _ => "Store version deleted successfully"
  | _ => ""

/-- The result message for an operation and what it returned ("on success:
build a success Result Message; on domain error: build an error Result Message
carrying the error's human-readable text"). -/
def resultPayload (inv : Invocation) : Answer → Payload
  | .failed err => [("error", .text err.Error)]
  | .done => [("message", .text (successText inv))]
  | .store s => [("message", .store s)]
  | .history l => [("message", .history l)]
  | .version v => [("message", .version v)]

end handler

/-- A reading of keys written in decimal digits: the number of a text of
digits, nothing for any other text. -/
def decimalKey (s : String) : Option Nat :=
  if s.data = [] then none
  else s.data.foldl
    (fun acc c => if c.isDigit then acc.map (fun n => 10 * n + (c.toNat - 48)) else none)
    (some 0)

/-- Surroundings in which nothing fails: keys are read in decimal, the next
store gets key 5 and the next version key 9. -/
def sampleEnv : handler.Env :=
  { keyOf := decimalKey, now := "2024-01-05 10:00:00", storeID := 5, versionID := 9,
    oFirst := none, oSecond := none, drvCreateStore := healthy,
    drvCreateStoreVersion := healthy, drvTx := healthy, drvVersions := healthy, post := none }

/-- The handler of the storage service with its gateway URL. -/
def sampleHandler : handler.MessageHandler := { gatewayUrl := "http://gateway:8080/response/" }

namespace handler

/-- What handling a command that is routed to the operation `inv` amounts to:
the operation is carried out once and one callback with its result message is
posted to the gateway URL. -/
def dispatched (h : MessageHandler) (env : Env) (db : DB) (inv : Invocation) : Handled :=
  { db := (inv.perform env db).2
    served := [(inv, (inv.perform env db).1)]
    posted := [(h.gatewayUrl, resultPayload inv (inv.perform env db).1)] }

end handler

/-- The command the gateway publishes for `DELETE /storage/store/1` by `alice`. -/
def sampleDeleteMsg : handler.Delivery :=
  { Body := gateway.buildMessage .nil (GoString.ofString "delete_store")
      (GoString.ofString "alice") (GoString.ofString "1") [] }

/-- The command the gateway publishes for `DELETE /storage/store/1` by `bob`. -/
def sampleDeleteByBobMsg : handler.Delivery :=
  { Body := gateway.buildMessage .nil (GoString.ofString "delete_store")
      (GoString.ofString "bob") (GoString.ofString "1") [] }

/-- The command the gateway publishes for `GET /storage/store/1` by `bob`. -/
def sampleGetMsg : handler.Delivery :=
  { Body := gateway.buildMessage .nil (GoString.ofString "get_store")
      (GoString.ofString "bob") (GoString.ofString "1") [] }

/-- The command the gateway publishes for `POST /storage/store` by `carol`. -/
def sampleCreateMsg : handler.Delivery :=
  { Body := gateway.buildMessage
      (.store { Name := GoString.ofString "Book Shop", Address := GoString.ofString "2 High Street",
                OwnerName := GoString.ofString "Carol", OpeningTime := GoString.ofString "09:00",
                ClosingTime := GoString.ofString "18:00" })
      (GoString.ofString "create_store") (GoString.ofString "carol") [] [] }

/-- A message with an action that is none of the seven tags. -/
def sampleUnknownMsg : handler.Delivery :=
  { Body := gateway.buildMessage .nil (GoString.ofString "rename_store")
      (GoString.ofString "alice") (GoString.ofString "1") [] }

/-- A `create_store` message without a `data` member. -/
def sampleNoDataMsg : handler.Delivery :=
  { Body := .doc (.object [("action", .string "create_store"), ("userLogin", .string "carol")]) }

/-- Surroundings in which the driver refuses to begin a transaction, with the
text `msg` as its error. -/
def sampleEnvFailing (msg : String) : handler.Env :=
  { sampleEnv with drvCreateStore := failingAt postgres.CreateStoreStep.Beginx msg }

/-- The request data of the command `sampleCreateMsg`. -/
def sampleCreateData : service.Store :=
  { Name := "Book Shop", Address := "2 High Street", OwnerName := "Carol",
    OpeningTime := "09:00", ClosingTime := "18:00" }

/-- The path parameter `id` of the request `GET /storage/store/%ff`: the one
byte `0xFF`, which is not UTF-8. -/
def sampleRawStoreId : GoString := [0xFF]

/-- The message the gateway builds for `GET /storage/store/%ff` of `alice`. -/
def sampleRawIdMsg : handler.Delivery :=
  { Body := gateway.buildMessage .nil (GoString.ofString "get_store")
      (GoString.ofString "alice") sampleRawStoreId [] }

/-! ## The service over the interface `Repository` -/

/-- The methods of the Go interface `Repository` (`store_service.go`, lines
10-20) that `StoreService.CreateStoreVersion` calls, over the state `σ` of an
implementation.  The store key is carried as in `postgres.Repository`. -/
structure service.Repository (σ : Type) where
  GetStoreByID : σ → Nat → Except Error model.Store × σ
  CreateStoreVersion : σ → model.StoreVersion → Option Error × σ

/-- `StoreService.CreateStoreVersion` (`store_service.go`, lines 78-114) over
an implementation `repository` of the interface: the calls the method makes on
`s.repository`, in program order.  `now` is the clock text. -/
def service.StoreService.CreateStoreVersionOver {σ : Type} (repository : service.Repository σ)
    (s : σ) (data : service.StoreVersion) (storeID : Nat) (login now : String) :
    Option Error × σ :=
  match repository.GetStoreByID s storeID with
  | (.error _, s1) => (some .ErrStoreNotFound, s1)
  | (.ok _, s1) =>
    let storeVersionModel : model.StoreVersion :=
      { VersionID := 0
        StoreID := storeID
        VersionNumber := 0
        CreatorLogin := login
        OwnerName := data.OwnerName
        OpeningTime := data.OpeningTime
        ClosingTime := data.ClosingTime
        CreatedAt := now
        IsLast := true }
    match repository.CreateStoreVersion s1 storeVersionModel with
    | (some err, s2) => (some err, s2)
    | (none, s2) => (none, s2)

/-- What one call of `postgres.Repository.CreateStoreVersion` meets: the key
the database would assign and the driver outcomes of its round trips. -/
structure Attempt where
  versionID : Nat
  drv : postgres.CreateStoreVersionStep → Outcome

/-- The repository `postgres.Repository` as an implementation of the
interface, its state being the database and the number of calls of
`CreateStoreVersion` made so far.  The call number `i` meets `attempts i`, so
the database may answer a repeated call differently; `oGet` is the driver
outcome of the read. -/
def countingRepository (oGet : Outcome) (attempts : Nat → Attempt) :
    service.Repository (DB × Nat) :=
  { GetStoreByID := fun s storeId => (postgres.Repository.GetStoreByID s.1 storeId oGet, s)
    CreateStoreVersion := fun s storeVersion =>
      ((postgres.Repository.CreateStoreVersion s.1 storeVersion (attempts s.2).versionID
          (attempts s.2).drv).1,
       ((postgres.Repository.CreateStoreVersion s.1 storeVersion (attempts s.2).versionID
          (attempts s.2).drv).2, s.2 + 1)) }

/-- The text of PostgreSQL for a transaction that cannot be serialised
(SQLSTATE 40001), as the driver passes it on. -/
def serializationFailure : String :=
  "pq: could not serialize access due to read/write dependencies among transactions"

/-- The first call of `CreateStoreVersion` fails at `Commit` with a
serialization failure, every later call goes through; the key is 2. -/
def sampleConflictOnce : Nat → Attempt :=
  fun i =>
    if i = 0 then { versionID := 2, drv := failingAt .Commit serializationFailure }
    else { versionID := 2, drv := healthy }

/-- The request data of a new version of the sample store. -/
def sampleVersionData : service.StoreVersion :=
  { OwnerName := "Alice", OpeningTime := "09:00", ClosingTime := "21:00", CreatedAt := "" }

/-! ## Connection establishment at startup -/

namespace provider

/-- The loop of `RetryConnection`: `remaining` iterations are left and `i`
calls of `exec` have been made. -/
def RetryConnection.loop {R : Type} (exec : Nat → Option R × Option String) :
    Nat → Nat → (Option R × Option String) × Nat
  | 0, i => ((none, some "retry connection failed"), i)
  | remaining + 1, i =>
    match exec i with
    | (res, none) => ((res, none), i + 1)
    | (_, some _) => RetryConnection.loop exec remaining (i + 1)

/-- `RetryConnection` (`auth_client.go`, lines 96-106) of the gateway.  The
count `times` is the Go `int` argument `repeat`; `exec i` is what the call
number `i` of `exec` returns (a value, nil as `none`, and an error).  The result
is the pair the function returns together with the number of calls of `exec`
it made.  `time.Sleep` has no effect on the result. -/
def RetryConnection {R : Type} (times : Int) (exec : Nat → Option R × Option String) :
    (Option R × Option String) × Nat :=
  RetryConnection.loop exec times.toNat 0

end provider

/-- The loop of `initDB`: `remaining` iterations are left, `i` calls of
`ConnectToPostgresDB` have been made and `err` is the current value of the
result variable `err`. -/
def initDB.loop (connect : Nat → Option String) (migrate : Option String) :
    Nat → Nat → Option String → (Option Nat × Option String) × Nat
  | 0, i, err => ((none, err), i)
  | remaining + 1, i, _ =>
    match connect i with
    | none =>
      match migrate with
      | some e => ((none, some ("migration failure: " ++ e)), i + 1)
      | none => ((some i, none), i + 1)
    | some e => initDB.loop connect migrate remaining (i + 1) (some e)

/-- `initDB` (`cmd/app/main.go` of the storage service, lines 141-181).
`ReconnRetry` is the Go `int` of the configuration (`viper.GetInt`, 0 for a
missing key); `cfg.DBConfig()` returns a nil error (`config.go`, line 115);
`connect i` is the error of the call number `i` of `ConnectToPostgresDB` and
`migrate` the error of `migrator.Migrate`.  The result is the returned pair
`(repo, err)`, the repository being named by the number of the call that
connected (`none` for a nil pointer), together with the number of connection
attempts made.  After the loop the function returns the variables `repo` and
`err` as they are. -/
def initDB (ReconnRetry : Int) (connect : Nat → Option String) (migrate : Option String) :
    (Option Nat × Option String) × Nat :=
  initDB.loop connect migrate ReconnRetry.toNat 0 none

/-! ## Regular expressions (`regexp`)

The three patterns of `validation.go` are anchored at both ends (`^`, `$`, no
flags), so `regexp.MatchString` reports whether the whole string belongs to
the language of the expression in between.  All their character classes are
sets of ASCII characters (`\d` is `[0-9]`, `\s` is `[\t\n\f\r ]`): a string with
a byte above `0x7F` does not match, and matching the bytes is the same as
matching the characters. -/

namespace regexp

/-- A character class: a list of ranges of byte values, both ends included. -/
abbrev Class := List (Nat × Nat)

/-- Whether the byte belongs to the class. -/
def Class.mem (c : Class) (b : Nat) : Bool :=
  c.any (fun r => r.1 ≤ b && b ≤ r.2)

/-- A regular expression over bytes. -/
inductive Regex where
  | empty
  | eps
  | cls (c : Class)
  | seq (a b : Regex)
  | alt (a b : Regex)
  | star (a : Regex)
deriving DecidableEq, Repr

/-- Whether the expression matches the empty string. -/
def Regex.nullable : Regex → Bool
  | .empty => false
  | .eps => true
  | .cls _ => false
  | .seq a b => a.nullable && b.nullable
  | .alt a b => a.nullable || b.nullable
  | .star _ => true

/-- The derivative of the expression by the byte `x`: it matches `s` exactly
when the expression matches `x :: s`. -/
def Regex.deriv (x : Nat) : Regex → Regex
  | .empty => .empty
  | .eps => .empty
  | .cls c => if c.mem x then .eps else .empty
  | .seq a b => if a.nullable then .alt (.seq (a.deriv x) b) (b.deriv x) else .seq (a.deriv x) b
  | .alt a b => .alt (a.deriv x) (b.deriv x)
  | .star a => .seq (a.deriv x) (.star a)

/-- Whether the whole string `s` matches the expression. -/
def Regex.matches (r : Regex) : List Nat → Bool
  | [] => r.nullable
  | x :: s => (r.deriv x).matches s

/-- The expression `a+`. -/
def Regex.plus (a : Regex) : Regex := .seq a (.star a)

/-- The expression `a?`. -/
def Regex.opt (a : Regex) : Regex := .alt a .eps

/-- The expression that matches one character of each class of `items`, one
after another (`eps` for no item); `c{n}` stands for `n` items `c`. -/
def Regex.ofClasses : List Class → Regex
  | [] => .eps
  | [c] => .cls c
  | c :: d :: rest => .seq (.cls c) (Regex.ofClasses (d :: rest))

/-- The class `\d`. -/
def digit : Class := [(0x30, 0x39)]

/-- The class `\s`: tab, line feed, form feed, carriage return, space. -/
def space : Class := [(0x09, 0x0A), (0x0C, 0x0D), (0x20, 0x20)]

/-- The class of the one character with the code `x`. -/
def lit (x : Nat) : Class := [(x, x)]

/-- `regexp.MatchString` for an anchored pattern on a Go string. -/
def MatchString (r : Regex) (s : GoString) : Bool :=
  r.matches (s.map (fun b => b.val))

end regexp

/-! ## The parser of `time.Parse` for the layout `2006-01-02 15:04:05` -/

namespace time

/-- `isDigit` of package `time` on a byte. -/
def isDigit (b : Nat) : Bool := 0x30 ≤ b && b ≤ 0x39

/-- The layout element `2006`: four digits (`stdLongYear`, `atoi` of the first
four bytes). -/
def getyear (value : List Nat) : Option (Nat × List Nat) :=
  match value with
  | a :: b :: c :: d :: rest =>
    if isDigit a && isDigit b && isDigit c && isDigit d then
      some ((a - 0x30) * 1000 + (b - 0x30) * 100 + (c - 0x30) * 10 + (d - 0x30), rest)
    else none
  | _ => none

/-- `getnum(s, fixed)`: the number of the two digits at the front of `s`, or of
one digit when only one is there and `fixed` is false. -/
def getnum (s : List Nat) (fixed : Bool) : Option (Nat × List Nat) :=
  match s with
  | [] => none
  | a :: rest =>
    if !isDigit a then none
    else
      match rest with
      | [] => if fixed then none else some (a - 0x30, [])
      | b :: rest2 =>
        if isDigit b then some ((a - 0x30) * 10 + (b - 0x30), rest2)
        else if fixed then none else some (a - 0x30, rest)

/-- `skip(value, prefix)` for a prefix of one character other than the space. -/
def skipChar (x : Nat) (value : List Nat) : Option (List Nat) :=
  match value with
  | [] => none
  | a :: rest => if a = x then some rest else none

/-- `skip(value, " ")`: a space of the layout stands for the spaces at the
front of the value; a value that starts with another character is refused. -/
def skipSpace (value : List Nat) : Option (List Nat) :=
  match value with
  | [] => some []
  | a :: rest => if a = 0x20 then some ((a :: rest).dropWhile (fun b => b == 0x20)) else none

/-- A fraction of a second in the value after the seconds, which `Parse`
accepts although the layout has none: a period or comma and the digits after
it are passed over. -/
def skipFraction (value : List Nat) : List Nat :=
  match value with
  | p :: d :: rest =>
    if (p == 0x2E || p == 0x2C) && isDigit d then (d :: rest).dropWhile isDigit else value
  | _ => value

/-- `isLeap`. -/
def isLeap (year : Nat) : Bool :=
  year % 4 == 0 && (year % 100 != 0 || year % 400 == 0)

/-- The table `daysBefore`: the days of a year that is no leap year before the
end of each month. -/
def daysBefore : List Nat :=
  [0, 31, 59, 90, 120, 151, 181, 212, 243, 273, 304, 334, 365]

/-- `daysIn(m, year)`. -/
def daysIn (m year : Nat) : Nat :=
  if m = 2 && isLeap year then 29 else daysBefore.getD m 0 - daysBefore.getD (m - 1) 0

/-- Whether `time.Parse("2006-01-02 15:04:05", value)` returns a nil error.
The elements of the layout are read from the value in order, each number is
checked against its range where `Parse` does so (month, hour, minute, second),
no text may be left, and at the end the day is checked against the month and
the year. -/
def Parse (value : List Nat) : Bool :=
  match getyear value with
  | none => false
  | some (year, v1) =>
    match skipChar 0x2D v1 with
    | none => false
    | some v2 =>
      match getnum v2 true with
      | none => false
      | some (month, v3) =>
        if month ≤ 0 || 12 < month then false
        else
          match skipChar 0x2D v3 with
          | none => false
          | some v4 =>
            match getnum v4 true with
            | none => false
            | some (day, v5) =>
              match skipSpace v5 with
              | none => false
              | some v6 =>
                match getnum v6 false with
                | none => false
                | some (hour, v7) =>
                  if 24 ≤ hour then false
                  else
                    match skipChar 0x3A v7 with
                    | none => false
                    | some v8 =>
                      match getnum v8 true with
                      | none => false
                      | some (min, v9) =>
                        if 60 ≤ min then false
                        else
                          match skipChar 0x3A v9 with
                          | none => false
                          | some v10 =>
                            match getnum v10 true with
                            | none => false
                            | some (sec, v11) =>
                              if 60 ≤ sec then false
                              else if (skipFraction v11).length > 0 then false
                              else if day < 1 || day > daysIn month year then false
                              else true

end time

/-! ## Gateway Service: `internal/handler/validation/validation.go` -/

namespace validation

/-- The class `[A-Za-z\s]`. -/
def letterOrSpace : regexp.Class := [(0x41, 0x5A), (0x61, 0x7A)] ++ regexp.space

/-- The class `[A-Za-z0-9\s]`. -/
def letterDigitOrSpace : regexp.Class := [(0x41, 0x5A), (0x61, 0x7A), (0x30, 0x39)] ++ regexp.space

/-- The pattern of `ValidateOwnerName`: one or more letters or spaces, a comma,
at most one white space character, one or more letters or spaces. -/
def ownerNamePattern : regexp.Regex :=
  .seq (regexp.Regex.plus (.cls letterOrSpace))
    (.seq (.cls (regexp.lit 0x2C))
      (.seq (regexp.Regex.opt (.cls regexp.space)) (regexp.Regex.plus (.cls letterOrSpace))))

/-- The pattern of `ValidateAddress`. -/
def addressPattern : regexp.Regex :=
  .seq (regexp.Regex.plus (.cls letterOrSpace))
    (.seq (.cls (regexp.lit 0x2C))
      (.seq (regexp.Regex.opt (.cls regexp.space))
        (.seq (regexp.Regex.plus (.cls letterOrSpace))
          (.seq (.cls (regexp.lit 0x2C))
            (.seq (regexp.Regex.opt (.cls regexp.space))
              (regexp.Regex.plus (.cls letterDigitOrSpace)))))))

/-- The characters of the pattern of `ValidateTimeFormat`, in order: four
digits, `-`, two digits, `-`, two digits, a space, two digits, `:`, two
digits, `:`, two digits. -/
def timeItems : List regexp.Class :=
  List.replicate 4 regexp.digit ++ [regexp.lit 0x2D] ++ List.replicate 2 regexp.digit ++
    [regexp.lit 0x2D] ++ List.replicate 2 regexp.digit ++ [regexp.lit 0x20] ++
    List.replicate 2 regexp.digit ++ [regexp.lit 0x3A] ++ List.replicate 2 regexp.digit ++
    [regexp.lit 0x3A] ++ List.replicate 2 regexp.digit

/-- The pattern of `ValidateTimeFormat`. -/
def timePattern : regexp.Regex := regexp.Regex.ofClasses timeItems

/-- `ValidateOwnerName` (`validation.go`, lines 11-16) on the string of the field. -/
def ValidateOwnerName (ownerName : GoString) : Bool :=
  regexp.MatchString ownerNamePattern ownerName

/-- `ValidateAddress` (`validation.go`, lines 18-23). -/
def ValidateAddress (address : GoString) : Bool :=
  regexp.MatchString addressPattern address

/-- `ValidateTimeFormat` (`validation.go`, lines 25-35). -/
def ValidateTimeFormat (timeStr : GoString) : Bool :=
  if !regexp.MatchString timePattern timeStr then false
  else time.Parse (timeStr.map (fun b => b.val))

end validation

/-! ## A date and a time of day, in the words of the specification -/

/-- Whether the bytes have the shape of the template: as many bytes as the
template has characters, an ASCII digit where the template has `D` and the
character of the template elsewhere. -/
def hasShape (template : String) (s : List Nat) : Bool :=
  s.length == template.length &&
    (List.zipWith (fun (t : Char) (b : Nat) =>
      if t = 'D' then decide (0x30 ≤ b ∧ b ≤ 0x39) else b == t.toNat) template.data s).all id

/-- The number written by the `n` digits from position `i` on. -/
def numberAt (s : List Nat) (i n : Nat) : Nat :=
  ((s.drop i).take n).foldl (fun acc b => acc * 10 + (b - 0x30)) 0

/-- The number of days of the month in the year of the Gregorian calendar, 0
for a number that is no month. -/
def daysOfMonth (year month : Nat) : Nat :=
  match month with
  | 1 => 31
  | 2 => if year % 4 = 0 ∧ (year % 100 ≠ 0 ∨ year % 400 = 0) then 29 else 28
  | 3 => 31
  | 4 => 30
  | 5 => 31
  | 6 => 30
  | 7 => 31
  | 8 => 31
  | 9 => 30
  | 10 => 31
  | 11 => 30
  | 12 => 31
  | _ => 0

/-- A string of the shape `DDDD-DD-DD DD:DD:DD` that denotes a real calendar
date and time of day. -/
def isRealDateTime (s : GoString) : Bool :=
  let bs := s.map (fun b => b.val)
  hasShape "DDDD-DD-DD DD:DD:DD" bs &&
    decide (1 ≤ numberAt bs 5 2 ∧ numberAt bs 5 2 ≤ 12 ∧
      1 ≤ numberAt bs 8 2 ∧ numberAt bs 8 2 ≤ daysOfMonth (numberAt bs 0 4) (numberAt bs 5 2) ∧
      numberAt bs 11 2 ≤ 23 ∧ numberAt bs 14 2 ≤ 59 ∧ numberAt bs 17 2 ≤ 59)

/-! ## The struct validator (`github.com/go-playground/validator/v10`) -/

namespace validator

/-- `utf8.RuneCountInString`, the length the tags `min` and `max` compare for
a string: a byte that is not part of a valid encoding counts as one rune. -/
def RuneCountInString (s : GoString) : Nat :=
  (GoString.toValidUTF8 s).length

/-- The error of one field: the tags of the field are checked in the order of
the struct tag and the first tag that fails is reported (`Field()`, `Tag()`);
no error when every tag passes. -/
def fieldError (field : String) (tags : List (String × Bool)) : List (String × String) :=
  match tags.find? (fun t => !t.2) with
  | some t => [(field, t.1)]
  | none => []

end validator

/-! ## Gateway Service: the handlers of `stores_handler.go` -/

namespace gateway

/-- The bytes of a request body as the decoder of `c.ShouldBindJSON` meets
them.  gin binds with `json.NewDecoder(req.Body).Decode(obj)`, which reads the
first JSON value of the stream and stops there.  `first` is that value, and
`.invalid` when the scanner of the decoder reports an error or the stream ends
before a first value is complete (an empty body included).  `rest` holds the
bytes that follow the first value; `Decode` does not read them as JSON, so a
body such as `{"name":"x"}xyz`, no JSON document as a whole, has the object
as `first` and `xyz` as `rest`. -/
structure RequestBody where
  first : json.Text
  rest : GoString

/-- `c.ShouldBindJSON(&store)` for a `Store` holding its zero value: the first
JSON value of the request body is decoded into the struct, whatever follows it
(gin's own validator looks at the tag `binding`, which the struct does not
carry).  The JSON names and types of the fields are those of
`handler.StoreFromMessage`, so the decoding of the value is the same; a decoded
string is valid UTF-8. -/
def Store.bind (body : RequestBody) : Except String Store :=
  match handler.StoreFromMessage.unmarshal body.first with
  | .error err => .error err
  | .ok d =>
    .ok { Name := GoString.ofString d.Name, Address := GoString.ofString d.Address,
          OwnerName := GoString.ofString d.OwnerName,
          OpeningTime := GoString.ofString d.OpeningTime,
          ClosingTime := GoString.ofString d.ClosingTime }

/-- `c.ShouldBindJSON(&storeVersion)` for a `StoreVersion` holding its zero value. -/
def StoreVersion.bind (body : RequestBody) : Except String StoreVersion :=
  match handler.StoreVersionFromMessage.unmarshal body.first with
  | .error err => .error err
  | .ok d =>
    .ok { OwnerName := GoString.ofString d.OwnerName,
          OpeningTime := GoString.ofString d.OpeningTime,
          ClosingTime := GoString.ofString d.ClosingTime }

/-- `h.structValidator.Struct(store)` with the custom validators registered in
`cmd/app/main.go`: the field errors in the order of the fields, by the tags
`validate:"..."` of the struct (`stores_handler.go`, lines 24-30); the empty
list stands for a nil error. -/
def Store.Struct (store : Store) : List (String × String) :=
  validator.fieldError "Name"
      [("required", !store.Name.isEmpty),
       ("min", decide (3 ≤ validator.RuneCountInString store.Name)),
       ("max", decide (validator.RuneCountInString store.Name ≤ 40))] ++
    validator.fieldError "Address"
      [("required", !store.Address.isEmpty),
       ("addressFormat", validation.ValidateAddress store.Address)] ++
    validator.fieldError "OwnerName"
      [("required", !store.OwnerName.isEmpty),
       ("ownerNameFormat", validation.ValidateOwnerName store.OwnerName)] ++
    validator.fieldError "OpeningTime"
      [("required", !store.OpeningTime.isEmpty),
       ("timeFormat", validation.ValidateTimeFormat store.OpeningTime)] ++
    validator.fieldError "ClosingTime"
      [("required", !store.ClosingTime.isEmpty),
       ("timeFormat", validation.ValidateTimeFormat store.ClosingTime)]

/-- `h.structValidator.Struct(storeVersion)` (`stores_handler.go`, lines 32-36). -/
def StoreVersion.Struct (storeVersion : StoreVersion) : List (String × String) :=
  validator.fieldError "OwnerName"
      [("required", !storeVersion.OwnerName.isEmpty),
       ("ownerNameFormat", validation.ValidateOwnerName storeVersion.OwnerName)] ++
    validator.fieldError "OpeningTime"
      [("required", !storeVersion.OpeningTime.isEmpty),
       ("timeFormat", validation.ValidateTimeFormat storeVersion.OpeningTime)] ++
    validator.fieldError "ClosingTime"
      [("required", !storeVersion.ClosingTime.isEmpty),
       ("timeFormat", validation.ValidateTimeFormat storeVersion.ClosingTime)]

/-- The values the handlers put in the field `Body` of a `JSONResult`: a text,
or the map from field to tag of `FormatValidatorError`. -/
inductive Body where
  | text (s : String)
  | fields (errs : List (String × String))
deriving DecidableEq, Repr

/-- Go struct `response.JSONResult` (`response.go`). -/
structure JSONResult where
  Message : String
  Body : Body
deriving DecidableEq, Repr

/-- `response.BuildJSONResponse` (`response.go`, lines 8-13). -/
def BuildJSONResponse (msg : String) (data : Body) : JSONResult :=
  { Message := msg, Body := data }

/-- `validation.FormatValidatorError` (`validation.go`, lines 54-68): `none`
for an error that is no `validator.ValidationErrors` (an error of the JSON
decoder), otherwise the field errors. -/
def FormatValidatorError (errs : Option (List (String × String))) : JSONResult :=
  match errs with
  | none => BuildJSONResponse "Error" (.text "Invalid argument passed")
  | some e => BuildJSONResponse "Error" (.fields e)

/-- The constant `messageForError` (`stores_handler.go`, line 49). -/
def messageForError : String := "Failed to publish a message"

/-- The constant `messageForSuccess` (`stores_handler.go`, line 50). -/
def messageForSuccess : String :=
  "Storage service is processing your message. Check status through logs"

/-- What a handler reads of the `gin.Context`: the request body, the path
parameters `id` and `versionId` (empty when the route has none), and the string
stored under the key `login`. -/
structure Request where
  body : RequestBody
  id : GoString
  versionId : GoString
  login : GoString

/-- What a handler did: the status and the body it wrote with `c.JSON`, and
the messages it passed to `rabbitMQChannel.Publish`, in order. -/
structure Reply where
  status : Nat
  body : JSONResult
  published : List json.Text

/-- `StoresHandler.sendMessage` (`stores_handler.go`, lines 238-254): one call
of `Publish` with the message; `publish` is the error `Publish` returns. -/
def StoresHandler.sendMessage (publish : Option String) (message : json.Text) :
    Option String × List json.Text :=
  match publish with
  | some err => (some err, [message])
  | none => (none, [message])

/-- `StoresHandler.CreateStore` (`stores_handler.go`, lines 53-81). -/
def StoresHandler.CreateStore (publish : Option String) (c : Request) : Reply :=
  match Store.bind c.body with
  | .error _ => { status := 400, body := FormatValidatorError none, published := [] }
  | .ok store =>
    match Store.Struct store with
    | e :: errs =>
      { status := 400, body := FormatValidatorError (some (e :: errs)), published := [] }
    | [] =>
      let action := GoString.ofString "create_store"
      let login := c.login
      match StoresHandler.sendMessage publish (buildMessage (.store store) action login [] []) with
      | (some _, sent) =>
        { status := 500, body := BuildJSONResponse "Error" (.text messageForError),
          published := sent }
      | (none, sent) =>
        { status := 200, body := BuildJSONResponse "Success" (.text messageForSuccess),
          published := sent }

/-- `StoresHandler.CreateStoreVersion` (`stores_handler.go`, lines 83-113). -/
def StoresHandler.CreateStoreVersion (publish : Option String) (c : Request) : Reply :=
  match StoreVersion.bind c.body with
  | .error _ => { status := 400, body := FormatValidatorError none, published := [] }
  | .ok storeVersion =>
    match StoreVersion.Struct storeVersion with
    | e :: errs =>
      { status := 400, body := FormatValidatorError (some (e :: errs)), published := [] }
    | [] =>
      let action := GoString.ofString "create_store_version"
      let login := c.login
      let storeId := c.id
      match StoresHandler.sendMessage publish
          (buildMessage (.storeVersion storeVersion) action login storeId []) with
      | (some _, sent) =>
        { status := 500, body := BuildJSONResponse "Error" (.text messageForError),
          published := sent }
      | (none, sent) =>
        { status := 200, body := BuildJSONResponse "Success" (.text messageForSuccess),
          published := sent }

/-- `StoresHandler.DeleteStore` (`stores_handler.go`, lines 115-134). -/
def StoresHandler.DeleteStore (publish : Option String) (c : Request) : Reply :=
  let action := GoString.ofString "delete_store"
  let login := c.login
  let storeId := c.id
  match StoresHandler.sendMessage publish (buildMessage .nil action login storeId []) with
  | (some _, sent) =>
    { status := 500, body := BuildJSONResponse "Error" (.text messageForError),
      published := sent }
  | (none, sent) =>
    { status := 200, body := BuildJSONResponse "Success" (.text messageForSuccess),
      published := sent }

/-- `StoresHandler.DeleteStoreVersion` (`stores_handler.go`, lines 136-157). -/
def StoresHandler.DeleteStoreVersion (publish : Option String) (c : Request) : Reply :=
  let action := GoString.ofString "delete_store_version"
  let login := c.login
  let storeId := c.id
  let versionId := c.versionId
  match StoresHandler.sendMessage publish (buildMessage .nil action login storeId versionId) with
  | (some _, sent) =>
    { status := 500, body := BuildJSONResponse "Error" (.text messageForError),
      published := sent }
  | (none, sent) =>
    { status := 200, body := BuildJSONResponse "Success" (.text messageForSuccess),
      published := sent }

/-- `StoresHandler.GetStore` (`stores_handler.go`, lines 159-178). -/
def StoresHandler.GetStore (publish : Option String) (c : Request) : Reply :=
  let action := GoString.ofString "get_store"
  let login := c.login
  let storeId := c.id
  match StoresHandler.sendMessage publish (buildMessage .nil action login storeId []) with
  | (some _, sent) =>
    { status := 500, body := BuildJSONResponse "Error" (.text messageForError),
      published := sent }
  | (none, sent) =>
    { status := 200, body := BuildJSONResponse "Success" (.text messageForSuccess),
      published := sent }

/-- `StoresHandler.GetStoreHistory` (`stores_handler.go`, lines 180-199). -/
def StoresHandler.GetStoreHistory (publish : Option String) (c : Request) : Reply :=
  let action := GoString.ofString "get_store_history"
  let login := c.login
  let storeId := c.id
  match StoresHandler.sendMessage publish (buildMessage .nil action login storeId []) with
  | (some _, sent) =>
    { status := 500, body := BuildJSONResponse "Error" (.text messageForError),
      published := sent }
  | (none, sent) =>
    { status := 200, body := BuildJSONResponse "Success" (.text messageForSuccess),
      published := sent }

/-- `StoresHandler.GetStoreVersion` (`stores_handler.go`, lines 201-221). -/
def StoresHandler.GetStoreVersion (publish : Option String) (c : Request) : Reply :=
  let action := GoString.ofString "get_store_version"
  let login := c.login
  let storeId := c.id
  let versionId := c.versionId
  match StoresHandler.sendMessage publish (buildMessage .nil action login storeId versionId) with
  | (some _, sent) =>
    { status := 500, body := BuildJSONResponse "Error" (.text messageForError),
      published := sent }
  | (none, sent) =>
    { status := 200, body := BuildJSONResponse "Success" (.text messageForSuccess),
      published := sent }

/-- The response to an accepted request in the words of the specification:
"publish failure → surfaced to the caller immediately as a delivery error;
publish success → caller is told accepted". -/
def replyToPublish (publish : Option String) : Nat × JSONResult :=
  match publish with
  | some _ => (500, { Message := "Error", Body := .text "Failed to publish a message" })
  | none =>
    (200, { Message := "Success",
            Body := .text "Storage service is processing your message. Check status through logs" })

end gateway

/-- A request body with the fields of a store that pass the validation. -/
def sampleStoreBody : json.Text :=
  .doc (.object [("name", .string "Book Shop"), ("address", .string "High Street, Leeds, 2"),
    ("ownerName", .string "Carol, Smith"), ("openingTime", .string "2024-01-01 09:00:00"),
    ("closingTime", .string "2024-01-01 18:00:00")])

/-- A request body whose name has two characters. -/
def sampleShortNameBody : json.Text :=
  .doc (.object [("name", .string "Bo"), ("address", .string "High Street, Leeds, 2"),
    ("ownerName", .string "Carol, Smith"), ("openingTime", .string "2024-01-01 09:00:00"),
    ("closingTime", .string "2024-01-01 18:00:00")])

/-- A request body with the fields of a version, the closing time being the
30th of February. -/
def sampleBadTimeBody : json.Text :=
  .doc (.object [("ownerName", .string "Carol, Smith"),
    ("openingTime", .string "2024-01-01 09:00:00"),
    ("closingTime", .string "2024-02-30 18:00:00")])

/-- A request of `carol` with the path parameter `id` = `1` whose body is the
one JSON document `body` and nothing else (`.invalid`: a body at whose front
the decoder finds no JSON value). -/
def sampleRequest (body : json.Text) : gateway.Request :=
  { body := { first := body, rest := [] }, id := GoString.ofString "1", versionId := [],
    login := GoString.ofString "carol" }

/-- A request of `carol` whose body is the JSON object of `sampleStoreBody`
followed by the bytes `xyz`: no JSON document as a whole. -/
def sampleTrailingRequest : gateway.Request :=
  { body := { first := sampleStoreBody, rest := GoString.ofString "xyz" },
    id := GoString.ofString "1", versionId := [], login := GoString.ofString "carol" }

/-! ## `Repository.CreateStoreVersion` with the arithmetic of the Go type `int`

`version_number` is a Go `int`, 64 bits wide in two's complement on the
platforms the service is built for; the addition
`previousVersion.VersionNumber + 1` wraps at `9223372036854775807`. -/

/-- The value of the integer `x` as a Go `int` of 64 bits: `x` itself between
`-9223372036854775808` and `9223372036854775807`, and wrapped around outside. -/
def wrapInt64 (x : Int) : Int :=
  (x + 9223372036854775808) % 18446744073709551616 - 9223372036854775808

namespace postgres

open model

/-- `Repository.CreateStoreVersion` (`repository.go`, lines 117-164) with the
addition of line 145 carried out on the Go `int`: the statements, the round
trips and the error paths are those of `Repository.CreateStoreVersion` above,
and the number of the new row is `previousVersion.VersionNumber + 1` wrapped
to 64 bits. -/
def Repository.CreateStoreVersion64 (db : DB) (storeVersion : StoreVersion) (versionID : Nat)
    (drv : CreateStoreVersionStep → Outcome) : Option Error × DB :=
  match drv .Beginx with
  | some msg => (some (.driver msg), db)
  | none =>
    match drv .SetIsolation with
    | some msg => (some (.driver msg), db)
    | none =>
      match drv .GetPrevious with
      | some msg => (some (.driver msg), db)
      | none =>
        let found := selectLastVersion db storeVersion.StoreID
        let previousVersion := found.getD StoreVersion.zero
        let afterUpdate : Except Error DB :=
          if found.isSome then
            match drv .UpdatePrevious with
            | some msg => .error (.driver msg)
            | none => .ok (clearLast db storeVersion.StoreID)
          else .ok db
        match afterUpdate with
        | .error e => (some e, db)
        | .ok tx1 =>
          let storeVersion :=
            { storeVersion with VersionNumber := wrapInt64 (previousVersion.VersionNumber + 1) }
          match insertStoreVersion tx1 storeVersion versionID (drv .Insert) with
          | .error e => (some e, db)
          | .ok tx2 =>
            match drv .Commit with
            | some msg => (some (.driver msg), db)
            | none => (none, tx2)

end postgres

/-- Store 1 of `alice` whose current version, key 1, carries the highest number
a Go `int` holds. -/
def sampleMaxNumberDb : DB :=
  { stores := [{ sampleStore with StoreID := 1 }]
    store_versions :=
      [{ sampleVersion with VersionID := 1, VersionNumber := 9223372036854775807 }] }

/-! # Properties

## Statements and constraints -/

open postgres model

theorem storeKeyTaken_eq_false_iff (db : DB) (k : Nat) :
    storeKeyTaken db k = false ↔ ∀ s ∈ db.stores, s.StoreID ≠ k := by
  simp [storeKeyTaken]

theorem storeRowPresent_iff (db : DB) (k : Nat) :
    storeRowPresent db k = true ↔ ∃ s ∈ db.stores, s.StoreID = k := by
  simp [storeRowPresent]

theorem versionKeyTaken_eq_false_iff (db : DB) (k : Nat) :
    versionKeyTaken db k = false ↔ ∀ v ∈ db.store_versions, v.VersionID ≠ k := by
  simp [versionKeyTaken]

theorem insertStore_ok {db tx : DB} {store : Store} {k : Nat} {o : Outcome}
    (h : insertStore db store k o = .ok tx) :
    o = none ∧ storeKeyTaken db k = false ∧
      tx = { db with stores := db.stores ++ [{ store with StoreID := k }] } := by
  unfold insertStore at h
  cases o with
  | some m => simp at h
  | none =>
    by_cases hk : storeKeyTaken db k = true
    · simp [hk] at h
    · simp [hk] at h
      exact ⟨rfl, by simpa using hk, h.symm⟩

theorem insertStoreVersion_ok {db tx : DB} {version : StoreVersion} {k : Nat} {o : Outcome}
    (h : insertStoreVersion db version k o = .ok tx) :
    o = none ∧ versionKeyTaken db k = false ∧ storeRowPresent db version.StoreID = true ∧
      tx = { db with store_versions := db.store_versions ++ [{ version with VersionID := k }] } := by
  unfold insertStoreVersion at h
  cases o with
  | some m => simp at h
  | none =>
    by_cases hk : versionKeyTaken db k = true
    · simp [hk] at h
    · by_cases hp : storeRowPresent db version.StoreID = true
      · simp [hk, hp] at h
        exact ⟨rfl, by simpa using hk, hp, h.symm⟩
      · simp [hk, hp] at h


theorem clearLast_stores (db : DB) (k : Nat) : (clearLast db k).stores = db.stores := rfl

theorem clearLast_of_not_found {db : DB} {k : Nat} (h : selectLastVersion db k = none) :
    clearLast db k = db := by
  unfold selectLastVersion at h
  rw [List.find?_eq_none] at h
  unfold clearLast
  have : db.store_versions.map
      (fun v => if v.StoreID == k && v.IsLast then { v with IsLast := false } else v)
      = db.store_versions := by
    conv_rhs => rw [← List.map_id db.store_versions]
    apply List.map_congr_left
    intro v hv
    have := h v hv
    simp only [Bool.not_eq_true] at this
    simp [this]
  cases db
  simpa using this

theorem versionKeyTaken_clearLast (db : DB) (k j : Nat) :
    versionKeyTaken (clearLast db k) j = versionKeyTaken db j := by
  simp only [versionKeyTaken, clearLast, List.any_map]
  congr 1
  funext v
  simp only [Function.comp]
  split <;> rfl

theorem repoCreateStore_committed {db db1 : DB} {store : Store} {k j : Nat}
    {drv : CreateStoreStep → Outcome}
    (h : Repository.CreateStore db store k j drv = (none, db1)) (hc : drv .Commit = none) :
    storeKeyTaken db k = false ∧ versionKeyTaken db j = false ∧
      db1 = { stores := db.stores ++ [{ store with StoreID := k }]
              store_versions := db.store_versions ++
                [{ VersionID := j, StoreID := k, VersionNumber := 1,
                   CreatorLogin := store.CreatorLogin, OwnerName := store.OwnerName,
                   OpeningTime := store.OpeningTime, ClosingTime := store.ClosingTime,
                   CreatedAt := store.CreatedAt, IsLast := true }] } := by
  unfold Repository.CreateStore at h
  split at h
  · simp at h
  · split at h
    · simp at h
    · split at h
      · simp at h
      · rename_i tx1 h1
        obtain ⟨-, hk, rfl⟩ := insertStore_ok h1
        simp only at h
        split at h
        · simp at h
        · rename_i tx2 h2
          obtain ⟨-, hj, -, rfl⟩ := insertStoreVersion_ok h2
          rw [hc] at h
          simp only [Prod.mk.injEq, true_and] at h
          exact ⟨hk, hj, h.symm⟩

theorem repoCreateStoreVersion_ok {db db1 : DB} {sv : StoreVersion} {j : Nat}
    {drv : CreateStoreVersionStep → Outcome}
    (h : Repository.CreateStoreVersion db sv j drv = (none, db1)) :
    versionKeyTaken db j = false ∧ storeRowPresent db sv.StoreID = true ∧
      db1 = { stores := db.stores
              store_versions := (clearLast db sv.StoreID).store_versions ++
                [{ sv with
                   VersionID := j
                   VersionNumber :=
                     ((selectLastVersion db sv.StoreID).getD StoreVersion.zero).VersionNumber + 1 }] } := by
  unfold Repository.CreateStoreVersion at h
  split at h
  · simp at h
  · split at h
    · simp at h
    · split at h
      · simp at h
      · simp only at h
        split at h
        · simp at h
        · rename_i tx1 h1
          have htx : tx1 = clearLast db sv.StoreID := by
            cases hf : selectLastVersion db sv.StoreID with
            | none =>
              rw [hf] at h1
              simp at h1
              rw [clearLast_of_not_found hf]; exact h1.symm
            | some p =>
              rw [hf] at h1
              simp only [Option.isSome_some, if_true] at h1
              split at h1
              · simp at h1
              · simpa using h1.symm
          subst htx
          split at h
          · simp at h
          · rename_i tx2 h2
            obtain ⟨-, hj, hp, rfl⟩ := insertStoreVersion_ok h2
            split at h
            · simp at h
            · simp only [Prod.mk.injEq, true_and] at h
              rw [versionKeyTaken_clearLast] at hj
              exact ⟨hj, hp, h.symm⟩

/-! ## Effect of the statements on the rows of one store -/

theorem currentVersions_clearLast_same (db : DB) (k : Nat) :
    currentVersions (clearLast db k) k = [] := by
  simp only [currentVersions, clearLast, List.filter_eq_nil_iff, List.mem_map]
  rintro v ⟨w, -, rfl⟩
  by_cases hw : (w.StoreID == k && w.IsLast) = true
  · simp only [hw, if_true]
    simp
  · simp only [hw]
    simpa using hw

theorem currentVersions_clearLast_other (db : DB) {k s : Nat} (h : s ≠ k) :
    currentVersions (clearLast db k) s = currentVersions db s := by
  simp only [currentVersions, clearLast]
  induction db.store_versions with
  | nil => rfl
  | cons w l ih =>
    simp only [List.map_cons, List.filter_cons]
    rw [ih]
    by_cases hw : (w.StoreID == k && w.IsLast) = true
    · have hk : w.StoreID = k := by simp at hw; exact hw.1
      have hs : (w.StoreID == s) = false := by
        rw [hk]; simpa using fun e => h e.symm
      simp [hw, hs]
    · simp only [hw]
      simp

theorem versionsOf_clearLast_other (db : DB) {k s : Nat} (h : s ≠ k) :
    versionsOf (clearLast db k) s = versionsOf db s := by
  simp only [versionsOf, clearLast]
  induction db.store_versions with
  | nil => rfl
  | cons w l ih =>
    simp only [List.map_cons, List.filter_cons]
    rw [ih]
    by_cases hw : (w.StoreID == k && w.IsLast) = true
    · have hk : w.StoreID = k := by simp at hw; exact hw.1
      have hs : (w.StoreID == s) = false := by
        rw [hk]; simpa using fun e => h e.symm
      simp [hw, hs]
    · simp only [hw]
      simp

theorem mem_clearLast {db : DB} {k : Nat} {v : StoreVersion}
    (h : v ∈ (clearLast db k).store_versions) :
    ∃ w ∈ db.store_versions, w.StoreID = v.StoreID ∧ w.VersionID = v.VersionID ∧
      w.VersionNumber = v.VersionNumber := by
  simp only [clearLast, List.mem_map] at h
  obtain ⟨w, hw, rfl⟩ := h
  refine ⟨w, hw, ?_⟩
  split <;> simp

/-! ## The foreign key and the single current version are kept by every call -/

theorem currentVersions_append (ss : List Store) (l : List StoreVersion) (v : StoreVersion)
    (s : Nat) :
    currentVersions { stores := ss, store_versions := l ++ [v] } s =
      currentVersions { stores := ss, store_versions := l } s ++
        (if v.StoreID == s && v.IsLast then [v] else []) := by
  simp only [currentVersions, List.filter_append, List.filter_cons, List.filter_nil]

theorem currentVersions_eq_nil_of_fresh {db : DB} {k : Nat} (hfk : db.VersionsReferStores)
    (hk : storeKeyTaken db k = false) : currentVersions db k = [] := by
  rw [storeKeyTaken_eq_false_iff] at hk
  simp only [currentVersions, List.filter_eq_nil_iff]
  intro v hv
  obtain ⟨s, hs, hsv⟩ := hfk v hv
  have : v.StoreID ≠ k := fun e => hk s hs (hsv.trans e)
  simp [this]

theorem versionsOf_eq_nil_of_fresh {db : DB} {k : Nat} (hfk : db.VersionsReferStores)
    (hk : storeKeyTaken db k = false) : versionsOf db k = [] := by
  rw [storeKeyTaken_eq_false_iff] at hk
  simp only [versionsOf, List.filter_eq_nil_iff]
  intro v hv
  obtain ⟨s, hs, hsv⟩ := hfk v hv
  have : v.StoreID ≠ k := fun e => hk s hs (hsv.trans e)
  simp [this]

theorem exec_deleteStore (db : DB) (k : Nat) :
    (Op.DeleteStore k).exec db = (none, deleteStoreRow (deleteVersionsOfStore db k) k) := rfl

theorem exec_deleteStoreVersion (db : DB) (j : Nat) :
    (Op.DeleteStoreVersion j).exec db = (none, deleteVersionRow db j) := rfl

theorem refer_step {db db1 : DB} {op : Op} (h : op.exec db = (none, db1))
    (hfk : db.VersionsReferStores) : db1.VersionsReferStores := by
  cases op with
  | CreateStore store k j =>
    have h : Repository.CreateStore db store k j healthy = (none, db1) := h
    obtain ⟨-, -, rfl⟩ := repoCreateStore_committed h rfl
    intro v hv
    simp only [List.mem_append, List.mem_singleton] at hv
    rcases hv with hv | rfl
    · obtain ⟨s, hs, e⟩ := hfk v hv
      exact ⟨s, by simp [hs], e⟩
    · exact ⟨{ store with StoreID := k }, by simp, rfl⟩
  | CreateStoreVersion sv j =>
    have h : Repository.CreateStoreVersion db sv j healthy = (none, db1) := h
    obtain ⟨-, hp, rfl⟩ := repoCreateStoreVersion_ok h
    intro v hv
    simp only [List.mem_append, List.mem_singleton] at hv
    rcases hv with hv | rfl
    · obtain ⟨w, hw, e, -⟩ := mem_clearLast hv
      obtain ⟨s, hs, e2⟩ := hfk w hw
      exact ⟨s, hs, e2.trans e⟩
    · exact (storeRowPresent_iff db sv.StoreID).1 hp
  | DeleteStore k =>
    rw [exec_deleteStore] at h
    simp only [Prod.mk.injEq, true_and] at h
    subst h
    intro v hv
    simp only [deleteStoreRow, deleteVersionsOfStore, List.mem_filter] at hv ⊢
    obtain ⟨s, hs, e⟩ := hfk v hv.1
    refine ⟨s, ⟨hs, ?_⟩, e⟩
    rw [e]; exact hv.2
  | DeleteStoreVersion j =>
    rw [exec_deleteStoreVersion] at h
    simp only [Prod.mk.injEq, true_and] at h
    subst h
    intro v hv
    simp only [deleteVersionRow, List.mem_filter] at hv
    exact hfk v hv.1

theorem atMostOne_step {db db1 : DB} {op : Op} (h : op.exec db = (none, db1))
    (hfk : db.VersionsReferStores) (hone : db.AtMostOneCurrent) : db1.AtMostOneCurrent := by
  cases op with
  | CreateStore store k j =>
    have h : Repository.CreateStore db store k j healthy = (none, db1) := h
    obtain ⟨hk, -, rfl⟩ := repoCreateStore_committed h rfl
    intro s
    rw [currentVersions_append]
    by_cases hs : k = s
    · subst hs
      have h0 := currentVersions_eq_nil_of_fresh hfk hk
      simp only [currentVersions] at h0 ⊢
      rw [h0]; simp
    · have := hone s
      simp only [currentVersions] at this ⊢
      simp [hs, this]
  | CreateStoreVersion sv j =>
    have h : Repository.CreateStoreVersion db sv j healthy = (none, db1) := h
    obtain ⟨-, -, rfl⟩ := repoCreateStoreVersion_ok h
    intro s
    rw [currentVersions_append]
    by_cases hs : sv.StoreID = s
    · subst hs
      have h0 := currentVersions_clearLast_same db sv.StoreID
      simp only [currentVersions] at h0 ⊢
      rw [h0]
      split <;> simp
    · have h1 := currentVersions_clearLast_other db (Ne.symm hs)
      have := hone s
      simp only [currentVersions] at h1 this ⊢
      rw [h1]
      simp [hs, this]
  | DeleteStore k =>
    rw [exec_deleteStore] at h
    simp only [Prod.mk.injEq, true_and] at h
    subst h
    intro s
    have := hone s
    simp only [currentVersions, deleteStoreRow, deleteVersionsOfStore] at this ⊢
    rw [List.filter_comm]
    exact le_trans (List.length_filter_le _ _) this
  | DeleteStoreVersion j =>
    rw [exec_deleteStoreVersion] at h
    simp only [Prod.mk.injEq, true_and] at h
    subst h
    intro s
    have := hone s
    simp only [currentVersions, deleteVersionRow] at this ⊢
    rw [List.filter_comm]
    exact le_trans (List.length_filter_le _ _) this

/-! ## C1: at most one current version per store -/

theorem run_keeps_invariant (ops : List Op) :
    ∀ {db0 db : DB}, run db0 ops = some db → db0.VersionsReferStores → db0.AtMostOneCurrent →
      db.VersionsReferStores ∧ db.AtMostOneCurrent := by
  induction ops with
  | nil =>
    intro db0 db h hfk hone
    simp only [run, Option.some.injEq] at h
    subst h
    exact ⟨hfk, hone⟩
  | cons op rest ih =>
    intro db0 db h hfk hone
    simp only [run] at h
    split at h
    · rename_i db1 hstep
      exact ih h (refer_step hstep hfk) (atMostOne_step hstep hfk hone)
    · simp at h

theorem empty_refers : DB.empty.VersionsReferStores := by
  intro v hv
  simp [DB.empty] at hv

theorem empty_atMostOne : DB.empty.AtMostOneCurrent := by
  intro s
  simp [DB.empty, currentVersions]

/-- C1: in every database reached from the empty database by a finite sequence
of `CreateStore`, `CreateStoreVersion`, `DeleteStore` and `DeleteStoreVersion`
calls of the repository, all of whose storage steps succeed, every store has at
most one version row with `is_last = true`. -/
theorem at_most_one_current_version (ops : List Op) (db : DB)
    (h : run DB.empty ops = some db) (storeID : Nat) :
    (currentVersions db storeID).length ≤ 1 :=
  (run_keeps_invariant ops h empty_refers empty_atMostOne).2 storeID

/-- C1 at the sample run. -/
theorem at_most_one_current_version_witness :
    run DB.empty sampleOps = some sampleDb ∧ (currentVersions sampleDb 1).length ≤ 1 :=
  ⟨by decide, at_most_one_current_version sampleOps sampleDb (by decide) 1⟩

/-! ## Versions of one store -/

theorem currentVersions_eq_filter (db : DB) (s : Nat) :
    currentVersions db s = (versionsOf db s).filter (fun v => v.IsLast) := by
  simp only [currentVersions, versionsOf, List.filter_filter]
  congr 1
  funext v
  exact Bool.and_comm _ _

theorem mem_versionsOf_of_mem_current {db : DB} {s : Nat} {v : StoreVersion}
    (h : v ∈ currentVersions db s) : v ∈ versionsOf db s := by
  rw [currentVersions_eq_filter] at h
  exact List.mem_of_mem_filter h

theorem selectLastVersion_eq_head (db : DB) (s : Nat) :
    selectLastVersion db s = (currentVersions db s).head? := by
  simp only [selectLastVersion, currentVersions]
  induction db.store_versions with
  | nil => rfl
  | cons w l ih =>
    by_cases hw : (w.StoreID == s && w.IsLast) = true
    · simp [List.find?_cons, List.filter_cons, hw]
    · simp only [List.find?_cons, List.filter_cons, hw]
      exact ih

theorem versionsOf_clearLast_same (db : DB) (k : Nat) :
    versionsOf (clearLast db k) k =
      (versionsOf db k).map (fun v => { v with IsLast := false }) := by
  simp only [versionsOf, clearLast]
  induction db.store_versions with
  | nil => rfl
  | cons w l ih =>
    simp only [List.map_cons, List.filter_cons]
    rw [ih]
    by_cases hk : w.StoreID = k
    · by_cases hl : w.IsLast = true
      · simp [hk, hl]
      · have hl : w.IsLast = false := by simpa using hl
        have hw : ({ w with IsLast := false } : StoreVersion) = w := by
          cases w; simp_all
        have hb : (w.StoreID == k) = true := by simpa using hk
        simp only [hb, hl, Bool.and_false, Bool.false_eq_true, if_false, if_true,
          List.map_cons, hw]
    · simp [hk]

theorem versionsOf_append (ss : List Store) (l : List StoreVersion) (v : StoreVersion)
    (s : Nat) :
    versionsOf { stores := ss, store_versions := l ++ [v] } s =
      versionsOf { stores := ss, store_versions := l } s ++
        (if v.StoreID == s then [v] else []) := by
  simp only [versionsOf, List.filter_append, List.filter_cons, List.filter_nil]

theorem versions_after_repoCreateStore {db db1 : DB} {store : Store} {k j : Nat}
    {drv : CreateStoreStep → Outcome}
    (h : Repository.CreateStore db store k j drv = (none, db1)) (hcommit : drv .Commit = none)
    (hfk : db.VersionsReferStores) (s : Nat) :
    ∃ new : StoreVersion, new.VersionID = j ∧ new.StoreID = k ∧ new.VersionNumber = 1 ∧
      new.IsLast = true ∧
      versionsOf db1 s = (if k = s then [new] else versionsOf db s) ∧
      currentVersions db1 s = (if k = s then [new] else currentVersions db s) := by
  obtain ⟨hk, -, rfl⟩ := repoCreateStore_committed h hcommit
  refine ⟨{ VersionID := j, StoreID := k, VersionNumber := 1,
            CreatorLogin := store.CreatorLogin, OwnerName := store.OwnerName,
            OpeningTime := store.OpeningTime, ClosingTime := store.ClosingTime,
            CreatedAt := store.CreatedAt, IsLast := true }, rfl, rfl, rfl, rfl, ?_, ?_⟩
  · rw [versionsOf_append]
    by_cases hs : k = s
    · subst hs
      have h0 := versionsOf_eq_nil_of_fresh hfk hk
      simp only [versionsOf] at h0 ⊢
      simp [h0]
    · simp [hs, versionsOf]
  · rw [currentVersions_append]
    by_cases hs : k = s
    · subst hs
      have h0 := currentVersions_eq_nil_of_fresh hfk hk
      simp only [currentVersions] at h0 ⊢
      simp [h0]
    · simp [hs, currentVersions]

theorem versions_after_createStore {db db1 : DB} {store : Store} {k j : Nat}
    (h : (Op.CreateStore store k j).exec db = (none, db1)) (hfk : db.VersionsReferStores) (s : Nat) :
    ∃ new : StoreVersion, new.VersionID = j ∧ new.StoreID = k ∧ new.VersionNumber = 1 ∧
      new.IsLast = true ∧
      versionsOf db1 s = (if k = s then [new] else versionsOf db s) ∧
      currentVersions db1 s = (if k = s then [new] else currentVersions db s) :=
  @versions_after_repoCreateStore db db1 store k j healthy h rfl hfk s

theorem versions_after_createStoreVersion {db db1 : DB} {sv : StoreVersion} {j : Nat}
    {drv : CreateStoreVersionStep → Outcome}
    (h : Repository.CreateStoreVersion db sv j drv = (none, db1)) (s : Nat) :
    ∃ new : StoreVersion, new = { sv with
        VersionID := j
        VersionNumber :=
          ((selectLastVersion db sv.StoreID).getD StoreVersion.zero).VersionNumber + 1 } ∧
      versionsOf db1 s =
        (if sv.StoreID = s then
          (versionsOf db s).map (fun v => { v with IsLast := false }) ++ [new]
         else versionsOf db s) ∧
      currentVersions db1 s =
        (if sv.StoreID = s then (if sv.IsLast then [new] else []) else currentVersions db s) := by
  obtain ⟨-, -, rfl⟩ := repoCreateStoreVersion_ok h
  refine ⟨_, rfl, ?_, ?_⟩
  · rw [versionsOf_append]
    by_cases hs : sv.StoreID = s
    · subst hs
      have h0 := versionsOf_clearLast_same db sv.StoreID
      simp only [versionsOf] at h0 ⊢
      simp [h0]
    · have h1 := versionsOf_clearLast_other db (Ne.symm hs)
      simp only [versionsOf] at h1 ⊢
      simp [hs, h1]
  · rw [currentVersions_append]
    by_cases hs : sv.StoreID = s
    · subst hs
      have h0 := currentVersions_clearLast_same db sv.StoreID
      simp only [currentVersions] at h0 ⊢
      simp [h0]
    · have h1 := currentVersions_clearLast_other db (Ne.symm hs)
      simp only [currentVersions] at h1 ⊢
      simp [hs, h1]

theorem versions_after_deleteStore (db : DB) (k s : Nat) :
    versionsOf (deleteStoreRow (deleteVersionsOfStore db k) k) s =
        (if k = s then [] else versionsOf db s) ∧
      currentVersions (deleteStoreRow (deleteVersionsOfStore db k) k) s =
        (if k = s then [] else currentVersions db s) := by
  simp only [versionsOf, currentVersions, deleteStoreRow, deleteVersionsOfStore,
    List.filter_filter]
  by_cases hs : k = s
  · subst hs
    simp only [if_true, List.filter_eq_nil_iff]
    constructor <;> intro v _ <;> by_cases hv : v.StoreID = k <;> simp [hv]
  · simp only [hs, if_false]
    have hs2 : ¬ s = k := fun e => hs e.symm
    constructor
    · apply List.filter_congr
      intro v _
      by_cases hv : v.StoreID = s
      · simp [hv, hs2]
      · simp [hv]
    · apply List.filter_congr
      intro v _
      by_cases hv : v.StoreID = s
      · simp [hv, hs2]
      · simp [hv]

theorem versions_after_deleteStoreVersion (db : DB) (j s : Nat) :
    versionsOf (deleteVersionRow db j) s =
        (versionsOf db s).filter (fun v => !(v.VersionID == j)) ∧
      currentVersions (deleteVersionRow db j) s =
        (currentVersions db s).filter (fun v => !(v.VersionID == j)) := by
  simp only [versionsOf, currentVersions, deleteVersionRow]
  exact ⟨List.filter_comm _ _ _, List.filter_comm _ _ _⟩

theorem current_kept_by_deleteStoreVersion {db : DB} {j : Nat}
    (hk : (Op.DeleteStoreVersion j).keepsCurrent db = true) (s : Nat) :
    currentVersions (deleteVersionRow db j) s = currentVersions db s := by
  rw [(versions_after_deleteStoreVersion db j s).2, List.filter_eq_self]
  intro v hv
  simp only [Op.keepsCurrent, List.all_eq_true] at hk
  simp only [currentVersions, List.mem_filter] at hv
  have := hk v hv.1
  have hl : v.IsLast = true := by
    have := hv.2
    simp only [Bool.and_eq_true] at this
    exact this.2
  simpa [hl] using this

/-! ## C2: the current version and the highest version number -/

theorem chain_step {db db1 : DB} {op : Op} (h : op.exec db = (none, db1))
    (hk : op.keepsCurrent db = true) (hfk : db.VersionsReferStores)
    (hcp : db.CurrentPresent) (hch : db.CurrentIsHighest) :
    db1.CurrentPresent ∧ db1.CurrentIsHighest := by
  cases op with
  | CreateStore store k j =>
    constructor
    · intro s
      obtain ⟨new, -, -, -, -, hv, hc⟩ := versions_after_createStore h hfk s
      rw [hv, hc]
      by_cases hs : k = s
      · simp [hs]
      · simpa [hs] using hcp s
    · intro s
      obtain ⟨new, -, -, -, -, hv, hc⟩ := versions_after_createStore h hfk s
      rw [hv, hc]
      by_cases hs : k = s
      · simp [hs]
      · simpa [hs] using hch s
  | CreateStoreVersion sv j =>
    have h : Repository.CreateStoreVersion db sv j healthy = (none, db1) := h
    have hl : sv.IsLast = true := hk
    constructor
    · intro s
      obtain ⟨new, -, hv, hc⟩ := versions_after_createStoreVersion h s
      rw [hv, hc]
      by_cases hs : sv.StoreID = s
      · simp [hs, hl]
      · simpa [hs] using hcp s
    · intro s
      obtain ⟨new, hnew, hv, hc⟩ := versions_after_createStoreVersion h s
      rw [hv, hc]
      by_cases hs : sv.StoreID = s
      · subst hs
        simp only [if_true, hl, List.mem_singleton, List.mem_append, List.mem_map]
        rintro c rfl v (⟨w, hw, rfl⟩ | rfl)
        · rw [hnew]
          show w.VersionNumber ≤ _ + 1
          cases hf : selectLastVersion db sv.StoreID with
          | none =>
            rw [selectLastVersion_eq_head] at hf
            have hnil : currentVersions db sv.StoreID = [] := by
              cases hcur : currentVersions db sv.StoreID with
              | nil => rfl
              | cons a l => rw [hcur] at hf; simp at hf
            have : versionsOf db sv.StoreID = [] := by
              by_contra hne
              exact hcp _ hne hnil
            rw [this] at hw
            simp at hw
          | some p =>
            have hp : p ∈ currentVersions db sv.StoreID := by
              rw [selectLastVersion_eq_head] at hf
              exact List.mem_of_mem_head? hf
            have := hch _ p hp w hw
            simp only [Option.getD_some]
            omega
        · exact le_refl _
      · simpa [hs] using hch s
  | DeleteStore k =>
    rw [exec_deleteStore] at h
    simp only [Prod.mk.injEq, true_and] at h
    subst h
    constructor
    · intro s
      rw [(versions_after_deleteStore db k s).1, (versions_after_deleteStore db k s).2]
      by_cases hs : k = s
      · simp [hs]
      · simpa [hs] using hcp s
    · intro s
      rw [(versions_after_deleteStore db k s).1, (versions_after_deleteStore db k s).2]
      by_cases hs : k = s
      · simp [hs]
      · simpa [hs] using hch s
  | DeleteStoreVersion j =>
    rw [exec_deleteStoreVersion] at h
    simp only [Prod.mk.injEq, true_and] at h
    subst h
    constructor
    · intro s hne
      rw [current_kept_by_deleteStoreVersion hk]
      apply hcp s
      intro h0
      rw [(versions_after_deleteStoreVersion db j s).1, h0] at hne
      simp at hne
    · intro s c hc v hv
      rw [current_kept_by_deleteStoreVersion hk] at hc
      rw [(versions_after_deleteStoreVersion db j s).1] at hv
      exact hch s c hc v (List.mem_of_mem_filter hv)

theorem runKeepingCurrent_keeps (ops : List Op) :
    ∀ {db0 db : DB}, runKeepingCurrent db0 ops = some db →
      db0.VersionsReferStores → db0.CurrentPresent → db0.CurrentIsHighest →
      db.VersionsReferStores ∧ db.CurrentPresent ∧ db.CurrentIsHighest := by
  induction ops with
  | nil =>
    intro db0 db h hfk hcp hch
    simp only [runKeepingCurrent, Option.some.injEq] at h
    subst h
    exact ⟨hfk, hcp, hch⟩
  | cons op rest ih =>
    intro db0 db h hfk hcp hch
    simp only [runKeepingCurrent] at h
    split at h
    · rename_i hk
      split at h
      · rename_i db1 hstep
        obtain ⟨h1, h2⟩ := chain_step hstep hk hfk hcp hch
        exact ih h (refer_step hstep hfk) h1 h2
      · simp at h
    · simp at h

theorem empty_currentPresent : DB.empty.CurrentPresent := by
  intro s h
  simp [DB.empty, versionsOf] at h

theorem empty_currentIsHighest : DB.empty.CurrentIsHighest := by
  intro s c hc
  simp [DB.empty, currentVersions] at hc

/-- C2, counterexample: two runs from the empty database, every step of which
succeeds, end with store 1 holding a version marked `is_last` whose number is
below the number of another of its versions.  In the first run (create store 1,
add two versions, delete version 3 while it is current, add a version) the rows
of store 1 are numbered 1, 2, 1 and the last one is current.  In the second run
(create store 1, add a version with `IsLast = false`, add a version) they are
numbered 1, 2, 1 as well. -/
theorem current_is_highest_counterexample :
    (run DB.empty sampleOps = some sampleDb ∧
      (versionsOf sampleDb 1).map (fun v => (v.VersionID, v.VersionNumber, v.IsLast)) =
        [(1, 1, false), (2, 2, false), (4, 1, true)] ∧
      ∃ c ∈ currentVersions sampleDb 1, ∃ v ∈ versionsOf sampleDb 1,
        c.VersionNumber < v.VersionNumber) ∧
    (run DB.empty sampleUnmarkedOps = some sampleUnmarkedDb ∧
      (versionsOf sampleUnmarkedDb 1).map (fun v => (v.VersionID, v.VersionNumber, v.IsLast)) =
        [(1, 1, false), (2, 2, false), (3, 1, true)] ∧
      ∃ c ∈ currentVersions sampleUnmarkedDb 1, ∃ v ∈ versionsOf sampleUnmarkedDb 1,
        c.VersionNumber < v.VersionNumber) := by
  refine ⟨⟨by decide, by decide, ?_⟩, ⟨by decide, by decide, ?_⟩⟩ <;> decide

/-- C2, amended: in every database reached from the empty database by a run of
repository calls in which every created version is inserted with
`is_last = true` and no `DeleteStoreVersion` removes a row that is marked
`is_last` at that moment, a version marked `is_last` has the highest version
number among the versions of its store. -/
theorem current_is_highest_when_current_kept (ops : List Op) (db : DB)
    (h : runKeepingCurrent DB.empty ops = some db) (storeID : Nat) :
    ∀ c ∈ currentVersions db storeID, ∀ v ∈ versionsOf db storeID,
      v.VersionNumber ≤ c.VersionNumber :=
  (runKeepingCurrent_keeps ops h empty_refers empty_currentPresent empty_currentIsHighest).2.2
    storeID

/-- C2 (amended) at the run that deletes a version that is not current. -/
theorem current_is_highest_when_current_kept_witness :
    runKeepingCurrent DB.empty sampleKeptOps = some sampleKeptDb ∧
      ∀ c ∈ currentVersions sampleKeptDb 1, ∀ v ∈ versionsOf sampleKeptDb 1,
        v.VersionNumber ≤ c.VersionNumber :=
  ⟨by decide, current_is_highest_when_current_kept sampleKeptOps sampleKeptDb (by decide) 1⟩

/-! ## C3: the version numbers handed out to a store -/

/-- The numbers `1, 2, ..., n`. -/
theorem range_succ_map (n : Nat) :
    (List.range (n + 1)).map (fun i : Nat => (i : Int) + 1) =
      (List.range n).map (fun i : Nat => (i : Int) + 1) ++ [(n : Int) + 1] := by
  rw [List.range_succ, List.map_append, List.map_singleton]

theorem numbersOfRow_new (ss : List Store) (l : List StoreVersion) (v : StoreVersion) (j : Nat)
    (hj : ∀ w ∈ l, w.VersionID ≠ j) (hv : v.VersionID = j) :
    numbersOfRow { stores := ss, store_versions := l ++ [v] } j = [v.VersionNumber] := by
  have h0 : l.filter (fun w => w.VersionID == j) = [] := by
    rw [List.filter_eq_nil_iff]
    intro w hw
    simpa using hj w hw
  simp [numbersOfRow, List.filter_append, h0, hv]

theorem numbersOfRow_createStore {db db1 : DB} {store : Store} {k j : Nat}
    (h : (Op.CreateStore store k j).exec db = (none, db1)) : numbersOfRow db1 j = [1] := by
  have h : Repository.CreateStore db store k j healthy = (none, db1) := h
  obtain ⟨-, hj, rfl⟩ := repoCreateStore_committed h rfl
  rw [versionKeyTaken_eq_false_iff] at hj
  exact numbersOfRow_new _ _ _ j hj rfl

theorem numbersOfRow_createStoreVersion {db db1 : DB} {sv : StoreVersion} {j : Nat}
    {drv : CreateStoreVersionStep → Outcome}
    (h : Repository.CreateStoreVersion db sv j drv = (none, db1)) :
    numbersOfRow db1 j =
      [((selectLastVersion db sv.StoreID).getD StoreVersion.zero).VersionNumber + 1] := by
  obtain ⟨hj, -, rfl⟩ := repoCreateStoreVersion_ok h
  rw [← versionKeyTaken_clearLast db sv.StoreID, versionKeyTaken_eq_false_iff] at hj
  exact numbersOfRow_new _ _ _ j hj rfl

theorem counted_step {db db1 : DB} {op : Op} (s : Nat) {given : List Int}
    (h : op.exec db = (none, db1)) (hk : op.keepsCurrent db = true)
    (hfk : db.VersionsReferStores) (hcp : db.CurrentPresent) (hg : Counted db s given) :
    Counted db1 s (op.record s db1 given) := by
  obtain ⟨hg1, hg2, hg3⟩ := hg
  unfold Counted
  cases op with
  | CreateStore store k j =>
    obtain ⟨new, -, -, hn, -, hv, hc⟩ := versions_after_createStore h hfk s
    simp only [Op.record]
    by_cases hs : k = s
    · subst hs
      have hfresh : versionsOf db k = [] := by
        have h : Repository.CreateStore db store k j healthy = (none, db1) := h
        obtain ⟨hkey, -, -⟩ := repoCreateStore_committed h rfl
        exact versionsOf_eq_nil_of_fresh hfk hkey
      have hnil := hg3 hfresh
      subst hnil
      rw [numbersOfRow_createStore h, hv, hc]
      simp only [if_true, List.nil_append]
      refine ⟨by simp [List.range_succ], ?_, by simp⟩
      intro c hcm
      simp only [List.mem_singleton] at hcm
      subst hcm
      simpa using hn
    · rw [hv, hc]
      simp only [hs, if_false]
      exact ⟨hg1, hg2, hg3⟩
  | CreateStoreVersion sv j =>
    have h : Repository.CreateStoreVersion db sv j healthy = (none, db1) := h
    have hl : sv.IsLast = true := hk
    obtain ⟨new, hnew, hv, hc⟩ := versions_after_createStoreVersion h s
    simp only [Op.record]
    by_cases hs : sv.StoreID = s
    · subst hs
      have hnum : ((selectLastVersion db sv.StoreID).getD StoreVersion.zero).VersionNumber =
          given.length := by
        cases hf : selectLastVersion db sv.StoreID with
        | none =>
          rw [selectLastVersion_eq_head] at hf
          have hnil : currentVersions db sv.StoreID = [] := by
            cases hcur : currentVersions db sv.StoreID with
            | nil => rfl
            | cons a l => rw [hcur] at hf; simp at hf
          have hvn : versionsOf db sv.StoreID = [] := by
            by_contra hne
            exact hcp _ hne hnil
          rw [hg3 hvn]
          rfl
        | some p =>
          have hp : p ∈ currentVersions db sv.StoreID := by
            rw [selectLastVersion_eq_head] at hf
            exact List.mem_of_mem_head? hf
          simpa using hg2 p hp
      rw [numbersOfRow_createStoreVersion h, hv, hc, hnum]
      simp only [if_true, hl, List.length_append, List.length_singleton]
      refine ⟨?_, ?_, by simp⟩
      · rw [range_succ_map, ← hg1]
      · intro c hcm
        simp only [List.mem_singleton] at hcm
        subst hcm
        rw [hnew]
        show _ + 1 = _
        rw [hnum]
        push_cast
        rfl
    · rw [hv, hc]
      simp only [hs, if_false]
      exact ⟨hg1, hg2, hg3⟩
  | DeleteStore k =>
    rw [exec_deleteStore] at h
    simp only [Prod.mk.injEq, true_and] at h
    subst h
    simp only [Op.record]
    rw [(versions_after_deleteStore db k s).1, (versions_after_deleteStore db k s).2]
    by_cases hs : k = s
    · simp [hs]
    · simp only [hs, if_false]
      exact ⟨hg1, hg2, hg3⟩
  | DeleteStoreVersion j =>
    rw [exec_deleteStoreVersion] at h
    simp only [Prod.mk.injEq, true_and] at h
    subst h
    simp only [Op.record]
    refine ⟨hg1, ?_, ?_⟩
    · rw [current_kept_by_deleteStoreVersion hk]
      exact hg2
    · intro h0
      apply hg3
      by_contra hne
      have hcur := hcp s hne
      rw [← current_kept_by_deleteStoreVersion hk s] at hcur
      apply hcur
      rw [currentVersions_eq_filter, h0]
      rfl

theorem numbersGiven_counted (s : Nat) (ops : List Op) :
    ∀ {db0 db : DB} {given : List Int}, runKeepingCurrent db0 ops = some db →
      db0.VersionsReferStores → db0.CurrentPresent → db0.CurrentIsHighest →
      Counted db0 s given → Counted db s (numbersGiven s db0 given ops) := by
  induction ops with
  | nil =>
    intro db0 db given h _ _ _ hg
    simp only [runKeepingCurrent, Option.some.injEq] at h
    subst h
    exact hg
  | cons op rest ih =>
    intro db0 db given h hfk hcp hch hg
    simp only [runKeepingCurrent] at h
    split at h
    · rename_i hk
      split at h
      · rename_i db1 hstep
        obtain ⟨h1, h2⟩ := chain_step hstep hk hfk hcp hch
        have hg1 := counted_step s hstep hk hfk hcp hg
        have := ih h (refer_step hstep hfk) h1 h2 hg1
        simp only [numbersGiven, hstep]
        exact this
      · simp at h
    · simp at h

theorem counted_empty (s : Nat) : Counted DB.empty s [] := by
  refine ⟨rfl, ?_, fun _ => rfl⟩
  intro c hc
  simp [DB.empty, currentVersions] at hc

/-- C3, counterexample: in the sample run (create store 1, add two versions,
delete version 3 while it is current, add a version) every step succeeds and
the four versions created for store 1 get the numbers 1, 2, 3, 1; in the run
that adds a version with `IsLast = false` and then another version, the three
versions created get the numbers 1, 2, 1. -/
theorem version_numbers_count_up_counterexample :
    (run DB.empty sampleOps = some sampleDb ∧
      numbersGiven 1 DB.empty [] sampleOps = [1, 2, 3, 1]) ∧
    (run DB.empty sampleUnmarkedOps = some sampleUnmarkedDb ∧
      numbersGiven 1 DB.empty [] sampleUnmarkedOps = [1, 2, 1]) := by
  refine ⟨⟨by decide, by decide⟩, ⟨by decide, by decide⟩⟩

/-- C3, amended: along every run of repository calls from the empty database
in which every created version is inserted with `is_last = true` and no
`DeleteStoreVersion` removes a row that is marked `is_last` at that moment, the
versions created for a store get the numbers 1, 2, 3, ... in the order of their
creation: the version created at position `k` (counted from 0) gets the number
`k + 1`.  Deleting versions that are not current does not disturb the count. -/
theorem version_numbers_count_up_when_current_kept (ops : List Op) (db : DB)
    (h : runKeepingCurrent DB.empty ops = some db) (storeID : Nat) (k : Nat) (n : Int)
    (hk : (numbersGiven storeID DB.empty [] ops)[k]? = some n) : n = (k : Int) + 1 := by
  have hc := (numbersGiven_counted storeID ops h empty_refers empty_currentPresent
    empty_currentIsHighest (counted_empty storeID)).1
  rw [hc] at hk
  simp only [List.getElem?_map, List.getElem?_range, Option.map_eq_some'] at hk
  obtain ⟨i, hi, rfl⟩ := hk
  by_cases hlt : k < (numbersGiven storeID DB.empty [] ops).length
  · rw [List.getElem?_range hlt] at hi
    simp only [Option.some.injEq] at hi
    subst hi
    rfl
  · rw [List.getElem?_eq_none (by simpa using hlt)] at hi
    simp at hi

/-- C3 (amended) at the run that deletes a version that is not current: the
fourth version created for store 1 gets the number 4. -/
theorem version_numbers_count_up_when_current_kept_witness :
    runKeepingCurrent DB.empty sampleKeptOps = some sampleKeptDb ∧
      (numbersGiven 1 DB.empty [] sampleKeptOps)[3]? = some 4 ∧ (4 : Int) = ((3 : Nat) : Int) + 1 :=
  ⟨by decide, by decide,
    version_numbers_count_up_when_current_kept sampleKeptOps sampleKeptDb (by decide) 1 3 4
      (by decide)⟩

/-! ## C4: the effect of `Repository.CreateStoreVersion` -/

theorem wrapInt64_of_range {x : Int} (h1 : -9223372036854775808 ≤ x)
    (h2 : x ≤ 9223372036854775807) : wrapInt64 x = x := by
  unfold wrapInt64
  omega

theorem repoCreateStoreVersion64_ok {db db1 : DB} {sv : StoreVersion} {j : Nat}
    {drv : CreateStoreVersionStep → Outcome}
    (h : Repository.CreateStoreVersion64 db sv j drv = (none, db1)) :
    versionKeyTaken db j = false ∧ storeRowPresent db sv.StoreID = true ∧
      db1 = { stores := db.stores
              store_versions := (clearLast db sv.StoreID).store_versions ++
                [{ sv with
                   VersionID := j
                   VersionNumber :=
                     wrapInt64
                       (((selectLastVersion db sv.StoreID).getD StoreVersion.zero).VersionNumber
                         + 1) }] } := by
  unfold Repository.CreateStoreVersion64 at h
  split at h
  · simp at h
  · split at h
    · simp at h
    · split at h
      · simp at h
      · simp only at h
        split at h
        · simp at h
        · rename_i tx1 h1
          have htx : tx1 = clearLast db sv.StoreID := by
            cases hf : selectLastVersion db sv.StoreID with
            | none =>
              rw [hf] at h1
              simp at h1
              rw [clearLast_of_not_found hf]; exact h1.symm
            | some p =>
              rw [hf] at h1
              simp only [Option.isSome_some, if_true] at h1
              split at h1
              · simp at h1
              · simpa using h1.symm
          subst htx
          split at h
          · simp at h
          · rename_i tx2 h2
            obtain ⟨-, hj, hp, rfl⟩ := insertStoreVersion_ok h2
            split at h
            · simp at h
            · simp only [Prod.mk.injEq, true_and] at h
              rw [versionKeyTaken_clearLast] at hj
              exact ⟨hj, hp, h.symm⟩

theorem createStoreVersion64_eq (db : DB) (sv : StoreVersion) (j : Nat)
    (drv : CreateStoreVersionStep → Outcome)
    (h1 : -9223372036854775808 ≤
      ((selectLastVersion db sv.StoreID).getD StoreVersion.zero).VersionNumber + 1)
    (h2 : ((selectLastVersion db sv.StoreID).getD StoreVersion.zero).VersionNumber
      < 9223372036854775807) :
    Repository.CreateStoreVersion64 db sv j drv = Repository.CreateStoreVersion db sv j drv := by
  unfold Repository.CreateStoreVersion64 Repository.CreateStoreVersion
  simp only [wrapInt64_of_range h1 (by omega)]

/-- C4, counterexample: in the database where the current version of store 1
carries the number `9223372036854775807`, a successful
`Repository.CreateStoreVersion` unmarks that row and adds a row whose number is
`-9223372036854775808`, the wrapped sum of the Go `int`, and not the previous
number plus 1. -/
theorem version_number_wraps_counterexample :
    Repository.CreateStoreVersion64 sampleMaxNumberDb sampleVersion 2 healthy =
      (none,
       { stores := sampleMaxNumberDb.stores
         store_versions :=
           [{ sampleVersion with VersionID := 1, VersionNumber := 9223372036854775807,
                                 IsLast := false },
            { sampleVersion with VersionID := 2, VersionNumber := -9223372036854775808 }] }) ∧
    (currentVersions sampleMaxNumberDb 1).map (fun v => v.VersionNumber) =
      [9223372036854775807] ∧
    (currentVersions (Repository.CreateStoreVersion64 sampleMaxNumberDb sampleVersion 2
        healthy).2 1).map (fun v => v.VersionNumber) = [-9223372036854775808] ∧
    (-9223372036854775808 : Int) ≠ 9223372036854775807 + 1 := by
  refine ⟨by decide, by decide, by decide, by decide⟩

/-- C4, amended: a successful `Repository.CreateStoreVersion` leaves the store
rows as they are; in `store_versions` every row of that store that was marked
`is_last` is now unmarked, every other row is unchanged, and exactly one row is
added at the end: it belongs to that store and carries the assigned key.  Its
`version_number` is 1 when the store had no current version, and otherwise the
number of the previous current version plus 1 as a Go `int` of 64 bits: the
number plus 1 for a previous number below `9223372036854775807`, and
`-9223372036854775808` for the previous number `9223372036854775807`. -/
theorem createStoreVersion_effect_int64 (db db1 : DB) (storeVersion : StoreVersion)
    (versionID : Nat) (drv : CreateStoreVersionStep → Outcome)
    (h : Repository.CreateStoreVersion64 db storeVersion versionID drv = (none, db1)) :
    db1.stores = db.stores ∧
    ∃ new : StoreVersion,
      db1.store_versions =
        db.store_versions.map
          (fun v => if v.StoreID = storeVersion.StoreID ∧ v.IsLast = true
                    then { v with IsLast := false } else v) ++ [new] ∧
      new.StoreID = storeVersion.StoreID ∧ new.VersionID = versionID ∧
      (∀ p, (currentVersions db storeVersion.StoreID).head? = some p →
        new.VersionNumber = wrapInt64 (p.VersionNumber + 1) ∧
        (-9223372036854775808 ≤ p.VersionNumber → p.VersionNumber < 9223372036854775807 →
          new.VersionNumber = p.VersionNumber + 1) ∧
        (p.VersionNumber = 9223372036854775807 →
          new.VersionNumber = -9223372036854775808)) ∧
      (currentVersions db storeVersion.StoreID = [] → new.VersionNumber = 1) := by
  obtain ⟨-, -, rfl⟩ := repoCreateStoreVersion64_ok h
  refine ⟨rfl, { storeVersion with
      VersionID := versionID
      VersionNumber :=
        wrapInt64
          (((selectLastVersion db storeVersion.StoreID).getD StoreVersion.zero).VersionNumber
            + 1) },
    ?_, rfl, rfl, ?_, ?_⟩
  · show (clearLast db storeVersion.StoreID).store_versions ++ _ = _
    congr 1
    simp only [clearLast]
    apply List.map_congr_left
    intro v _
    by_cases hv : v.StoreID = storeVersion.StoreID <;> by_cases hl : v.IsLast = true <;>
      simp [hv, hl]
  · intro p hp
    rw [← selectLastVersion_eq_head] at hp
    simp only [hp, Option.getD_some, true_and]
    refine ⟨fun h1 h2 => wrapInt64_of_range (by omega) (by omega), fun h3 => ?_⟩
    rw [h3]
    decide
  · intro hnil
    have : selectLastVersion db storeVersion.StoreID = none := by
      rw [selectLastVersion_eq_head, hnil]; rfl
    simp only [this, Option.getD_none, StoreVersion.zero]
    decide

/-- C4 at the sample store: adding a version to the store that holds version 1
gives the number 2. -/
theorem createStoreVersion_effect_int64_witness :
    Repository.CreateStoreVersion64 sampleStoreDb sampleVersion 2 healthy =
        (none, sampleTwoVersionsDb) ∧
    (sampleTwoVersionsDb.stores = sampleStoreDb.stores ∧
    ∃ new : StoreVersion,
      sampleTwoVersionsDb.store_versions =
        sampleStoreDb.store_versions.map
          (fun v => if v.StoreID = sampleVersion.StoreID ∧ v.IsLast = true
                    then { v with IsLast := false } else v) ++ [new] ∧
      new.StoreID = sampleVersion.StoreID ∧ new.VersionID = 2 ∧
      (∀ p, (currentVersions sampleStoreDb sampleVersion.StoreID).head? = some p →
        new.VersionNumber = wrapInt64 (p.VersionNumber + 1) ∧
        (-9223372036854775808 ≤ p.VersionNumber → p.VersionNumber < 9223372036854775807 →
          new.VersionNumber = p.VersionNumber + 1) ∧
        (p.VersionNumber = 9223372036854775807 →
          new.VersionNumber = -9223372036854775808)) ∧
      (currentVersions sampleStoreDb sampleVersion.StoreID = [] → new.VersionNumber = 1)) :=
  ⟨by decide,
    createStoreVersion_effect_int64 sampleStoreDb sampleTwoVersionsDb sampleVersion 2 healthy
      (by decide)⟩

/-! ## A store and the versions added to it -/

theorem serviceCreateStore_ok {db db1 : DB} {data : service.Store} {login now : String}
    {k j : Nat} {drv : CreateStoreStep → Outcome}
    (h : service.StoreService.CreateStore db data login now k j drv = (none, db1)) :
    Repository.CreateStore db
      { StoreID := 0, Name := data.Name, Address := data.Address, CreatorLogin := login,
        OwnerName := data.OwnerName, OpeningTime := data.OpeningTime,
        ClosingTime := data.ClosingTime, CreatedAt := now } k j drv = (none, db1) := by
  unfold service.StoreService.CreateStore at h
  simp only at h
  split at h
  · simp at h
  · rename_i db2 hr
    simp only [Prod.mk.injEq, true_and] at h
    rw [hr, h]

theorem serviceCreateStoreVersion_ok {db db1 : DB} {data : service.StoreVersion} {k : Nat}
    {login now : String} {j : Nat} {oGet : Outcome} {drv : CreateStoreVersionStep → Outcome}
    (h : service.StoreService.CreateStoreVersion db data k login now j oGet drv = (none, db1)) :
    Repository.CreateStoreVersion db
      { VersionID := 0, StoreID := k, VersionNumber := 0, CreatorLogin := login,
        OwnerName := data.OwnerName, OpeningTime := data.OpeningTime,
        ClosingTime := data.ClosingTime, CreatedAt := now, IsLast := true } j drv
      = (none, db1) := by
  unfold service.StoreService.CreateStoreVersion at h
  split at h
  · simp at h
  · simp only at h
    split at h
    · simp at h
    · rename_i db2 hr
      simp only [Prod.mk.injEq, true_and] at h
      rw [hr, h]

theorem chainOf_selectLast {db : DB} {s m : Nat} (h : ChainOf db s m) :
    ∃ p, selectLastVersion db s = some p ∧ p.VersionNumber = (m : Int) + 1 := by
  obtain ⟨l, p, hv, hl, hn, hall, -⟩ := h
  refine ⟨p, ?_, hn⟩
  rw [selectLastVersion_eq_head, currentVersions_eq_filter, hv, List.filter_append]
  have : l.filter (fun v => v.IsLast) = [] := by
    rw [List.filter_eq_nil_iff]
    intro v hvl
    simp [hall v hvl]
  simp [this, hl]

theorem chainOf_step {db db1 : DB} {s m : Nat} {c : VersionCall}
    (h : service.StoreService.CreateStoreVersion db c.data s c.login c.now c.versionID c.oGet c.drv
      = (none, db1)) (hc : ChainOf db s m) : ChainOf db1 s (m + 1) := by
  have hr := serviceCreateStoreVersion_ok h
  obtain ⟨new, hnew, hv, -⟩ := versions_after_createStoreVersion hr s
  obtain ⟨p0, hp0, hp0n⟩ := chainOf_selectLast hc
  obtain ⟨l, p, hvs, hl, hn, hall, hnums⟩ := hc
  simp only [if_true] at hv
  refine ⟨(versionsOf db s).map (fun v => { v with IsLast := false }), new, hv, ?_, ?_, ?_, ?_⟩
  · subst hnew
    rfl
  · subst hnew
    show ((selectLastVersion db s).getD StoreVersion.zero).VersionNumber + 1 = _
    rw [hp0]
    simp only [Option.getD_some, hp0n]
    push_cast
    rfl
  · intro v hvm
    simp only [List.mem_map] at hvm
    obtain ⟨w, -, rfl⟩ := hvm
    rfl
  · have hcomp : ((fun v : StoreVersion => v.VersionNumber) ∘
        fun v : StoreVersion => { v with IsLast := false }) = fun v => v.VersionNumber := by
      funext v; rfl
    rw [List.map_map, hcomp, hvs, range_succ_map, List.map_append, List.map_singleton, hnums, hn]

theorem createVersions_chain (s : Nat) (calls : List VersionCall) :
    ∀ {db dbn : DB} {m : Nat}, createVersions db s calls = some dbn → ChainOf db s m →
      ChainOf dbn s (m + calls.length) := by
  induction calls with
  | nil =>
    intro db dbn m h hc
    simp only [createVersions, Option.some.injEq] at h
    subst h
    exact hc
  | cons c rest ih =>
    intro db dbn m h hc
    simp only [createVersions] at h
    split at h
    · rename_i db1 hstep
      have := ih h (chainOf_step hstep hc)
      simp only [List.length_cons]
      rw [show m + (rest.length + 1) = m + 1 + rest.length by omega]
      exact this
    · simp at h

theorem chainOf_pairs {db : DB} {s m : Nat} (h : ChainOf db s m) :
    (versionsOf db s).map (fun v => (v.VersionNumber, v.IsLast)) =
      (List.range m).map (fun i : Nat => ((i : Int) + 1, false)) ++ [((m : Int) + 1, true)] := by
  obtain ⟨l, p, hv, hl, hn, hall, hnums⟩ := h
  rw [hv, List.map_append, List.map_singleton, hl, hn]
  congr 1
  have h1 : l.map (fun v => (v.VersionNumber, v.IsLast)) =
      (l.map (fun v => v.VersionNumber)).map (fun n => (n, false)) := by
    rw [List.map_map]
    apply List.map_congr_left
    intro v hvl
    simp [hall v hvl]
  rw [h1, hnums, List.map_map]
  rfl

/-- The history of a store whose creation is committed.  Start from a database
that satisfies the foreign key of `store_versions`.  After a
`StoreService.CreateStore` that returns nil and whose transaction is committed, followed by `n` calls of
`StoreService.CreateStoreVersion` on the new store that all return nil, the
rows of the store are, in table order, numbered `1, ..., n + 1`, the row
numbered `n + 1` is marked `is_last` and no other row is; and
`StoreService.GetStoreVersionHistory` returns exactly these `n + 1` rows. -/
theorem history_after_createStore_and_versions (db db1 dbn : DB) (data : service.Store)
    (login now : String) (storeID versionID : Nat) (drv : CreateStoreStep → Outcome)
    (calls : List VersionCall)
    (hfk : db.VersionsReferStores) (hcommit : drv .Commit = none)
    (h1 : service.StoreService.CreateStore db data login now storeID versionID drv = (none, db1))
    (hn : createVersions db1 storeID calls = some dbn) :
    (versionsOf dbn storeID).map (fun v => (v.VersionNumber, v.IsLast)) =
        (List.range calls.length).map (fun i : Nat => ((i : Int) + 1, false)) ++
          [((calls.length : Int) + 1, true)] ∧
      ∃ history : List StoreVersion,
        service.StoreService.GetStoreVersionHistory dbn storeID none = .ok history ∧
        history.Perm (versionsOf dbn storeID) ∧ history.length = calls.length + 1 := by
  have hr := serviceCreateStore_ok h1
  obtain ⟨new, -, -, hnum, hlast, hv, -⟩ := versions_after_repoCreateStore hr hcommit hfk storeID
  simp only [if_true] at hv
  have h0 : ChainOf db1 storeID 0 := by
    refine ⟨[], new, by simpa using hv, hlast, by simpa using hnum, by simp, by simp⟩
  have hc := createVersions_chain storeID calls hn h0
  rw [Nat.zero_add] at hc
  have hpairs := chainOf_pairs hc
  refine ⟨hpairs, ?_⟩
  have hlen : (versionsOf dbn storeID).length = calls.length + 1 := by
    have := congrArg List.length hpairs
    simpa using this
  refine ⟨(versionsOf dbn storeID).insertionSort (fun a b => ¬ a.CreatedAt < b.CreatedAt),
    ?_, List.perm_insertionSort _ _, ?_⟩
  · have hne : ((versionsOf dbn storeID).insertionSort
        (fun a b => ¬ a.CreatedAt < b.CreatedAt)).length ≠ 0 := by
      rw [List.length_insertionSort, hlen]
      omega
    simp only [service.StoreService.GetStoreVersionHistory, Repository.GetStoreVersionHistory]
    simp only [versionsOf] at hne
    simp only [hne, if_false, versionsOf]
  · rw [List.length_insertionSort, hlen]

/-- The history of the sample store with two added versions. -/
theorem history_after_createStore_and_versions_witness :
    DB.empty.VersionsReferStores ∧
    service.StoreService.CreateStore DB.empty sampleData "alice" "2024-01-01 10:00:00" 1 1 healthy
      = (none, sampleStoreDb) ∧
    createVersions sampleStoreDb 1 sampleCalls = some sampleThreeVersionsDb ∧
    ((versionsOf sampleThreeVersionsDb 1).map (fun v => (v.VersionNumber, v.IsLast)) =
        (List.range sampleCalls.length).map (fun i : Nat => ((i : Int) + 1, false)) ++
          [((sampleCalls.length : Int) + 1, true)] ∧
      ∃ history : List StoreVersion,
        service.StoreService.GetStoreVersionHistory sampleThreeVersionsDb 1 none = .ok history ∧
        history.Perm (versionsOf sampleThreeVersionsDb 1) ∧
        history.length = sampleCalls.length + 1) :=
  ⟨empty_refers, by decide, by decide,
    history_after_createStore_and_versions DB.empty sampleStoreDb sampleThreeVersionsDb sampleData
      "alice" "2024-01-01 10:00:00" 1 1 healthy sampleCalls empty_refers rfl (by decide)
      (by decide)⟩

/-! ## The effect of `CreateStore` (committed) and C7: the effect of `DeleteStoreVersion` -/

/-- The effect of a committed `CreateStore`: a `StoreService.CreateStore` that
returns nil and whose transaction is committed adds exactly one row to `stores`, under a key no row had before, with
the caller's login as `creator_login` and the request data in the other
columns, and exactly one row to `store_versions`, for that store, with
`version_number = 1`, `is_last = true` and `creator_login`, `owner_name`,
`opening_time`, `closing_time`, `created_at` equal to those of the store row;
the rows present before are unchanged and stay in place. -/
theorem createStore_effect (db db1 : DB) (data : service.Store) (login now : String)
    (storeID versionID : Nat) (drv : CreateStoreStep → Outcome)
    (hcommit : drv .Commit = none)
    (h : service.StoreService.CreateStore db data login now storeID versionID drv = (none, db1)) :
    ∃ (s : Store) (v : StoreVersion),
      db1.stores = db.stores ++ [s] ∧ db1.store_versions = db.store_versions ++ [v] ∧
      s.StoreID = storeID ∧ (∀ t ∈ db.stores, t.StoreID ≠ s.StoreID) ∧
      s.CreatorLogin = login ∧ s.Name = data.Name ∧ s.Address = data.Address ∧
      s.OwnerName = data.OwnerName ∧ s.OpeningTime = data.OpeningTime ∧
      s.ClosingTime = data.ClosingTime ∧ s.CreatedAt = now ∧
      v.VersionID = versionID ∧ (∀ w ∈ db.store_versions, w.VersionID ≠ v.VersionID) ∧
      v.StoreID = s.StoreID ∧ v.VersionNumber = 1 ∧ v.IsLast = true ∧
      v.CreatorLogin = s.CreatorLogin ∧ v.OwnerName = s.OwnerName ∧
      v.OpeningTime = s.OpeningTime ∧ v.ClosingTime = s.ClosingTime ∧
      v.CreatedAt = s.CreatedAt := by
  obtain ⟨hk, hj, rfl⟩ := repoCreateStore_committed (serviceCreateStore_ok h) hcommit
  rw [storeKeyTaken_eq_false_iff] at hk
  rw [versionKeyTaken_eq_false_iff] at hj
  exact ⟨_, _, rfl, rfl, rfl, hk, rfl, rfl, rfl, rfl, rfl, rfl, rfl, rfl, hj, rfl, rfl, rfl,
    rfl, rfl, rfl, rfl, rfl⟩

/-- The sample store, created in the empty database. -/
theorem createStore_effect_witness :
    service.StoreService.CreateStore DB.empty sampleData "alice" "2024-01-01 10:00:00" 1 1 healthy
      = (none, sampleStoreDb) ∧
    ∃ (s : Store) (v : StoreVersion),
      sampleStoreDb.stores = DB.empty.stores ++ [s] ∧
      sampleStoreDb.store_versions = DB.empty.store_versions ++ [v] ∧
      s.StoreID = 1 ∧ (∀ t ∈ DB.empty.stores, t.StoreID ≠ s.StoreID) ∧
      s.CreatorLogin = "alice" ∧ s.Name = sampleData.Name ∧ s.Address = sampleData.Address ∧
      s.OwnerName = sampleData.OwnerName ∧ s.OpeningTime = sampleData.OpeningTime ∧
      s.ClosingTime = sampleData.ClosingTime ∧ s.CreatedAt = "2024-01-01 10:00:00" ∧
      v.VersionID = 1 ∧ (∀ w ∈ DB.empty.store_versions, w.VersionID ≠ v.VersionID) ∧
      v.StoreID = s.StoreID ∧ v.VersionNumber = 1 ∧ v.IsLast = true ∧
      v.CreatorLogin = s.CreatorLogin ∧ v.OwnerName = s.OwnerName ∧
      v.OpeningTime = s.OpeningTime ∧ v.ClosingTime = s.ClosingTime ∧
      v.CreatedAt = s.CreatedAt :=
  ⟨by decide,
    createStore_effect DB.empty sampleStoreDb sampleData "alice" "2024-01-01 10:00:00" 1 1 healthy
      rfl (by decide)⟩

theorem repoDeleteStoreVersion_ok {db db1 : DB} {j : Nat} {drv : TxStep → Outcome}
    (h : Repository.DeleteStoreVersion db j drv = (none, db1)) : db1 = deleteVersionRow db j := by
  unfold Repository.DeleteStoreVersion at h
  split at h
  · simp at h
  · split at h
    · simp at h
    · split at h
      · simp at h
      · simp only [Prod.mk.injEq, true_and] at h
        exact h.symm

/-- C7: a successful `Repository.DeleteStoreVersion` leaves `stores` as it is
and removes from `store_versions` the rows with the given key and no other: a
row is present afterwards exactly when it was present before and has another
key, so every remaining row keeps all its columns (`is_last` and
`version_number` included) and its place; when no row has the key the database
is unchanged; and when the removed row was marked `is_last` in a store with at
most one marked row, the store has no current version afterwards. -/
theorem deleteStoreVersion_effect (db db1 : DB) (versionId : Nat) (drv : TxStep → Outcome)
    (h : Repository.DeleteStoreVersion db versionId drv = (none, db1)) :
    db1.stores = db.stores ∧
    db1.store_versions = db.store_versions.filter (fun v => v.VersionID ≠ versionId) ∧
    (∀ v, v ∈ db1.store_versions ↔ v ∈ db.store_versions ∧ v.VersionID ≠ versionId) ∧
    ((∀ v ∈ db.store_versions, v.VersionID ≠ versionId) → db1 = db) ∧
    (∀ c ∈ db.store_versions, c.VersionID = versionId → c.IsLast = true →
      (currentVersions db c.StoreID).length ≤ 1 → currentVersions db1 c.StoreID = []) := by
  have hdb := repoDeleteStoreVersion_ok h
  subst hdb
  have hrows : (deleteVersionRow db versionId).store_versions =
      db.store_versions.filter (fun v => v.VersionID ≠ versionId) := by
    simp only [deleteVersionRow]
    apply List.filter_congr
    intro v _
    by_cases hv : v.VersionID = versionId <;> simp [hv]
  refine ⟨rfl, hrows, ?_, ?_, ?_⟩
  · intro v
    rw [hrows, List.mem_filter]
    simp
  · intro hall
    have : (deleteVersionRow db versionId).store_versions = db.store_versions := by
      rw [hrows, List.filter_eq_self]
      intro v hv
      simpa using hall v hv
    cases db
    simp only [deleteVersionRow] at this ⊢
    simp only [this]
  · intro c hc hid hlast hone
    rw [(versions_after_deleteStoreVersion db versionId c.StoreID).2]
    have hmem : c ∈ currentVersions db c.StoreID := by
      simp [currentVersions, hc, hlast]
    have hsingle : currentVersions db c.StoreID = [c] := by
      cases hcur : currentVersions db c.StoreID with
      | nil => rw [hcur] at hmem; simp at hmem
      | cons a l =>
        rw [hcur] at hmem hone
        have hl : l = [] := by
          cases l with
          | nil => rfl
          | cons b l2 => simp at hone
        subst hl
        simp only [List.mem_singleton] at hmem
        rw [hmem]
    rw [hsingle]
    simp [hid]

/-- C7 at the sample store with two versions: deleting version 2, the current
one, leaves version 1 alone, still unmarked. -/
theorem deleteStoreVersion_effect_witness :
    Repository.DeleteStoreVersion sampleTwoVersionsDb 2 healthy =
      (none, deleteVersionRow sampleTwoVersionsDb 2) ∧
    ((deleteVersionRow sampleTwoVersionsDb 2).stores = sampleTwoVersionsDb.stores ∧
    (deleteVersionRow sampleTwoVersionsDb 2).store_versions =
      sampleTwoVersionsDb.store_versions.filter (fun v => v.VersionID ≠ 2) ∧
    (∀ v, v ∈ (deleteVersionRow sampleTwoVersionsDb 2).store_versions ↔
      v ∈ sampleTwoVersionsDb.store_versions ∧ v.VersionID ≠ 2) ∧
    ((∀ v ∈ sampleTwoVersionsDb.store_versions, v.VersionID ≠ 2) →
      deleteVersionRow sampleTwoVersionsDb 2 = sampleTwoVersionsDb) ∧
    (∀ c ∈ sampleTwoVersionsDb.store_versions, c.VersionID = 2 → c.IsLast = true →
      (currentVersions sampleTwoVersionsDb c.StoreID).length ≤ 1 →
      currentVersions (deleteVersionRow sampleTwoVersionsDb 2) c.StoreID = [])) ∧
    (versionsOf (deleteVersionRow sampleTwoVersionsDb 2) 1).map
      (fun v => (v.VersionID, v.VersionNumber, v.IsLast)) = [(1, 1, false)] :=
  ⟨by decide,
    deleteStoreVersion_effect sampleTwoVersionsDb (deleteVersionRow sampleTwoVersionsDb 2) 2
      healthy (by decide),
    by decide⟩

/-! ## C8, C9 and C10: `DeleteStore` -/

theorem getStoreByID_of_mem {db : DB} {k : Nat} (h : ∃ e ∈ db.stores, e.StoreID = k) :
    ∃ s, Repository.GetStoreByID db k none = .ok s := by
  obtain ⟨e, he, hk⟩ := h
  simp only [Repository.GetStoreByID]
  cases hf : db.stores.find? (fun s => s.StoreID == k) with
  | none =>
    rw [List.find?_eq_none] at hf
    have := hf e he
    simp [hk] at this
  | some s => exact ⟨s, rfl⟩

/-- C8: when a store row with key `E` exists whose `creator_login` is the
caller's login and no storage step fails, `StoreService.DeleteStore` returns
nil; afterwards no row of `stores` has key `E` and no row of `store_versions`
has `store_id = E`, and the rows of all other stores and their versions are
exactly the rows that were there before, in place. -/
theorem deleteStore_by_creator (db : DB) (storeID : Nat) (login : String)
    (h : ∃ e ∈ db.stores, e.StoreID = storeID ∧ e.CreatorLogin = login) :
    ∃ db1 : DB,
      service.StoreService.DeleteStore db storeID login none none healthy healthy = (none, db1) ∧
      db1.stores = db.stores.filter (fun s => s.StoreID ≠ storeID) ∧
      db1.store_versions = db.store_versions.filter (fun v => v.StoreID ≠ storeID) ∧
      (∀ s ∈ db1.stores, s.StoreID ≠ storeID) ∧
      (∀ v ∈ db1.store_versions, v.StoreID ≠ storeID) ∧
      (∀ s ∈ db.stores, s.StoreID ≠ storeID → s ∈ db1.stores) ∧
      (∀ v ∈ db.store_versions, v.StoreID ≠ storeID → v ∈ db1.store_versions) := by
  obtain ⟨e, he, hk, hl⟩ := h
  obtain ⟨s0, hs0⟩ := getStoreByID_of_mem ⟨e, he, hk⟩
  have hcheck : Repository.CheckStoreCreator db storeID login none = none := by
    simp only [Repository.CheckStoreCreator]
    have : db.stores.any (fun s => s.StoreID == storeID && s.CreatorLogin == login) = true := by
      rw [List.any_eq_true]
      exact ⟨e, he, by simp [hk, hl]⟩
    simp [this]
  have hstores : (db.stores.filter (fun s => !(s.StoreID == storeID))) =
      db.stores.filter (fun s => s.StoreID ≠ storeID) := by
    apply List.filter_congr
    intro s _
    by_cases hs : s.StoreID = storeID <;> simp [hs]
  have hvers : (db.store_versions.filter (fun v => !(v.StoreID == storeID))) =
      db.store_versions.filter (fun v => v.StoreID ≠ storeID) := by
    apply List.filter_congr
    intro v _
    by_cases hv : v.StoreID = storeID <;> simp [hv]
  refine ⟨deleteStoreRow (deleteVersionsOfStore db storeID) storeID, ?_, hstores, hvers,
    ?_, ?_, ?_, ?_⟩
  · simp only [service.StoreService.DeleteStore, hs0, hcheck]
    rfl
  · intro s hs
    simp only [deleteStoreRow, deleteVersionsOfStore, List.mem_filter] at hs
    simpa using hs.2
  · intro v hv
    simp only [deleteStoreRow, deleteVersionsOfStore, List.mem_filter] at hv
    simpa using hv.2
  · intro s hs hne
    simp only [deleteStoreRow, deleteVersionsOfStore, List.mem_filter]
    exact ⟨hs, by simpa using hne⟩
  · intro v hv hne
    simp only [deleteStoreRow, deleteVersionsOfStore, List.mem_filter]
    exact ⟨hv, by simpa using hne⟩

/-- C8 at the sample store with two versions, deleted by its creator. -/
theorem deleteStore_by_creator_witness :
    (∃ e ∈ sampleTwoVersionsDb.stores, e.StoreID = 1 ∧ e.CreatorLogin = "alice") ∧
    ∃ db1 : DB,
      service.StoreService.DeleteStore sampleTwoVersionsDb 1 "alice" none none healthy healthy
        = (none, db1) ∧
      db1.stores = sampleTwoVersionsDb.stores.filter (fun s => s.StoreID ≠ 1) ∧
      db1.store_versions = sampleTwoVersionsDb.store_versions.filter (fun v => v.StoreID ≠ 1) ∧
      (∀ s ∈ db1.stores, s.StoreID ≠ 1) ∧
      (∀ v ∈ db1.store_versions, v.StoreID ≠ 1) ∧
      (∀ s ∈ sampleTwoVersionsDb.stores, s.StoreID ≠ 1 → s ∈ db1.stores) ∧
      (∀ v ∈ sampleTwoVersionsDb.store_versions, v.StoreID ≠ 1 → v ∈ db1.store_versions) :=
  ⟨by decide, deleteStore_by_creator sampleTwoVersionsDb 1 "alice" (by decide)⟩

/-- C9, the code at the failing input: in the sample database (store 1 with
versions 1 and 2) `Repository.DeleteStore` of store 1, with the driver failing
at the `DELETE FROM stores` of the outer transaction, returns the error, keeps
the store row and has removed both version rows: `DeleteStoreVersions` had
committed its own transaction before. -/
theorem deleteStore_not_atomic :
    Repository.DeleteStore sampleTwoVersionsDb 1 (failingAt TxStep.Exec "connection lost") healthy
        = (some (Error.driver "connection lost"),
           { stores := sampleTwoVersionsDb.stores, store_versions := [] }) ∧
      sampleTwoVersionsDb.store_versions.length = 2 ∧
      sampleTwoVersionsDb.stores.length = 1 := by
  refine ⟨by decide, by decide, by decide⟩

/-- C10: for an existing store and a login that differs from the
`creator_login` of the store, `StoreService.DeleteStore` never returns nil and
leaves the database as it was, whatever the driver does; and whenever the
lookup of the store is answered by the database the error returned is
`ErrPermissionDenied`. -/
theorem deleteStore_by_other_denied (db : DB) (storeID : Nat) (login : String)
    (oGet oCheck : Outcome) (drv drvVersions : TxStep → Outcome)
    (hex : ∃ e ∈ db.stores, e.StoreID = storeID)
    (hne : ∀ e ∈ db.stores, e.StoreID = storeID → e.CreatorLogin ≠ login) :
    (service.StoreService.DeleteStore db storeID login oGet oCheck drv drvVersions).1 ≠ none ∧
    (service.StoreService.DeleteStore db storeID login oGet oCheck drv drvVersions).2 = db ∧
    (oGet = none →
      (service.StoreService.DeleteStore db storeID login oGet oCheck drv drvVersions).1
        = some Error.ErrPermissionDenied) := by
  have hcheck : Repository.CheckStoreCreator db storeID login oCheck ≠ none := by
    simp only [Repository.CheckStoreCreator]
    cases oCheck with
    | some m => simp
    | none =>
      have : db.stores.any (fun s => s.StoreID == storeID && s.CreatorLogin == login) = false := by
        rw [List.any_eq_false]
        intro s hs
        by_cases hk : s.StoreID = storeID
        · simp [hk, hne s hs hk]
        · simp [hk]
      simp [this]
  cases oGet with
  | some m =>
    simp [service.StoreService.DeleteStore, Repository.GetStoreByID]
  | none =>
    obtain ⟨s0, hs0⟩ := getStoreByID_of_mem hex
    cases hc : Repository.CheckStoreCreator db storeID login oCheck with
    | none => exact absurd hc hcheck
    | some err =>
      simp [service.StoreService.DeleteStore, hs0, hc]

/-- C10 at the sample store, created by `alice`, with the caller `bob`. -/
theorem deleteStore_by_other_denied_witness :
    (∃ e ∈ sampleTwoVersionsDb.stores, e.StoreID = 1) ∧
    (∀ e ∈ sampleTwoVersionsDb.stores, e.StoreID = 1 → e.CreatorLogin ≠ "bob") ∧
    ((service.StoreService.DeleteStore sampleTwoVersionsDb 1 "bob" none none healthy healthy).1
        ≠ none ∧
      (service.StoreService.DeleteStore sampleTwoVersionsDb 1 "bob" none none healthy healthy).2
        = sampleTwoVersionsDb ∧
      ((none : Outcome) = none →
        (service.StoreService.DeleteStore sampleTwoVersionsDb 1 "bob" none none healthy healthy).1
          = some Error.ErrPermissionDenied)) :=
  ⟨by decide, by decide,
    deleteStore_by_other_denied sampleTwoVersionsDb 1 "bob" none none healthy healthy (by decide)
      (by decide)⟩

/-! ## The range of the version numbers -/

theorem numbers_bounded_step {db db1 : DB} {op : Op} {m : Nat} (h : op.exec db = (none, db1))
    (hb : ∀ v ∈ db.store_versions, 1 ≤ v.VersionNumber ∧ v.VersionNumber ≤ (m : Int)) :
    ∀ v ∈ db1.store_versions, 1 ≤ v.VersionNumber ∧ v.VersionNumber ≤ ((m + 1 : Nat) : Int) := by
  have hweak : ∀ v ∈ db.store_versions,
      1 ≤ v.VersionNumber ∧ v.VersionNumber ≤ ((m + 1 : Nat) : Int) := by
    intro v hv
    have := hb v hv
    exact ⟨by omega, by push_cast; omega⟩
  cases op with
  | CreateStore store k j =>
    have h : Repository.CreateStore db store k j healthy = (none, db1) := h
    obtain ⟨-, -, rfl⟩ := repoCreateStore_committed h rfl
    intro v hv
    simp only [List.mem_append, List.mem_singleton] at hv
    rcases hv with hv | rfl
    · exact hweak v hv
    · exact ⟨le_refl _, by push_cast; omega⟩
  | CreateStoreVersion sv j =>
    have h : Repository.CreateStoreVersion db sv j healthy = (none, db1) := h
    obtain ⟨-, -, rfl⟩ := repoCreateStoreVersion_ok h
    intro v hv
    simp only [List.mem_append, List.mem_singleton] at hv
    rcases hv with hv | rfl
    · obtain ⟨w, hw, -, -, hn⟩ := mem_clearLast hv
      rw [← hn]
      exact hweak w hw
    · show 1 ≤ ((selectLastVersion db sv.StoreID).getD StoreVersion.zero).VersionNumber + 1 ∧
        ((selectLastVersion db sv.StoreID).getD StoreVersion.zero).VersionNumber + 1 ≤ _
      cases hf : selectLastVersion db sv.StoreID with
      | none =>
        simp only [Option.getD_none, StoreVersion.zero]
        exact ⟨by omega, by push_cast; omega⟩
      | some p =>
        have hp : p ∈ db.store_versions := by
          unfold selectLastVersion at hf
          exact List.mem_of_find?_eq_some hf
        have := hb p hp
        simp only [Option.getD_some]
        exact ⟨by omega, by push_cast; omega⟩
  | DeleteStore k =>
    rw [exec_deleteStore] at h
    simp only [Prod.mk.injEq, true_and] at h
    subst h
    intro v hv
    simp only [deleteStoreRow, deleteVersionsOfStore, List.mem_filter] at hv
    exact hweak v hv.1
  | DeleteStoreVersion j =>
    rw [exec_deleteStoreVersion] at h
    simp only [Prod.mk.injEq, true_and] at h
    subst h
    intro v hv
    simp only [deleteVersionRow, List.mem_filter] at hv
    exact hweak v hv.1

theorem numbers_bounded_run (ops : List Op) :
    ∀ {db0 db : DB} {m : Nat}, run db0 ops = some db →
      (∀ v ∈ db0.store_versions, 1 ≤ v.VersionNumber ∧ v.VersionNumber ≤ (m : Int)) →
      ∀ v ∈ db.store_versions,
        1 ≤ v.VersionNumber ∧ v.VersionNumber ≤ ((m + ops.length : Nat) : Int) := by
  induction ops with
  | nil =>
    intro db0 db m h hb
    simp only [run, Option.some.injEq] at h
    subst h
    simpa using hb
  | cons op rest ih =>
    intro db0 db m h hb
    simp only [run] at h
    split at h
    · rename_i db1 hstep
      have := ih h (numbers_bounded_step hstep hb)
      simp only [List.length_cons]
      rw [show m + (rest.length + 1) = m + 1 + rest.length by omega]
      exact this
    · simp at h

/-- The version numbers of a database reached from the empty database by `n`
successful calls lie between 1 and `n`: the 64-bit representation of the Go
`int` is not exhausted by any run of fewer than `2^63` calls, which is why
`version_number` is embedded as an unbounded integer. -/
theorem version_numbers_in_range (ops : List Op) (db : DB) (h : run DB.empty ops = some db) :
    ∀ v ∈ db.store_versions, 1 ≤ v.VersionNumber ∧ v.VersionNumber ≤ (ops.length : Int) := by
  have := @numbers_bounded_run ops DB.empty db 0 h (by simp [DB.empty])
  simpa using this

/-! ## C11: a store that does not exist -/

theorem getStoreByID_of_missing {db : DB} {k : Nat} (h : ∀ s ∈ db.stores, s.StoreID ≠ k)
    (o : Outcome) : ∃ e, Repository.GetStoreByID db k o = .error e := by
  cases o with
  | some m => exact ⟨_, rfl⟩
  | none =>
    have hf : db.stores.find? (fun s => s.StoreID == k) = none := by
      rw [List.find?_eq_none]
      intro s hs
      simpa using h s hs
    exact ⟨.ErrNoRows, by simp [Repository.GetStoreByID, hf]⟩

/-- C11: for a store key that no row of `stores` carries, every login and
every behaviour of the driver, `StoreService.DeleteStore` and
`StoreService.CreateStoreVersion` both return `ErrStoreNotFound` and the
database they leave is the database they found. -/
theorem missing_store_is_not_found (db : DB) (storeID : Nat) (login : String)
    (hmiss : ∀ s ∈ db.stores, s.StoreID ≠ storeID)
    (oGet oCheck : Outcome) (drv drvVersions : TxStep → Outcome)
    (data : service.StoreVersion) (now : String) (versionID : Nat)
    (drvCreate : CreateStoreVersionStep → Outcome) :
    service.StoreService.DeleteStore db storeID login oGet oCheck drv drvVersions
        = (some Error.ErrStoreNotFound, db) ∧
    service.StoreService.CreateStoreVersion db data storeID login now versionID oGet drvCreate
        = (some Error.ErrStoreNotFound, db) := by
  obtain ⟨e, he⟩ := getStoreByID_of_missing hmiss oGet
  constructor
  · simp only [service.StoreService.DeleteStore, he]
  · simp only [service.StoreService.CreateStoreVersion, he]

/-- C11 at the sample database, which holds store 1 only, for the key 7 and the
login of the creator of store 1. -/
theorem missing_store_is_not_found_witness :
    (∀ s ∈ sampleTwoVersionsDb.stores, s.StoreID ≠ 7) ∧
    (service.StoreService.DeleteStore sampleTwoVersionsDb 7 "alice" none none healthy healthy
        = (some Error.ErrStoreNotFound, sampleTwoVersionsDb) ∧
     service.StoreService.CreateStoreVersion sampleTwoVersionsDb
        { OwnerName := "Alice", OpeningTime := "09:00", ClosingTime := "21:00", CreatedAt := "" }
        7 "alice" "2024-01-05 10:00:00" 9 none healthy
        = (some Error.ErrStoreNotFound, sampleTwoVersionsDb)) :=
  ⟨by decide,
    missing_store_is_not_found sampleTwoVersionsDb 7 "alice" (by decide) none none healthy healthy
      { OwnerName := "Alice", OpeningTime := "09:00", ClosingTime := "21:00", CreatedAt := "" }
      "2024-01-05 10:00:00" 9 healthy⟩

/-! ## C12: `StoreService.DeleteStoreVersion` -/

theorem getStoreVersionForStore_ok_iff (db : DB) (s j : Nat) (o : Outcome) :
    (∃ v, Repository.GetStoreVersionForStore db s j o = .ok v) ↔
      o = none ∧ ∃ v ∈ db.store_versions, v.VersionID = j ∧ v.StoreID = s := by
  cases o with
  | some m => simp [Repository.GetStoreVersionForStore]
  | none =>
    simp only [Repository.GetStoreVersionForStore, true_and]
    cases hf : db.store_versions.find? (fun v => v.VersionID == j && v.StoreID == s) with
    | none =>
      rw [List.find?_eq_none] at hf
      constructor
      · rintro ⟨v, hv⟩
        simp at hv
      · rintro ⟨v, hv, h1, h2⟩
        have := hf v hv
        simp [h1, h2] at this
    | some w =>
      have hw := List.mem_of_find?_eq_some hf
      have hp := List.find?_some hf
      simp only [Bool.and_eq_true, beq_iff_eq] at hp
      exact ⟨fun _ => ⟨w, hw, hp.1, hp.2⟩, fun _ => ⟨w, rfl⟩⟩

theorem checkStoreCreator_none_iff (db : DB) (s : Nat) (login : String) (o : Outcome) :
    Repository.CheckStoreCreator db s login o = none ↔
      o = none ∧ ∃ e ∈ db.stores, e.StoreID = s ∧ e.CreatorLogin = login := by
  cases o with
  | some m => simp [Repository.CheckStoreCreator]
  | none =>
    simp only [Repository.CheckStoreCreator, true_and]
    by_cases h : db.stores.any (fun e => e.StoreID == s && e.CreatorLogin == login) = true
    · simp only [h, if_true, true_iff]
      rw [List.any_eq_true] at h
      obtain ⟨e, he, hp⟩ := h
      simp only [Bool.and_eq_true, beq_iff_eq] at hp
      exact ⟨e, he, hp.1, hp.2⟩
    · simp only [h]
      constructor
      · intro hc
        simp at hc
      · rintro ⟨e, he, h1, h2⟩
        exfalso
        apply h
        rw [List.any_eq_true]
        exact ⟨e, he, by simp [h1, h2]⟩

theorem repoDeleteStoreVersion_cases (db : DB) (j : Nat) (drv : TxStep → Outcome) :
    (∃ e, Repository.DeleteStoreVersion db j drv = (some e, db)) ∨
      Repository.DeleteStoreVersion db j drv = (none, deleteVersionRow db j) := by
  unfold Repository.DeleteStoreVersion
  cases drv .BeginTx with
  | some m => exact Or.inl ⟨_, rfl⟩
  | none =>
    cases drv .Exec with
    | some m => exact Or.inl ⟨_, rfl⟩
    | none =>
      cases drv .Commit with
      | some m => exact Or.inl ⟨_, rfl⟩
      | none => exact Or.inr rfl

/-- C12: `StoreService.DeleteStoreVersion` looks for the version under the
store first and for the creator second.  (1) When no row of `store_versions`
has both the version key and the store key, it returns `ErrVersionNotFound`
for every login and every behaviour of the driver, and the database is
unchanged; this includes a version that exists under another store.  (2) When
such a row exists and no store row with that key has the login as
`creator_login`, it does not return nil, the database is unchanged, and the
error is `ErrPermissionDenied` whenever the lookup of the version is answered.
(3) Whenever the call returns nil or changes the database, the version belongs
to the store and the login is the creator of the store.  (4) In that case and
with no storage failure the call returns nil and removes the rows with the
version key. -/
theorem deleteStoreVersion_checks (db : DB) (storeID versionID : Nat) (login : String)
    (oGet oCheck : Outcome) (drv : TxStep → Outcome) :
    ((∀ v ∈ db.store_versions, ¬ (v.VersionID = versionID ∧ v.StoreID = storeID)) →
      service.StoreService.DeleteStoreVersion db storeID versionID login oGet oCheck drv
        = (some Error.ErrVersionNotFound, db)) ∧
    ((∃ v ∈ db.store_versions, v.VersionID = versionID ∧ v.StoreID = storeID) →
      (∀ e ∈ db.stores, e.StoreID = storeID → e.CreatorLogin ≠ login) →
      (service.StoreService.DeleteStoreVersion db storeID versionID login oGet oCheck drv).1
          ≠ none ∧
      (service.StoreService.DeleteStoreVersion db storeID versionID login oGet oCheck drv).2
          = db ∧
      (oGet = none →
        (service.StoreService.DeleteStoreVersion db storeID versionID login oGet oCheck drv).1
          = some Error.ErrPermissionDenied)) ∧
    (((service.StoreService.DeleteStoreVersion db storeID versionID login oGet oCheck drv).1
          = none ∨
      (service.StoreService.DeleteStoreVersion db storeID versionID login oGet oCheck drv).2
          ≠ db) →
      (∃ v ∈ db.store_versions, v.VersionID = versionID ∧ v.StoreID = storeID) ∧
      (∃ e ∈ db.stores, e.StoreID = storeID ∧ e.CreatorLogin = login)) ∧
    ((∃ v ∈ db.store_versions, v.VersionID = versionID ∧ v.StoreID = storeID) →
      (∃ e ∈ db.stores, e.StoreID = storeID ∧ e.CreatorLogin = login) →
      service.StoreService.DeleteStoreVersion db storeID versionID login none none healthy
        = (none, deleteVersionRow db versionID)) := by
  have hfor := getStoreVersionForStore_ok_iff db storeID versionID
  have hchk := checkStoreCreator_none_iff db storeID login
  refine ⟨?_, ?_, ?_, ?_⟩
  · intro hno
    cases hg : Repository.GetStoreVersionForStore db storeID versionID oGet with
    | error e => simp [service.StoreService.DeleteStoreVersion, hg]
    | ok v =>
      obtain ⟨-, w, hw, h1, h2⟩ := (hfor oGet).1 ⟨v, hg⟩
      exact absurd ⟨h1, h2⟩ (hno w hw)
  · intro hex hne
    have hc : Repository.CheckStoreCreator db storeID login oCheck ≠ none := by
      intro hc
      obtain ⟨-, e, he, h1, h2⟩ := (hchk oCheck).1 hc
      exact hne e he h1 h2
    cases hg : Repository.GetStoreVersionForStore db storeID versionID oGet with
    | error e =>
      refine ⟨by simp [service.StoreService.DeleteStoreVersion, hg],
        by simp [service.StoreService.DeleteStoreVersion, hg], ?_⟩
      intro ho
      obtain ⟨v, hv⟩ := (hfor oGet).2 ⟨ho, hex⟩
      rw [hg] at hv
      simp at hv
    | ok v =>
      cases hcc : Repository.CheckStoreCreator db storeID login oCheck with
      | none => exact absurd hcc hc
      | some err => simp [service.StoreService.DeleteStoreVersion, hg, hcc]
  · intro hres
    cases hg : Repository.GetStoreVersionForStore db storeID versionID oGet with
    | error e =>
      simp [service.StoreService.DeleteStoreVersion, hg] at hres
    | ok v =>
      cases hcc : Repository.CheckStoreCreator db storeID login oCheck with
      | some err => simp [service.StoreService.DeleteStoreVersion, hg, hcc] at hres
      | none =>
        exact ⟨((hfor oGet).1 ⟨v, hg⟩).2, ((hchk oCheck).1 hcc).2⟩
  · intro hex hcr
    obtain ⟨v, hv⟩ := (hfor none).2 ⟨rfl, hex⟩
    have hcc := (hchk none).2 ⟨rfl, hcr⟩
    simp only [service.StoreService.DeleteStoreVersion, hv, hcc]
    rfl

/-- C12 at the database with two stores: version 3 belongs to store 1 of
`alice`.  Asked under store 2, even by `bob`, the creator of store 2, the answer
is `ErrVersionNotFound`; asked under store 1 by `bob` it is
`ErrPermissionDenied`; asked under store 1 by `alice` the version is deleted. -/
theorem deleteStoreVersion_checks_witness :
    service.StoreService.DeleteStoreVersion sampleTwoStoresDb 2 3 "bob" none none healthy
        = (some Error.ErrVersionNotFound, sampleTwoStoresDb) ∧
    (service.StoreService.DeleteStoreVersion sampleTwoStoresDb 1 3 "bob" none none healthy).1
        = some Error.ErrPermissionDenied ∧
    service.StoreService.DeleteStoreVersion sampleTwoStoresDb 1 3 "alice" none none healthy
        = (none, deleteVersionRow sampleTwoStoresDb 3) ∧
    (deleteVersionRow sampleTwoStoresDb 3).store_versions.map (fun v => v.VersionID) = [1, 2] :=
  ⟨(deleteStoreVersion_checks sampleTwoStoresDb 2 3 "bob" none none healthy).1 (by decide),
   ((deleteStoreVersion_checks sampleTwoStoresDb 1 3 "bob" none none healthy).2.1 (by decide)
      (by decide)).2.2 rfl,
   (deleteStoreVersion_checks sampleTwoStoresDb 1 3 "alice" none none healthy).2.2.2 (by decide)
      (by decide),
   by decide⟩

/-! ## C13 and C14: the version history -/

theorem repoHistory_none (db : DB) (s : Nat) :
    Repository.GetStoreVersionHistory db s none =
      .ok ((versionsOf db s).insertionSort (fun a b => ¬ a.CreatedAt < b.CreatedAt)) := rfl

theorem serviceHistory_none (db : DB) (s : Nat) :
    service.StoreService.GetStoreVersionHistory db s none =
      if versionsOf db s = [] then .error Error.ErrStoreNotFound
      else .ok ((versionsOf db s).insertionSort (fun a b => ¬ a.CreatedAt < b.CreatedAt)) := by
  simp only [service.StoreService.GetStoreVersionHistory, repoHistory_none,
    List.length_insertionSort, List.length_eq_zero]

/-- C13: with the database answering, `StoreService.GetStoreVersionHistory`
returns `ErrStoreNotFound` and no list when no row of `store_versions` has the
store key, whether or not a row of `stores` has it, and returns a list, which
is not empty, when some row of `store_versions` has the store key; and whatever
the driver does, a list that is returned is not empty and then the store has
version rows. -/
theorem history_empty_is_not_found (db : DB) (storeID : Nat) :
    (versionsOf db storeID = [] →
      service.StoreService.GetStoreVersionHistory db storeID none
        = .error Error.ErrStoreNotFound) ∧
    (versionsOf db storeID ≠ [] →
      ∃ history, service.StoreService.GetStoreVersionHistory db storeID none = .ok history ∧
        history ≠ []) ∧
    (∀ (o : Outcome) (history : List StoreVersion),
      service.StoreService.GetStoreVersionHistory db storeID o = .ok history →
        history ≠ [] ∧ versionsOf db storeID ≠ []) := by
  refine ⟨?_, ?_, ?_⟩
  · intro h
    rw [serviceHistory_none, if_pos h]
  · intro h
    refine ⟨_, by rw [serviceHistory_none, if_neg h], ?_⟩
    intro hs
    apply h
    have := congrArg List.length hs
    rw [List.length_insertionSort] at this
    exact List.length_eq_zero.1 this
  · intro o history hres
    cases o with
    | some m => simp [service.StoreService.GetStoreVersionHistory,
        Repository.GetStoreVersionHistory] at hres
    | none =>
      rw [serviceHistory_none] at hres
      by_cases h : versionsOf db storeID = []
      · rw [if_pos h] at hres
        simp at hres
      · rw [if_neg h] at hres
        simp only [Except.ok.injEq] at hres
        refine ⟨?_, h⟩
        intro hs
        apply h
        rw [hs] at hres
        have := congrArg List.length hres
        rw [List.length_insertionSort] at this
        exact List.length_eq_zero.1 this

/-- C13 at the sample store after its only version was deleted: the store row
is there, the history is `ErrStoreNotFound`; and at the sample store with two
versions the history has two entries. -/
theorem history_empty_is_not_found_witness :
    (deleteVersionRow sampleStoreDb 1).stores.map (fun s => s.StoreID) = [1] ∧
    service.StoreService.GetStoreVersionHistory (deleteVersionRow sampleStoreDb 1) 1 none
      = .error Error.ErrStoreNotFound ∧
    (∃ history, service.StoreService.GetStoreVersionHistory sampleTwoVersionsDb 1 none
      = .ok history ∧ history ≠ []) :=
  ⟨by decide,
   (history_empty_is_not_found (deleteVersionRow sampleStoreDb 1) 1).1 (by decide),
   (history_empty_is_not_found sampleTwoVersionsDb 1).2.1 (by decide)⟩

/-- C14: with the database answering, `Repository.GetStoreVersionHistory`
returns a list that holds exactly the rows of `store_versions` with the store
key, each as often as the table holds it, and along which `created_at` never
increases (newest first). -/
theorem history_is_sorted_selection (db : DB) (storeID : Nat) :
    ∃ history : List StoreVersion,
      Repository.GetStoreVersionHistory db storeID none = .ok history ∧
      history.Perm (db.store_versions.filter (fun v => v.StoreID = storeID)) ∧
      (∀ v, v ∈ history ↔ v ∈ db.store_versions ∧ v.StoreID = storeID) ∧
      history.Sorted (fun a b => b.CreatedAt ≤ a.CreatedAt) ∧
      (∀ served, service.StoreService.GetStoreVersionHistory db storeID none = .ok served →
        served = history) := by
  haveI : IsTotal StoreVersion (fun a b => ¬ a.CreatedAt < b.CreatedAt) :=
    ⟨fun a b => by
      by_cases h : a.CreatedAt < b.CreatedAt
      · exact Or.inr (lt_asymm h)
      · exact Or.inl h⟩
  haveI : IsTrans StoreVersion (fun a b => ¬ a.CreatedAt < b.CreatedAt) :=
    ⟨fun a b c hab hbc => by
      rw [not_lt] at hab hbc ⊢
      exact le_trans hbc hab⟩
  have hfilter : db.store_versions.filter (fun v => v.StoreID = storeID) = versionsOf db storeID := by
    simp only [versionsOf]
    apply List.filter_congr
    intro v _
    by_cases hv : v.StoreID = storeID <;> simp [hv]
  have hperm := List.perm_insertionSort (fun a b : StoreVersion => ¬ a.CreatedAt < b.CreatedAt)
    (versionsOf db storeID)
  refine ⟨_, repoHistory_none db storeID, ?_, ?_, ?_, ?_⟩
  · rw [hfilter]
    exact hperm
  · intro v
    rw [hperm.mem_iff]
    simp [versionsOf]
  · have hs := List.sorted_insertionSort (fun a b : StoreVersion => ¬ a.CreatedAt < b.CreatedAt)
      (versionsOf db storeID)
    refine List.Pairwise.imp ?_ hs
    intro a b hab
    exact not_lt.1 hab
  · intro served hserved
    rw [serviceHistory_none] at hserved
    by_cases h : versionsOf db storeID = []
    · rw [if_pos h] at hserved
      simp at hserved
    · rw [if_neg h] at hserved
      simpa using hserved.symm

/-- C14 at the sample store with three versions, created on three consecutive
days: the history lists the versions 3, 2, 1. -/
theorem history_is_sorted_selection_witness :
    (Repository.GetStoreVersionHistory sampleThreeVersionsDb 1 none).toOption.map
        (fun l => l.map (fun v => (v.VersionID, v.CreatedAt)))
      = some [(3, "2024-01-03 10:00:00"), (2, "2024-01-02 10:00:00"),
              (1, "2024-01-01 10:00:00")] ∧
    ∃ history : List StoreVersion,
      Repository.GetStoreVersionHistory sampleThreeVersionsDb 1 none = .ok history ∧
      history.Perm (sampleThreeVersionsDb.store_versions.filter (fun v => v.StoreID = 1)) ∧
      (∀ v, v ∈ history ↔ v ∈ sampleThreeVersionsDb.store_versions ∧ v.StoreID = 1) ∧
      history.Sorted (fun a b => b.CreatedAt ≤ a.CreatedAt) ∧
      (∀ served, service.StoreService.GetStoreVersionHistory sampleThreeVersionsDb 1 none
          = .ok served → served = history) :=
  ⟨by
    obtain ⟨a, b, c, hv, ha, hb, hc, hia, hib, hic⟩ :
        ∃ a b c : StoreVersion, versionsOf sampleThreeVersionsDb 1 = [a, b, c] ∧
          a.CreatedAt = "2024-01-01 10:00:00" ∧ b.CreatedAt = "2024-01-02 10:00:00" ∧
          c.CreatedAt = "2024-01-03 10:00:00" ∧ a.VersionID = 1 ∧ b.VersionID = 2 ∧
          c.VersionID = 3 :=
      ⟨sampleThreeVersionsDb.store_versions.getD 0 StoreVersion.zero,
       sampleThreeVersionsDb.store_versions.getD 1 StoreVersion.zero,
       sampleThreeVersionsDb.store_versions.getD 2 StoreVersion.zero,
       by decide, by decide, by decide, by decide, by decide, by decide, by decide⟩
    have h23 : "2024-01-02 10:00:00" < "2024-01-03 10:00:00" := by
      rw [String.lt_iff_toList_lt]; decide
    have h13 : "2024-01-01 10:00:00" < "2024-01-03 10:00:00" := by
      rw [String.lt_iff_toList_lt]; decide
    have h12 : "2024-01-01 10:00:00" < "2024-01-02 10:00:00" := by
      rw [String.lt_iff_toList_lt]; decide
    rw [repoHistory_none, hv]
    simp only [List.insertionSort, List.orderedInsert, ha, hb, hc, h12, h13, h23,
      not_true_eq_false, if_false, Except.toOption, Option.map_some', List.map_cons,
      List.map_nil, hia, hib, hic],
   history_is_sorted_selection sampleThreeVersionsDb 1⟩

/-! ## C15: a version looked up under its store -/

/-- C15: in a database whose version keys are unique, with the database
answering, `StoreService.GetStoreVersionByID` with store key `S` and version key
`V` returns the row with `version_id = V` and `store_id = S` when there is one;
whatever the driver does, a version it returns is such a row, every error it
returns is `ErrVersionNotFound`, and it returns `ErrVersionNotFound` when no
row has both keys, be it that `V` is the key of a version of another store or
of no version. -/
theorem getStoreVersionByID_scoped (db : DB) (storeID versionID : Nat)
    (hkeys : db.VersionKeysUnique) :
    (∀ v ∈ db.store_versions, v.VersionID = versionID → v.StoreID = storeID →
      service.StoreService.GetStoreVersionByID db storeID versionID none none = .ok v) ∧
    (∀ (oFor oGet : Outcome) (v : StoreVersion),
      service.StoreService.GetStoreVersionByID db storeID versionID oFor oGet = .ok v →
        v ∈ db.store_versions ∧ v.VersionID = versionID ∧ v.StoreID = storeID) ∧
    (∀ (oFor oGet : Outcome) (e : Error),
      service.StoreService.GetStoreVersionByID db storeID versionID oFor oGet = .error e →
        e = Error.ErrVersionNotFound) ∧
    ((∀ v ∈ db.store_versions, ¬ (v.VersionID = versionID ∧ v.StoreID = storeID)) →
      ∀ oFor oGet : Outcome,
        service.StoreService.GetStoreVersionByID db storeID versionID oFor oGet
          = .error Error.ErrVersionNotFound) := by
  have hfor := getStoreVersionForStore_ok_iff db storeID versionID
  have hfirst : ∀ w, db.store_versions.find? (fun v => v.VersionID == versionID) = some w →
      w ∈ db.store_versions ∧ w.VersionID = versionID := by
    intro w hw
    have := List.find?_some hw
    exact ⟨List.mem_of_find?_eq_some hw, by simpa using this⟩
  refine ⟨?_, ?_, ?_, ?_⟩
  · intro v hv h1 h2
    obtain ⟨u, hu⟩ := (hfor none).2 ⟨rfl, v, hv, h1, h2⟩
    cases hf : db.store_versions.find? (fun v => v.VersionID == versionID) with
    | none =>
      rw [List.find?_eq_none] at hf
      have := hf v hv
      simp [h1] at this
    | some w =>
      obtain ⟨hw, hwid⟩ := hfirst w hf
      have : w = v := hkeys w hw v hv (hwid.trans h1.symm)
      subst this
      simp [service.StoreService.GetStoreVersionByID, hu, Repository.GetStoreVersionByID, hf]
  · intro oFor oGet v hres
    cases hg : Repository.GetStoreVersionForStore db storeID versionID oFor with
    | error e => simp [service.StoreService.GetStoreVersionByID, hg] at hres
    | ok u =>
      obtain ⟨-, u2, hu2, h1, h2⟩ := (hfor oFor).1 ⟨u, hg⟩
      cases oGet with
      | some m =>
        simp [service.StoreService.GetStoreVersionByID, hg, Repository.GetStoreVersionByID] at hres
      | none =>
        cases hf : db.store_versions.find? (fun v => v.VersionID == versionID) with
        | none =>
          simp [service.StoreService.GetStoreVersionByID, hg, Repository.GetStoreVersionByID,
            hf] at hres
        | some w =>
          simp only [service.StoreService.GetStoreVersionByID, hg,
            Repository.GetStoreVersionByID, hf, Except.ok.injEq] at hres
          subst hres
          obtain ⟨hw, hwid⟩ := hfirst w hf
          have : w = u2 := hkeys w hw u2 hu2 (hwid.trans h1.symm)
          subst this
          exact ⟨hw, hwid, h2⟩
  · intro oFor oGet e hres
    cases hg : Repository.GetStoreVersionForStore db storeID versionID oFor with
    | error e2 =>
      simp only [service.StoreService.GetStoreVersionByID, hg, Except.error.injEq] at hres
      exact hres.symm
    | ok u =>
      cases hg2 : Repository.GetStoreVersionByID db versionID oGet with
      | error e2 =>
        simp only [service.StoreService.GetStoreVersionByID, hg, hg2, Except.error.injEq] at hres
        exact hres.symm
      | ok w =>
        simp [service.StoreService.GetStoreVersionByID, hg, hg2] at hres
  · intro hno oFor oGet
    cases hg : Repository.GetStoreVersionForStore db storeID versionID oFor with
    | error e => simp [service.StoreService.GetStoreVersionByID, hg]
    | ok u =>
      obtain ⟨-, w, hw, h1, h2⟩ := (hfor oFor).1 ⟨u, hg⟩
      exact absurd ⟨h1, h2⟩ (hno w hw)

/-- C15 at the database with two stores: version 3 is found under store 1, not
under store 2, and version 9 is found nowhere. -/
theorem getStoreVersionByID_scoped_witness :
    sampleTwoStoresDb.VersionKeysUnique ∧
    (∃ v ∈ sampleTwoStoresDb.store_versions, v.VersionID = 3 ∧ v.StoreID = 1 ∧
      service.StoreService.GetStoreVersionByID sampleTwoStoresDb 1 3 none none = .ok v) ∧
    service.StoreService.GetStoreVersionByID sampleTwoStoresDb 2 3 none none
      = .error Error.ErrVersionNotFound ∧
    service.StoreService.GetStoreVersionByID sampleTwoStoresDb 1 9 none none
      = .error Error.ErrVersionNotFound :=
  have hu : sampleTwoStoresDb.VersionKeysUnique := by
    unfold DB.VersionKeysUnique
    decide
  ⟨hu,
   ⟨sampleTwoStoresDb.store_versions.getD 2 StoreVersion.zero, by decide, by decide, by decide,
    (getStoreVersionByID_scoped sampleTwoStoresDb 1 3 hu).1 _ (by decide) (by decide)
      (by decide)⟩,
   (getStoreVersionByID_scoped sampleTwoStoresDb 2 3 hu).2.2.2 (by decide) none none,
   (getStoreVersionByID_scoped sampleTwoStoresDb 1 9 hu).2.2.2 (by decide) none none⟩

open handler

/-! ## The handlers of the storage service -/

theorem extract_of_unmarshal {msg : Delivery} {m : Message}
    (hm : Message.unmarshal msg.Body = .ok m) :
    extractAction msg = m.Action ∧ extractLogin msg = m.UserLogin ∧
      extractStoreID msg = m.StoreID ∧ extractVersionID msg = m.VersionID ∧
      extractStoreData msg = StoreFromMessage.unmarshal m.Data ∧
      extractStoreVersionData msg = StoreVersionFromMessage.unmarshal m.Data := by
  refine ⟨?_, ?_, ?_, ?_, ?_, ?_⟩
  · simp only [extractAction, hm]
  · simp only [extractLogin, hm]
  · simp only [extractStoreID, hm]
  · simp only [extractVersionID, hm]
  · simp only [extractStoreData, hm]
    cases StoreFromMessage.unmarshal m.Data <;> rfl
  · simp only [extractStoreVersionData, hm]
    cases StoreVersionFromMessage.unmarshal m.Data <;> rfl

theorem extract_of_unmarshal_error {msg : Delivery} {e : String}
    (hm : Message.unmarshal msg.Body = .error e) :
    extractAction msg = "" := by
  simp only [extractAction, hm]

theorem handleDeleteStore_eq (h : MessageHandler) (env : Env) (db : DB) (msg : Delivery)
    (login : String) :
    h.handleDeleteStore env db msg login =
      dispatched h env db (.DeleteStore (extractStoreID msg) login) := by
  unfold MessageHandler.handleDeleteStore dispatched Invocation.perform
  simp only
  split <;> rename_i heq <;> simp only [heq] <;> rfl

theorem handleDeleteStoreVersion_eq (h : MessageHandler) (env : Env) (db : DB) (msg : Delivery)
    (login : String) :
    h.handleDeleteStoreVersion env db msg login =
      dispatched h env db
        (.DeleteStoreVersion (extractStoreID msg) (extractVersionID msg) login) := by
  unfold MessageHandler.handleDeleteStoreVersion dispatched Invocation.perform
  simp only
  split <;> rename_i heq <;> simp only [heq] <;> rfl

theorem handleCreateStore_eq (h : MessageHandler) (env : Env) (db : DB) (msg : Delivery)
    (login : String) (d : StoreFromMessage) (hd : extractStoreData msg = .ok d) :
    h.handleCreateStore env db msg login =
      dispatched h env db
        (.CreateStore { Name := d.Name, Address := d.Address, OwnerName := d.OwnerName,
                        OpeningTime := d.OpeningTime, ClosingTime := d.ClosingTime } login) := by
  unfold MessageHandler.handleCreateStore dispatched Invocation.perform
  simp only [hd]
  split <;> rename_i heq <;> simp only [heq] <;> rfl

theorem handleCreateStore_dropped (h : MessageHandler) (env : Env) (db : DB) (msg : Delivery)
    (login : String) (e : String) (hd : extractStoreData msg = .error e) :
    h.handleCreateStore env db msg login = { db := db, served := [], posted := [] } := by
  unfold MessageHandler.handleCreateStore
  simp only [hd]

theorem handleCreateStoreVersion_eq (h : MessageHandler) (env : Env) (db : DB) (msg : Delivery)
    (login : String) (d : StoreVersionFromMessage) (hd : extractStoreVersionData msg = .ok d) :
    h.handleCreateStoreVersion env db msg login =
      dispatched h env db
        (.CreateStoreVersion { OwnerName := d.OwnerName, OpeningTime := d.OpeningTime,
                               ClosingTime := d.ClosingTime, CreatedAt := "" }
          (extractStoreID msg) login) := by
  unfold MessageHandler.handleCreateStoreVersion dispatched Invocation.perform
  simp only [hd]
  split <;> rename_i heq <;> simp only [heq] <;> rfl

theorem handleCreateStoreVersion_dropped (h : MessageHandler) (env : Env) (db : DB)
    (msg : Delivery) (login : String) (e : String)
    (hd : extractStoreVersionData msg = .error e) :
    h.handleCreateStoreVersion env db msg login = { db := db, served := [], posted := [] } := by
  unfold MessageHandler.handleCreateStoreVersion
  simp only [hd]

theorem handleGetStore_eq (h : MessageHandler) (env : Env) (db : DB) (msg : Delivery) :
    h.handleGetStore env db msg = dispatched h env db (.GetStoreByID (extractStoreID msg)) := by
  unfold MessageHandler.handleGetStore dispatched Invocation.perform
  simp only
  split <;> rename_i heq <;> simp only [heq] <;> rfl

theorem handleGetStoreHistory_eq (h : MessageHandler) (env : Env) (db : DB) (msg : Delivery) :
    h.handleGetStoreHistory env db msg =
      dispatched h env db (.GetStoreVersionHistory (extractStoreID msg)) := by
  unfold MessageHandler.handleGetStoreHistory dispatched Invocation.perform
  simp only
  split <;> rename_i heq <;> simp only [heq] <;> rfl

theorem handleGetStoreVersion_eq (h : MessageHandler) (env : Env) (db : DB) (msg : Delivery) :
    h.handleGetStoreVersion env db msg =
      dispatched h env db
        (.GetStoreVersionByID (extractStoreID msg) (extractVersionID msg)) := by
  unfold MessageHandler.handleGetStoreVersion dispatched Invocation.perform
  simp only
  split <;> rename_i heq <;> simp only [heq] <;> rfl

/-- `HandleMessage` does what the routing of the spec says: a message that is
not routed is dropped without any effect, a message that is routed is
dispatched to its operation. -/
theorem handleMessage_eq_route (h : MessageHandler) (env : Env) (db : DB) (msg : Delivery) :
    h.HandleMessage env db msg =
      match route msg with
      | none => { db := db, served := [], posted := [] }
      | some inv => dispatched h env db inv := by
  unfold MessageHandler.HandleMessage route
  cases hm : Message.unmarshal msg.Body with
  | error e =>
    have ha := extract_of_unmarshal_error hm
    simp only [ha]
    rfl
  | ok m =>
    obtain ⟨ha, hl, hs, hv, hd, hdv⟩ := extract_of_unmarshal hm
    simp only [ha, hl]
    by_cases h1 : m.Action = "delete_store"
    · simp only [h1, if_true, handleDeleteStore_eq, hs]
    by_cases h2 : m.Action = "delete_store_version"
    · simp only [h2, handleDeleteStoreVersion_eq, hs, hv]
      rfl
    by_cases h3 : m.Action = "create_store"
    · simp only [h3]
      cases hdd : StoreFromMessage.unmarshal m.Data with
      | error e =>
        rw [hdd] at hd
        simp only [handleCreateStore_dropped h env db msg _ e hd]
        rfl
      | ok d =>
        rw [hdd] at hd
        simp only [handleCreateStore_eq h env db msg _ d hd]
        rfl
    by_cases h4 : m.Action = "create_store_version"
    · simp only [h4]
      cases hdd : StoreVersionFromMessage.unmarshal m.Data with
      | error e =>
        rw [hdd] at hdv
        simp only [handleCreateStoreVersion_dropped h env db msg _ e hdv]
        rfl
      | ok d =>
        rw [hdd] at hdv
        simp only [handleCreateStoreVersion_eq h env db msg _ d hdv, hs]
        rfl
    by_cases h5 : m.Action = "get_store"
    · simp only [h5, handleGetStore_eq, hs]
      rfl
    by_cases h6 : m.Action = "get_store_history"
    · simp only [h6, handleGetStoreHistory_eq, hs]
      rfl
    by_cases h7 : m.Action = "get_store_version"
    · simp only [h7, handleGetStoreVersion_eq, hs, hv]
      rfl
    simp only [h1, h2, h3, h4, h5, h6, h7, if_false]

/-! ## C16 and C17: routing by the action tag -/

/-- C16: for a message whose envelope `json.Unmarshal` decodes into `m`,
`HandleMessage` calls exactly one method of the service, once, chosen by the
action tag of `m`, with the `storeId`, `versionId` and `userLogin` of `m` and
the fields of its decoded `data` as arguments: `CreateStore` for
`create_store` and `CreateStoreVersion` for `create_store_version` (when the
data is decoded), `DeleteStore` for `delete_store`, `DeleteStoreVersion` for
`delete_store_version`, `GetStoreByID` for `get_store`,
`GetStoreVersionHistory` for `get_store_history`, `GetStoreVersionByID` for
`get_store_version`. -/
theorem handleMessage_calls_tagged_operation (h : MessageHandler) (env : Env) (db : DB)
    (msg : Delivery) (m : Message) (hm : Message.unmarshal msg.Body = .ok m) :
    (m.Action = "create_store" → ∀ d, StoreFromMessage.unmarshal m.Data = .ok d →
      (h.HandleMessage env db msg).served.map Prod.fst =
        [.CreateStore { Name := d.Name, Address := d.Address, OwnerName := d.OwnerName,
                        OpeningTime := d.OpeningTime, ClosingTime := d.ClosingTime }
           m.UserLogin]) ∧
    (m.Action = "create_store_version" → ∀ d, StoreVersionFromMessage.unmarshal m.Data = .ok d →
      (h.HandleMessage env db msg).served.map Prod.fst =
        [.CreateStoreVersion { OwnerName := d.OwnerName, OpeningTime := d.OpeningTime,
                               ClosingTime := d.ClosingTime, CreatedAt := "" }
           m.StoreID m.UserLogin]) ∧
    (m.Action = "delete_store" →
      (h.HandleMessage env db msg).served.map Prod.fst =
        [.DeleteStore m.StoreID m.UserLogin]) ∧
    (m.Action = "delete_store_version" →
      (h.HandleMessage env db msg).served.map Prod.fst =
        [.DeleteStoreVersion m.StoreID m.VersionID m.UserLogin]) ∧
    (m.Action = "get_store" →
      (h.HandleMessage env db msg).served.map Prod.fst = [.GetStoreByID m.StoreID]) ∧
    (m.Action = "get_store_history" →
      (h.HandleMessage env db msg).served.map Prod.fst =
        [.GetStoreVersionHistory m.StoreID]) ∧
    (m.Action = "get_store_version" →
      (h.HandleMessage env db msg).served.map Prod.fst =
        [.GetStoreVersionByID m.StoreID m.VersionID]) := by
  rw [handleMessage_eq_route]
  unfold route
  simp only [hm]
  refine ⟨?_, ?_, ?_, ?_, ?_, ?_, ?_⟩
  · intro ha d hd
    simp only [ha, hd]
    rfl
  · intro ha d hd
    simp only [ha, hd]
    rfl
  · intro ha
    simp only [ha]
    rfl
  · intro ha
    simp only [ha]
    rfl
  · intro ha
    simp only [ha]
    rfl
  · intro ha
    simp only [ha]
    rfl
  · intro ha
    simp only [ha]
    rfl

/-- C16 at the commands the gateway publishes for deleting store 1 as `alice`
and for creating a store as `carol`. -/
theorem handleMessage_calls_tagged_operation_witness :
    Message.unmarshal sampleDeleteMsg.Body =
      .ok { Action := "delete_store", Data := .doc .null, StoreID := "1", UserLogin := "alice",
            VersionID := "" } ∧
    (sampleHandler.HandleMessage sampleEnv sampleTwoVersionsDb sampleDeleteMsg).served.map
      Prod.fst = [.DeleteStore "1" "alice"] ∧
    (sampleHandler.HandleMessage sampleEnv sampleTwoVersionsDb sampleCreateMsg).served.map
      Prod.fst =
        [.CreateStore { Name := "Book Shop", Address := "2 High Street", OwnerName := "Carol",
                        OpeningTime := "09:00", ClosingTime := "18:00" } "carol"] :=
  ⟨rfl,
   (handleMessage_calls_tagged_operation sampleHandler sampleEnv sampleTwoVersionsDb
      sampleDeleteMsg _ rfl).2.2.1 rfl,
   (handleMessage_calls_tagged_operation sampleHandler sampleEnv sampleTwoVersionsDb
      sampleCreateMsg _ rfl).1 rfl _ rfl⟩

/-- C17: `HandleMessage` calls no method of the service, posts no callback and
leaves the database as it is for a message whose envelope is not decoded, for
a message whose action is none of the seven tags, and for a `create_store` or
`create_store_version` message whose data is not decoded. -/
theorem handleMessage_drops_undecodable (h : MessageHandler) (env : Env) (db : DB)
    (msg : Delivery)
    (hdrop : (∃ e, Message.unmarshal msg.Body = .error e) ∨
      (∃ m, Message.unmarshal msg.Body = .ok m ∧ m.Action ≠ "create_store" ∧
        m.Action ≠ "create_store_version" ∧ m.Action ≠ "delete_store" ∧
        m.Action ≠ "delete_store_version" ∧ m.Action ≠ "get_store" ∧
        m.Action ≠ "get_store_history" ∧ m.Action ≠ "get_store_version") ∨
      (∃ m e, Message.unmarshal msg.Body = .ok m ∧ m.Action = "create_store" ∧
        StoreFromMessage.unmarshal m.Data = .error e) ∨
      (∃ m e, Message.unmarshal msg.Body = .ok m ∧ m.Action = "create_store_version" ∧
        StoreVersionFromMessage.unmarshal m.Data = .error e)) :
    (h.HandleMessage env db msg).served = [] ∧
    (h.HandleMessage env db msg).posted = [] ∧
    (h.HandleMessage env db msg).db = db := by
  have hroute : route msg = none := by
    unfold route
    rcases hdrop with ⟨e, he⟩ | ⟨m, hm, h1, h2, h3, h4, h5, h6, h7⟩ | ⟨m, e, hm, ha, hd⟩ |
      ⟨m, e, hm, ha, hd⟩
    · simp only [he]
    · simp only [hm, h1, h2, h3, h4, h5, h6, h7, if_false]
    · simp only [hm, ha, hd]
      rfl
    · simp only [hm, ha, hd]
      rfl
  rw [handleMessage_eq_route, hroute]
  exact ⟨rfl, rfl, rfl⟩

/-- C17 at a body that is no JSON document, at a message with the action
`rename_store`, and at a `create_store` message without data. -/
theorem handleMessage_drops_undecodable_witness :
    ((sampleHandler.HandleMessage sampleEnv sampleTwoVersionsDb { Body := .invalid }).served = [] ∧
     (sampleHandler.HandleMessage sampleEnv sampleTwoVersionsDb { Body := .invalid }).posted = [] ∧
     (sampleHandler.HandleMessage sampleEnv sampleTwoVersionsDb { Body := .invalid }).db
        = sampleTwoVersionsDb) ∧
    ((sampleHandler.HandleMessage sampleEnv sampleTwoVersionsDb sampleUnknownMsg).served = [] ∧
     (sampleHandler.HandleMessage sampleEnv sampleTwoVersionsDb sampleUnknownMsg).posted = [] ∧
     (sampleHandler.HandleMessage sampleEnv sampleTwoVersionsDb sampleUnknownMsg).db
        = sampleTwoVersionsDb) ∧
    ((sampleHandler.HandleMessage sampleEnv sampleTwoVersionsDb sampleNoDataMsg).served = [] ∧
     (sampleHandler.HandleMessage sampleEnv sampleTwoVersionsDb sampleNoDataMsg).posted = [] ∧
     (sampleHandler.HandleMessage sampleEnv sampleTwoVersionsDb sampleNoDataMsg).db
        = sampleTwoVersionsDb) :=
  ⟨handleMessage_drops_undecodable sampleHandler sampleEnv sampleTwoVersionsDb _
      (Or.inl ⟨_, rfl⟩),
   handleMessage_drops_undecodable sampleHandler sampleEnv sampleTwoVersionsDb sampleUnknownMsg
      (Or.inr (Or.inl ⟨_, rfl, by decide, by decide, by decide, by decide, by decide, by decide,
        by decide⟩)),
   handleMessage_drops_undecodable sampleHandler sampleEnv sampleTwoVersionsDb sampleNoDataMsg
      (Or.inr (Or.inr (Or.inl ⟨_, _, rfl, rfl, rfl⟩)))⟩

/-! ## C18 and C19: the result callback -/

/-- C18: handling a message posts as many callbacks as it calls service
methods, at most one.  For a message that is routed to an operation the one
callback goes to the gateway URL and has a single member: when the operation
returned an error, the key `error` with the text of that error (for the three
domain errors the texts of the sentinels); when a mutation returned nil, the
key `message` with the fixed text of that mutation; when a read returned a
value, the key `message` with the store, the list of versions or the version
that was returned. -/
theorem one_callback_per_operation (h : MessageHandler) (env : Env) (db : DB) (msg : Delivery) :
    (h.HandleMessage env db msg).served.length ≤ 1 ∧
    (h.HandleMessage env db msg).posted.length = (h.HandleMessage env db msg).served.length ∧
    (∀ inv ans, (inv, ans) ∈ (h.HandleMessage env db msg).served →
      ans = (inv.perform env db).1 ∧
      (∀ err, ans = .failed err →
        (h.HandleMessage env db msg).posted = [(h.gatewayUrl, [("error", .text err.Error)])]) ∧
      (ans = .done →
        (h.HandleMessage env db msg).posted =
          [(h.gatewayUrl, [("message", .text (successText inv))])] ∧
        ((∃ data login, inv = .CreateStore data login ∧
            successText inv = "Store created successfully") ∨
         (∃ data storeId login, inv = .CreateStoreVersion data storeId login ∧
            successText inv = "Store version created successfully") ∨
         (∃ storeId login, inv = .DeleteStore storeId login ∧
            successText inv = "Store deleted successfully") ∨
         (∃ storeId versionId login, inv = .DeleteStoreVersion storeId versionId login ∧
            successText inv = "Store version deleted successfully"))) ∧
      (∀ s, ans = .store s →
        (h.HandleMessage env db msg).posted = [(h.gatewayUrl, [("message", .store s)])]) ∧
      (∀ l, ans = .history l →
        (h.HandleMessage env db msg).posted = [(h.gatewayUrl, [("message", .history l)])]) ∧
      (∀ v, ans = .version v →
        (h.HandleMessage env db msg).posted = [(h.gatewayUrl, [("message", .version v)])])) ∧
    Error.ErrStoreNotFound.Error = "store not found" ∧
    Error.ErrVersionNotFound.Error = "store version not found" ∧
    Error.ErrPermissionDenied.Error = "user is not a store creator" := by
  rw [handleMessage_eq_route]
  cases hr : route msg with
  | none =>
    refine ⟨by simp, by simp, ?_, rfl, rfl, rfl⟩
    intro inv ans hmem
    simp at hmem
  | some inv0 =>
    refine ⟨by simp [dispatched], by simp [dispatched], ?_, rfl, rfl, rfl⟩
    intro inv ans hmem
    simp only [dispatched, List.mem_singleton, Prod.mk.injEq] at hmem
    obtain ⟨rfl, rfl⟩ := hmem
    refine ⟨rfl, ?_, ?_, ?_, ?_, ?_⟩
    · intro err he
      simp only [dispatched, he, resultPayload]
    · intro hd
      refine ⟨by simp only [dispatched, hd, resultPayload], ?_⟩
      cases inv with
      | CreateStore data login => exact Or.inl ⟨_, _, rfl, rfl⟩
      | CreateStoreVersion data storeId login => exact Or.inr (Or.inl ⟨_, _, _, rfl, rfl⟩)
      | DeleteStore storeId login => exact Or.inr (Or.inr (Or.inl ⟨_, _, rfl, rfl⟩))
      | DeleteStoreVersion storeId versionId login =>
        exact Or.inr (Or.inr (Or.inr ⟨_, _, _, rfl, rfl⟩))
      | GetStoreByID storeId =>
        simp only [Invocation.perform] at hd
        split at hd <;> simp at hd
      | GetStoreVersionHistory storeId =>
        simp only [Invocation.perform] at hd
        split at hd <;> simp at hd
      | GetStoreVersionByID storeId versionId =>
        simp only [Invocation.perform] at hd
        split at hd <;> simp at hd
    · intro s hs
      simp only [dispatched, hs, resultPayload]
    · intro l hl
      simp only [dispatched, hl, resultPayload]
    · intro v hv
      simp only [dispatched, hv, resultPayload]

/-- C18 at store 1 of `alice`: its deletion by `alice` is answered with the
message `Store deleted successfully`, its deletion by `bob` with the error
`user is not a store creator`, and reading it with the store row. -/
theorem one_callback_per_operation_witness :
    (sampleHandler.HandleMessage sampleEnv sampleTwoVersionsDb sampleDeleteMsg).posted =
      [("http://gateway:8080/response/", [("message", .text "Store deleted successfully")])] ∧
    (sampleHandler.HandleMessage sampleEnv sampleTwoVersionsDb sampleDeleteByBobMsg).posted =
      [("http://gateway:8080/response/", [("error", .text "user is not a store creator")])] ∧
    (sampleHandler.HandleMessage sampleEnv sampleTwoVersionsDb sampleGetMsg).posted =
      [("http://gateway:8080/response/",
        [("message", .store { sampleStore with StoreID := 1 })])] ∧
    (sampleHandler.HandleMessage sampleEnv sampleTwoVersionsDb sampleDeleteMsg).served.length
      ≤ 1 :=
  ⟨by decide, by decide, by decide,
   (one_callback_per_operation sampleHandler sampleEnv sampleTwoVersionsDb sampleDeleteMsg).1⟩

/-- C19, counterexample: the command `create_store` of `carol` is handled
twice from the same database, the driver failing to begin the transaction with
the text `connection refused` the first time and `too many connections` the
second time.  Both errors are raw storage errors and none of the three domain
errors; the callbacks carry the key `error` with these two different texts. -/
theorem internal_error_text_counterexample :
    (sampleHandler.HandleMessage (sampleEnvFailing "connection refused") sampleTwoVersionsDb
        sampleCreateMsg).served.map Prod.snd = [.failed (.driver "connection refused")] ∧
    (sampleHandler.HandleMessage (sampleEnvFailing "too many connections") sampleTwoVersionsDb
        sampleCreateMsg).served.map Prod.snd = [.failed (.driver "too many connections")] ∧
    (sampleHandler.HandleMessage (sampleEnvFailing "connection refused") sampleTwoVersionsDb
        sampleCreateMsg).posted =
      [("http://gateway:8080/response/", [("error", .text "connection refused")])] ∧
    (sampleHandler.HandleMessage (sampleEnvFailing "too many connections") sampleTwoVersionsDb
        sampleCreateMsg).posted =
      [("http://gateway:8080/response/", [("error", .text "too many connections")])] ∧
    (sampleHandler.HandleMessage (sampleEnvFailing "connection refused") sampleTwoVersionsDb
        sampleCreateMsg).posted ≠
      (sampleHandler.HandleMessage (sampleEnvFailing "too many connections") sampleTwoVersionsDb
        sampleCreateMsg).posted := by
  refine ⟨by decide, by decide, by decide, by decide, by decide⟩

/-- C19, amended: when the service operation of a routed command fails with
any error, a raw storage error included, the callback carries the key `error`
with the text of that very error (`err.Error()`); for an error of the driver
this is the text the driver gave.  No other text is put in its place. -/
theorem error_callback_carries_error_text (h : MessageHandler) (env : Env) (db : DB)
    (msg : Delivery) (inv : Invocation) (err : Error)
    (hfail : (inv, .failed err) ∈ (h.HandleMessage env db msg).served) :
    (h.HandleMessage env db msg).posted = [(h.gatewayUrl, [("error", .text err.Error)])] ∧
    (∀ text, err = .driver text →
      (h.HandleMessage env db msg).posted = [(h.gatewayUrl, [("error", .text text)])]) := by
  rw [handleMessage_eq_route] at hfail ⊢
  cases hr : route msg with
  | none =>
    rw [hr] at hfail
    simp at hfail
  | some inv0 =>
    rw [hr] at hfail
    simp only [dispatched, List.mem_singleton, Prod.mk.injEq] at hfail
    obtain ⟨rfl, hans⟩ := hfail
    have hp : (dispatched h env db inv).posted = [(h.gatewayUrl, [("error", .text err.Error)])] := by
      simp only [dispatched, ← hans, resultPayload]
    refine ⟨hp, ?_⟩
    intro text ht
    rw [hp, ht]
    rfl

/-- C19 (amended) at the `create_store` command handled while the driver
refuses to begin a transaction. -/
theorem error_callback_carries_error_text_witness :
    (Invocation.CreateStore sampleCreateData "carol",
      Answer.failed (.driver "connection refused")) ∈
      (sampleHandler.HandleMessage (sampleEnvFailing "connection refused") sampleTwoVersionsDb
        sampleCreateMsg).served ∧
    (sampleHandler.HandleMessage (sampleEnvFailing "connection refused") sampleTwoVersionsDb
        sampleCreateMsg).posted =
      [(sampleHandler.gatewayUrl, [("error", .text (Error.driver "connection refused").Error)])] :=
  ⟨by decide,
   (error_callback_carries_error_text sampleHandler (sampleEnvFailing "connection refused")
      sampleTwoVersionsDb sampleCreateMsg (Invocation.CreateStore sampleCreateData "carol")
      (Error.driver "connection refused") (by decide)).1⟩

/-! ## UTF-8: the bytes of a text decode to the text -/

theorem char_range (c : Char) : c.toNat < 0xD800 ∨ (0xDFFF < c.toNat ∧ c.toNat < 0x110000) := by
  have := c.valid
  simpa [UInt32.isValidChar, Nat.isValidChar, Char.toNat] using this

theorem val_encodeChar (c : Char) :
    (GoString.encodeChar c).map (fun b => b.val) = GoString.encodeNat c.toNat := by
  have hr := char_range c
  unfold GoString.encodeChar GoString.encodeNat
  simp only
  split_ifs with h1 h2 h3
  · simp only [List.map, Fin.ofNat, List.cons.injEq, and_true]
    omega
  · simp only [List.map, Fin.ofNat, List.cons.injEq, and_true]
    constructor <;> omega
  · simp only [List.map, Fin.ofNat, List.cons.injEq, and_true]
    refine ⟨?_, ?_, ?_⟩ <;> omega
  · simp only [List.map, Fin.ofNat, List.cons.injEq, and_true]
    refine ⟨?_, ?_, ?_, ?_⟩ <;> omega

theorem lead_two : ∀ q, 2 ≤ q → q < 32 → GoString.lead (0xC0 + q) = some (2, 0x80, 0xBF) := by
  intro q h1 h2
  unfold GoString.lead
  rw [if_pos (by omega)]

theorem lead_three : ∀ q, q < 16 →
    GoString.lead (0xE0 + q) =
      some (3, if q = 0 then 0xA0 else 0x80, if q = 13 then 0x9F else 0xBF) := by
  decide

theorem lead_four : ∀ q, q < 5 →
    GoString.lead (0xF0 + q) =
      some (4, if q = 0 then 0x90 else 0x80, if q = 4 then 0x8F else 0xBF) := by
  decide

theorem decodeRune_encodeNat (n : Nat)
    (hr : n < 0xD800 ∨ (0xDFFF < n ∧ n < 0x110000)) (rest : List Nat) :
    GoString.decodeRune (GoString.encodeNat n ++ rest) = (n, (GoString.encodeNat n).length) := by
  have d1 : n / 64 / 64 = n / 4096 := Nat.div_div_eq_div_mul n 64 64
  have d2 : n / 4096 / 64 = n / 262144 := Nat.div_div_eq_div_mul n 4096 64
  unfold GoString.encodeNat
  split_ifs with h1 h2 h3
  · simp only [List.singleton_append, GoString.decodeRune, h1, if_true, List.length_singleton]
  · have hl := lead_two (n / 64) (by omega) (by omega)
    simp only [List.cons_append, List.nil_append, GoString.decodeRune, hl, List.length_cons,
      List.length_nil]
    split_ifs <;> first
      | (exfalso; omega)
      | (simp only [Prod.mk.injEq, and_true]; omega)
  · have hl := lead_three (n / 4096) (by omega)
    simp only [List.cons_append, List.nil_append, GoString.decodeRune, hl, GoString.isCont,
      Bool.and_eq_true, decide_eq_true_eq, List.length_cons, List.length_nil]
    split_ifs <;> first
      | (exfalso; omega)
      | (simp only [Prod.mk.injEq, and_true]; omega)
  · have hl := lead_four (n / 262144) (by omega)
    simp only [List.cons_append, List.nil_append, GoString.decodeRune, hl, GoString.isCont,
      Bool.and_eq_true, decide_eq_true_eq, List.length_cons, List.length_nil]
    split_ifs <;> first
      | (exfalso; omega)
      | (simp only [Prod.mk.injEq, and_true]; omega)

theorem encodeNat_length_pos (n : Nat) : 0 < (GoString.encodeNat n).length := by
  unfold GoString.encodeNat
  split_ifs <;> simp

theorem runes_encodeNat (cs : List Char) : ∀ fuel : Nat, cs.length ≤ fuel →
    GoString.runes fuel (cs.flatMap (fun c => GoString.encodeNat c.toNat)) = cs := by
  induction cs with
  | nil =>
    intro fuel _
    cases fuel <;> rfl
  | cons c cs ih =>
    intro fuel hf
    obtain ⟨fuel, rfl⟩ : ∃ k, fuel = k + 1 := ⟨fuel - 1, by simp at hf; omega⟩
    have hd := decodeRune_encodeNat c.toNat (char_range c)
      (cs.flatMap (fun c => GoString.encodeNat c.toNat))
    have hp := encodeNat_length_pos c.toNat
    rw [List.flatMap_cons]
    rcases he : GoString.encodeNat c.toNat with _ | ⟨b, bs⟩
    · rw [he] at hp; simp at hp
    · rw [he] at hd
      rw [List.cons_append] at hd ⊢
      rw [GoString.runes, hd]
      simp only [Char.ofNat_toNat]
      rw [← List.cons_append, List.drop_left]
      rw [ih fuel (by simpa using hf)]

theorem val_ofString (s : String) :
    (GoString.ofString s).map (fun b => b.val) =
      s.data.flatMap (fun c => GoString.encodeNat c.toNat) := by
  unfold GoString.ofString
  induction s.data with
  | nil => rfl
  | cons c cs ih => rw [List.flatMap_cons, List.map_append, ih, val_encodeChar, List.flatMap_cons]

theorem length_le_ofString (s : String) : s.data.length ≤ (GoString.ofString s).length := by
  have h : (GoString.ofString s).length =
      ((GoString.ofString s).map (fun b => b.val)).length := by simp
  rw [h, val_ofString]
  induction s.data with
  | nil => simp
  | cons c cs ih =>
    rw [List.flatMap_cons, List.length_append, List.length_cons]
    have := encodeNat_length_pos c.toNat
    omega

theorem toValidUTF8_ofString (s : String) : GoString.toValidUTF8 (GoString.ofString s) = s := by
  unfold GoString.toValidUTF8
  rw [val_ofString, runes_encodeNat s.data _ (length_le_ofString s)]

/-! ## C20: the envelope between the two services -/

theorem unmarshal_buildMessage (data : gateway.Data) (action login storeId versionId : GoString) :
    Message.unmarshal (gateway.buildMessage data action login storeId versionId) =
      .ok { Action := GoString.toValidUTF8 action, Data := .doc data.marshal,
            StoreID := GoString.toValidUTF8 storeId, UserLogin := GoString.toValidUTF8 login,
            VersionID := GoString.toValidUTF8 versionId } := rfl

theorem unmarshal_store (d : gateway.Store) :
    StoreFromMessage.unmarshal (.doc (gateway.Data.store d).marshal) =
      .ok { Name := GoString.toValidUTF8 d.Name, Address := GoString.toValidUTF8 d.Address,
            OwnerName := GoString.toValidUTF8 d.OwnerName,
            OpeningTime := GoString.toValidUTF8 d.OpeningTime,
            ClosingTime := GoString.toValidUTF8 d.ClosingTime } := rfl

theorem unmarshal_storeVersion (d : gateway.StoreVersion) :
    StoreVersionFromMessage.unmarshal (.doc (gateway.Data.storeVersion d).marshal) =
      .ok { OwnerName := GoString.toValidUTF8 d.OwnerName,
            OpeningTime := GoString.toValidUTF8 d.OpeningTime,
            ClosingTime := GoString.toValidUTF8 d.ClosingTime } := rfl

/-- C20, counterexample: the gateway builds the message of the request
`GET /storage/store/%ff`, whose path parameter `id` is the single byte `0xFF`.
`json.Marshal` writes the replacement character U+FFFD for that byte, so
`extractStoreID` returns the string of the three bytes `EF BF BD` and not the
`storeId` that was given to `buildMessage`. -/
theorem envelope_round_trip_counterexample :
    sampleRawStoreId = [0xFF] ∧
    extractStoreID sampleRawIdMsg = "\uFFFD" ∧
    GoString.ofString (extractStoreID sampleRawIdMsg) = [0xEF, 0xBF, 0xBD] ∧
    GoString.ofString (extractStoreID sampleRawIdMsg) ≠ sampleRawStoreId ∧
    extractAction sampleRawIdMsg = "get_store" ∧
    extractLogin sampleRawIdMsg = "alice" := by
  refine ⟨rfl, by decide, by decide, by decide, by decide, by decide⟩

/-- C20, amended: for strings that are valid UTF-8, the bytes of the texts
`action`, `login`, `storeId`, `versionId` and of the fields of the request
body, the envelope round-trips.  Decoding the message `buildMessage` gives for
them yields exactly `action`, `login`, `storeId` and `versionId` whatever the
body is, exactly the five fields of a `Store` body with `extractStoreData`, and
exactly the three fields of a `StoreVersion` body with
`extractStoreVersionData`, without an error. -/
theorem envelope_round_trip_valid_utf8 (action login storeId versionId : String)
    (name address ownerName openingTime closingTime : String) (data : gateway.Data) :
    (extractAction ⟨gateway.buildMessage data (GoString.ofString action)
        (GoString.ofString login) (GoString.ofString storeId)
        (GoString.ofString versionId)⟩ = action ∧
     extractLogin ⟨gateway.buildMessage data (GoString.ofString action)
        (GoString.ofString login) (GoString.ofString storeId)
        (GoString.ofString versionId)⟩ = login ∧
     extractStoreID ⟨gateway.buildMessage data (GoString.ofString action)
        (GoString.ofString login) (GoString.ofString storeId)
        (GoString.ofString versionId)⟩ = storeId ∧
     extractVersionID ⟨gateway.buildMessage data (GoString.ofString action)
        (GoString.ofString login) (GoString.ofString storeId)
        (GoString.ofString versionId)⟩ = versionId) ∧
    extractStoreData ⟨gateway.buildMessage
        (.store { Name := GoString.ofString name, Address := GoString.ofString address,
                  OwnerName := GoString.ofString ownerName,
                  OpeningTime := GoString.ofString openingTime,
                  ClosingTime := GoString.ofString closingTime })
        (GoString.ofString action) (GoString.ofString login) (GoString.ofString storeId)
        (GoString.ofString versionId)⟩ =
      .ok { Name := name, Address := address, OwnerName := ownerName,
            OpeningTime := openingTime, ClosingTime := closingTime } ∧
    extractStoreVersionData ⟨gateway.buildMessage
        (.storeVersion { OwnerName := GoString.ofString ownerName,
                         OpeningTime := GoString.ofString openingTime,
                         ClosingTime := GoString.ofString closingTime })
        (GoString.ofString action) (GoString.ofString login) (GoString.ofString storeId)
        (GoString.ofString versionId)⟩ =
      .ok { OwnerName := ownerName, OpeningTime := openingTime,
            ClosingTime := closingTime } := by
  refine ⟨⟨?_, ?_, ?_, ?_⟩, ?_, ?_⟩
  · exact toValidUTF8_ofString action
  · exact toValidUTF8_ofString login
  · exact toValidUTF8_ofString storeId
  · exact toValidUTF8_ofString versionId
  · simp only [extractStoreData, unmarshal_buildMessage, unmarshal_store,
      toValidUTF8_ofString]
  · simp only [extractStoreVersionData, unmarshal_buildMessage, unmarshal_storeVersion,
      toValidUTF8_ofString]

/-! ## C22: no retry of a conflict at the service layer -/

theorem createStoreVersionOver_counting (oGet : Outcome) (attempts : Nat → Attempt) (db : DB)
    (n : Nat) (data : service.StoreVersion) (storeID : Nat) (login now : String) :
    service.StoreService.CreateStoreVersionOver (countingRepository oGet attempts) (db, n) data
        storeID login now =
      ((service.StoreService.CreateStoreVersion db data storeID login now (attempts n).versionID
          oGet (attempts n).drv).1,
       (service.StoreService.CreateStoreVersion db data storeID login now (attempts n).versionID
          oGet (attempts n).drv).2,
       match Repository.GetStoreByID db storeID oGet with
       | .error _ => n
       | .ok _ => n + 1) := by
  unfold service.StoreService.CreateStoreVersionOver service.StoreService.CreateStoreVersion
    countingRepository
  simp only
  cases Repository.GetStoreByID db storeID oGet with
  | error e => rfl
  | ok s =>
    simp only
    split <;> rename_i h <;> simp only [Prod.mk.injEq] at h <;> obtain ⟨h1, h2⟩ := h <;>
      split <;> simp_all

theorem repoCreateStoreVersion_none_or_same (db : DB) (sv : StoreVersion) (j : Nat)
    (drv : CreateStoreVersionStep → Outcome) :
    (Repository.CreateStoreVersion db sv j drv).1 = none ∨
      (Repository.CreateStoreVersion db sv j drv).2 = db := by
  unfold Repository.CreateStoreVersion
  repeat' split
  all_goals first
    | (simp; done)
    | (simp only []; split_ifs <;> simp only [] <;> first | (split <;> simp) | simp)

theorem repoCreateStoreVersion_error {db db1 : DB} {sv : StoreVersion} {j : Nat}
    {drv : CreateStoreVersionStep → Outcome} {e : Error}
    (h : Repository.CreateStoreVersion db sv j drv = (some e, db1)) : db1 = db := by
  have h0 := repoCreateStoreVersion_none_or_same db sv j drv
  rw [h] at h0
  simpa using h0

/-- C22, counterexample: on the database with store 1 and its first version,
the first call of `Repository.CreateStoreVersion` fails at `Commit` with a
serialization failure and a second call would go through.
`StoreService.CreateStoreVersion` returns the serialization failure all the
same, after one call of the repository, and the database is as before. -/
theorem conflict_retry_counterexample :
    Repository.CreateStoreVersion sampleStoreDb
        { VersionID := 0, StoreID := 1, VersionNumber := 0, CreatorLogin := "alice",
          OwnerName := "Alice", OpeningTime := "09:00", ClosingTime := "21:00",
          CreatedAt := "2024-01-02 10:00:00", IsLast := true }
        (sampleConflictOnce 0).versionID (sampleConflictOnce 0).drv =
      (some (Error.driver serializationFailure), sampleStoreDb) ∧
    (Repository.CreateStoreVersion sampleStoreDb
        { VersionID := 0, StoreID := 1, VersionNumber := 0, CreatorLogin := "alice",
          OwnerName := "Alice", OpeningTime := "09:00", ClosingTime := "21:00",
          CreatedAt := "2024-01-02 10:00:00", IsLast := true }
        (sampleConflictOnce 1).versionID (sampleConflictOnce 1).drv).1 = none ∧
    service.StoreService.CreateStoreVersionOver (countingRepository none sampleConflictOnce)
        (sampleStoreDb, 0) sampleVersionData 1 "alice" "2024-01-02 10:00:00" =
      (some (Error.driver serializationFailure), sampleStoreDb, 1) ∧
    service.StoreService.CreateStoreVersion sampleStoreDb sampleVersionData 1 "alice"
        "2024-01-02 10:00:00" 2 none (failingAt .Commit serializationFailure) =
      (some (Error.driver serializationFailure), sampleStoreDb) := by
  refine ⟨by decide, by decide, by decide, by decide⟩

/-- C22, amended: `StoreService.CreateStoreVersion` does not repeat the call of
the repository.  Started with no call made, it makes at most one call of
`Repository.CreateStoreVersion`, exactly one when the store is found, and its
result is the result of the method on the first attempt whatever later
attempts would give.  When that one call fails, with a serialization failure
or any other error, the method returns this error after the one call and the
database is the one before the call. -/
theorem createStoreVersion_conflict_not_retried (db : DB) (data : service.StoreVersion)
    (storeID : Nat) (login now : String) (oGet : Outcome) (attempts : Nat → Attempt) :
    (service.StoreService.CreateStoreVersionOver (countingRepository oGet attempts) (db, 0) data
        storeID login now).2.2 ≤ 1 ∧
    ((service.StoreService.CreateStoreVersionOver (countingRepository oGet attempts) (db, 0) data
        storeID login now).1,
     (service.StoreService.CreateStoreVersionOver (countingRepository oGet attempts) (db, 0) data
        storeID login now).2.1) =
      service.StoreService.CreateStoreVersion db data storeID login now (attempts 0).versionID
        oGet (attempts 0).drv ∧
    (∀ s, Repository.GetStoreByID db storeID oGet = .ok s →
      (service.StoreService.CreateStoreVersionOver (countingRepository oGet attempts) (db, 0)
          data storeID login now).2.2 = 1 ∧
      ∀ err,
        (Repository.CreateStoreVersion db
            { VersionID := 0, StoreID := storeID, VersionNumber := 0, CreatorLogin := login,
              OwnerName := data.OwnerName, OpeningTime := data.OpeningTime,
              ClosingTime := data.ClosingTime, CreatedAt := now, IsLast := true }
            (attempts 0).versionID (attempts 0).drv).1 = some err →
        service.StoreService.CreateStoreVersionOver (countingRepository oGet attempts) (db, 0)
            data storeID login now = (some err, db, 1)) := by
  rw [createStoreVersionOver_counting]
  refine ⟨?_, rfl, ?_⟩
  · simp only
    split <;> simp
  · intro s hs
    simp only [hs, zero_add, true_and]
    intro err herr
    have hdb : (Repository.CreateStoreVersion db
        { VersionID := 0, StoreID := storeID, VersionNumber := 0, CreatorLogin := login,
          OwnerName := data.OwnerName, OpeningTime := data.OpeningTime,
          ClosingTime := data.ClosingTime, CreatedAt := now, IsLast := true }
        (attempts 0).versionID (attempts 0).drv).2 = db := by
      rcases hres : Repository.CreateStoreVersion db
        { VersionID := 0, StoreID := storeID, VersionNumber := 0, CreatorLogin := login,
          OwnerName := data.OwnerName, OpeningTime := data.OpeningTime,
          ClosingTime := data.ClosingTime, CreatedAt := now, IsLast := true }
        (attempts 0).versionID (attempts 0).drv with ⟨e, d⟩
      rw [hres] at herr
      simp only at herr
      subst herr
      exact repoCreateStoreVersion_error hres
    unfold service.StoreService.CreateStoreVersion
    simp only [hs]
    rcases hres : Repository.CreateStoreVersion db
        { VersionID := 0, StoreID := storeID, VersionNumber := 0, CreatorLogin := login,
          OwnerName := data.OwnerName, OpeningTime := data.OpeningTime,
          ClosingTime := data.ClosingTime, CreatedAt := now, IsLast := true }
        (attempts 0).versionID (attempts 0).drv with ⟨e, d⟩
    rw [hres] at herr hdb
    simp only at herr hdb
    subst herr hdb
    rfl

/-- C22 at the sample store: the first call of the repository fails with the
serialization failure, and the method returns it after that one call. -/
theorem createStoreVersion_conflict_not_retried_witness :
    Repository.GetStoreByID sampleStoreDb 1 none = .ok { sampleStore with StoreID := 1 } ∧
    service.StoreService.CreateStoreVersionOver (countingRepository none sampleConflictOnce)
        (sampleStoreDb, 0) sampleVersionData 1 "alice" "2024-01-02 10:00:00" =
      (some (Error.driver serializationFailure), sampleStoreDb, 1) :=
  ⟨rfl,
   ((createStoreVersion_conflict_not_retried sampleStoreDb sampleVersionData 1 "alice"
      "2024-01-02 10:00:00" none sampleConflictOnce).2.2 _ rfl).2 _ (by decide)⟩

/-! ## C24: the marker of the inserted row -/

/-- C25, the code where the transaction of `CreateStore` does not persist: when
the driver fails at `Commit` (and at no other round trip), and the keys the
database assigns are free, `Repository.CreateStore` returns nil and the
database is the one before the call, without the store row and its version 1:
the deferred function drops the result of `tx.Commit()`.  The sibling
`Repository.CreateStoreVersion` never returns nil when its `Commit` fails. -/
theorem createStore_commit_failure_unreported (db : DB) (store : Store) (storeID versionID : Nat)
    (msg : String) (hstore : storeKeyTaken db storeID = false)
    (hversion : versionKeyTaken db versionID = false) :
    Repository.CreateStore db store storeID versionID (failingAt .Commit msg) = (none, db) ∧
    (∀ s ∈ db.stores, s.StoreID ≠ storeID) ∧
    (∀ (storeVersion : StoreVersion) (j : Nat),
      (Repository.CreateStoreVersion db storeVersion j (failingAt .Commit msg)).1 ≠ none) := by
  refine ⟨?_, ?_, ?_⟩
  · unfold Repository.CreateStore
    simp [failingAt, insertStore, insertStoreVersion, hstore, storeRowPresent]
    simp only [versionKeyTaken] at hversion ⊢
    simp [hversion]
  · exact (storeKeyTaken_eq_false_iff db storeID).1 hstore
  · intro storeVersion j
    unfold Repository.CreateStoreVersion
    simp only [failingAt, reduceCtorEq, if_false, if_true]
    split_ifs <;> simp only [] <;> split <;> simp

/-- C25 at the empty database: `CreateStore` of the sample store with the
driver failing at `Commit` returns nil and the database is still empty. -/
theorem createStore_commit_failure_unreported_witness :
    storeKeyTaken DB.empty 1 = false ∧ versionKeyTaken DB.empty 1 = false ∧
    Repository.CreateStore DB.empty sampleStore 1 1 (failingAt .Commit "connection lost") =
      (none, DB.empty) ∧
    Repository.CreateStore DB.empty sampleStore 1 1 healthy = (none, sampleStoreDb) ∧
    sampleStoreDb.stores.length = 1 :=
  ⟨rfl, rfl,
   (createStore_commit_failure_unreported DB.empty sampleStore 1 1 "connection lost" rfl rfl).1,
   by decide, by decide⟩

/-! ## C27: the outcome of the result callback -/

theorem perform_post (env : Env) (post : Outcome) (db : DB) (inv : Invocation) :
    inv.perform { env with post := post } db = inv.perform env db := by
  cases inv <;> rfl

/-- C27: handle the same message from the same database twice, the POST of the
result to the gateway having the outcome `post1` in one run and `post2` in the
other (`none` for a delivered callback, an error text otherwise), everything
else being equal.  Both runs leave the same database and make the same calls
of the service with the same results, and a routed command is served by
exactly one call in each run: a failed callback neither undoes nor repeats the
operation. -/
theorem callback_outcome_does_not_influence_mutation (h : MessageHandler) (env : Env) (db : DB)
    (msg : Delivery) (post1 post2 : Outcome) :
    (sendResponseToGateway { env with post := post1 } h.gatewayUrl []).1 = post1 ∧
    (sendResponseToGateway { env with post := post2 } h.gatewayUrl []).1 = post2 ∧
    (h.HandleMessage { env with post := post1 } db msg).db =
      (h.HandleMessage { env with post := post2 } db msg).db ∧
    (h.HandleMessage { env with post := post1 } db msg).served =
      (h.HandleMessage { env with post := post2 } db msg).served ∧
    (∀ inv, route msg = some inv →
      (h.HandleMessage { env with post := post1 } db msg).served =
        [(inv, (inv.perform env db).1)] ∧
      (h.HandleMessage { env with post := post2 } db msg).served =
        [(inv, (inv.perform env db).1)] ∧
      (h.HandleMessage { env with post := post1 } db msg).db = (inv.perform env db).2) := by
  rw [handleMessage_eq_route, handleMessage_eq_route]
  refine ⟨rfl, rfl, ?_, ?_, ?_⟩
  · cases route msg with
    | none => rfl
    | some inv => simp only [dispatched, perform_post]
  · cases route msg with
    | none => rfl
    | some inv => simp only [dispatched, perform_post]
  · intro inv hr
    simp only [hr, dispatched, perform_post, and_self]

/-- C27 at the deletion of store 1 by `alice`, the callback being delivered in
one run and failing with `connection refused` in the other: both runs leave the
database without store 1 and have called `DeleteStore` once. -/
theorem callback_outcome_does_not_influence_mutation_witness :
    route sampleDeleteMsg = some (.DeleteStore "1" "alice") ∧
    (sampleHandler.HandleMessage { sampleEnv with post := none } sampleTwoVersionsDb
        sampleDeleteMsg).served = [(.DeleteStore "1" "alice", .done)] ∧
    (sampleHandler.HandleMessage { sampleEnv with post := some "connection refused" }
        sampleTwoVersionsDb sampleDeleteMsg).served = [(.DeleteStore "1" "alice", .done)] ∧
    (sampleHandler.HandleMessage { sampleEnv with post := some "connection refused" }
        sampleTwoVersionsDb sampleDeleteMsg).db = DB.empty :=
  ⟨by decide,
   ((callback_outcome_does_not_influence_mutation sampleHandler sampleEnv sampleTwoVersionsDb
      sampleDeleteMsg none (some "connection refused")).2.2.2.2 _ (by decide)).1,
   ((callback_outcome_does_not_influence_mutation sampleHandler sampleEnv sampleTwoVersionsDb
      sampleDeleteMsg none (some "connection refused")).2.2.2.2 _ (by decide)).2.1,
   by decide⟩

/-! ## C29: `CreateStoreVersion` and the creator of the store -/

theorem repoCreateStoreVersion_healthy (db : DB) (sv : StoreVersion) (j : Nat)
    (hkey : versionKeyTaken db j = false) (hstore : storeRowPresent db sv.StoreID = true) :
    Repository.CreateStoreVersion db sv j healthy =
      (none,
       { stores := db.stores
         store_versions := (clearLast db sv.StoreID).store_versions ++
           [{ sv with
              VersionID := j
              VersionNumber :=
                ((selectLastVersion db sv.StoreID).getD StoreVersion.zero).VersionNumber + 1 }] }) := by
  have hkey1 : versionKeyTaken (clearLast db sv.StoreID) j = false := by
    rw [versionKeyTaken_clearLast]; exact hkey
  have hstore1 : storeRowPresent (clearLast db sv.StoreID) sv.StoreID = true := hstore
  unfold Repository.CreateStoreVersion
  simp only [healthy]
  cases hf : selectLastVersion db sv.StoreID with
  | none =>
    rw [clearLast_of_not_found hf] at hkey1 hstore1 ⊢
    simp [insertStoreVersion, hkey, hstore]
  | some p =>
    simp [insertStoreVersion, hkey1, hstore1, clearLast_stores]

/-- C29: `StoreService.CreateStoreVersion` does not look at the creator of the
store.  For every store row `E` of the database and every login, the creator's
or another, the method returns nil when the driver reports no failure and the
key the database assigns is free.  The rows of `stores` are the ones before the
call, `E` with its `creator_login` among them, and the one row added to
`store_versions` belongs to the store and carries the caller's login as its
`creator_login`. -/
theorem createStoreVersion_without_ownership_check (db : DB) (data : service.StoreVersion)
    (storeID : Nat) (login now : String) (versionID : Nat) (E : Store)
    (hE : E ∈ db.stores) (hid : E.StoreID = storeID)
    (hkey : versionKeyTaken db versionID = false) :
    ∃ db1 new,
      service.StoreService.CreateStoreVersion db data storeID login now versionID none healthy =
        (none, db1) ∧
      db1.stores = db.stores ∧ E ∈ db1.stores ∧
      db1.store_versions = (clearLast db storeID).store_versions ++ [new] ∧
      new.CreatorLogin = login ∧ new.StoreID = storeID ∧ new.VersionID = versionID ∧
      new.OwnerName = data.OwnerName ∧ new.OpeningTime = data.OpeningTime ∧
      new.ClosingTime = data.ClosingTime := by
  obtain ⟨s, hs⟩ := @getStoreByID_of_mem db storeID ⟨E, hE, hid⟩
  have hpresent : storeRowPresent db storeID = true :=
    (storeRowPresent_iff db storeID).2 ⟨E, hE, hid⟩
  have hrepo := repoCreateStoreVersion_healthy db
    { VersionID := 0, StoreID := storeID, VersionNumber := 0, CreatorLogin := login,
      OwnerName := data.OwnerName, OpeningTime := data.OpeningTime,
      ClosingTime := data.ClosingTime, CreatedAt := now, IsLast := true } versionID hkey hpresent
  refine ⟨{ stores := db.stores
            store_versions := (clearLast db storeID).store_versions ++
              [{ VersionID := versionID, StoreID := storeID,
                 VersionNumber :=
                   ((selectLastVersion db storeID).getD StoreVersion.zero).VersionNumber + 1,
                 CreatorLogin := login, OwnerName := data.OwnerName,
                 OpeningTime := data.OpeningTime, ClosingTime := data.ClosingTime,
                 CreatedAt := now, IsLast := true }] },
    { VersionID := versionID, StoreID := storeID,
      VersionNumber := ((selectLastVersion db storeID).getD StoreVersion.zero).VersionNumber + 1,
      CreatorLogin := login, OwnerName := data.OwnerName, OpeningTime := data.OpeningTime,
      ClosingTime := data.ClosingTime, CreatedAt := now, IsLast := true },
    ?_, rfl, hE, rfl, rfl, rfl, rfl, rfl, rfl, rfl⟩
  unfold service.StoreService.CreateStoreVersion
  simp only [hs, hrepo]

/-- C29 at store 1, created by `alice`: `bob` adds a version; the store row
still names `alice`, the new row names `bob`. -/
theorem createStoreVersion_without_ownership_check_witness :
    ({ sampleStore with StoreID := 1 } : Store) ∈ sampleStoreDb.stores ∧
    versionKeyTaken sampleStoreDb 2 = false ∧
    ∃ db1 new,
      service.StoreService.CreateStoreVersion sampleStoreDb sampleVersionData 1 "bob"
        "2024-01-02 10:00:00" 2 none healthy = (none, db1) ∧
      db1.stores = sampleStoreDb.stores ∧
      ({ sampleStore with StoreID := 1 } : Store) ∈ db1.stores ∧
      db1.store_versions = (clearLast sampleStoreDb 1).store_versions ++ [new] ∧
      new.CreatorLogin = "bob" ∧ new.StoreID = 1 ∧ new.VersionID = 2 ∧
      new.OwnerName = sampleVersionData.OwnerName ∧
      new.OpeningTime = sampleVersionData.OpeningTime ∧
      new.ClosingTime = sampleVersionData.ClosingTime :=
  ⟨by decide, by decide,
   createStoreVersion_without_ownership_check sampleStoreDb sampleVersionData 1 "bob"
     "2024-01-02 10:00:00" 2 { sampleStore with StoreID := 1 } (by decide) rfl (by decide)⟩

/-! ## C28: connection attempts at startup -/

theorem retryConnection_loop_calls {R : Type} (exec : Nat → Option R × Option String) :
    ∀ remaining i : Nat,
      (provider.RetryConnection.loop exec remaining i).2 ≤ i + remaining ∧
      ((provider.RetryConnection.loop exec remaining i).1.2 = none →
        ∃ k, i ≤ k ∧ (exec k).2 = none ∧
          (provider.RetryConnection.loop exec remaining i).2 = k + 1 ∧
          (provider.RetryConnection.loop exec remaining i).1.1 = (exec k).1 ∧
          ∀ m, i ≤ m → m < k → (exec m).2 ≠ none) := by
  intro remaining
  induction remaining with
  | zero =>
    intro i
    simp [provider.RetryConnection.loop]
  | succ n ih =>
    intro i
    rw [provider.RetryConnection.loop]
    rcases he : exec i with ⟨res, _ | e⟩
    · simp only
      refine ⟨by omega, fun _ => ⟨i, le_refl i, by rw [he], rfl, by rw [he], ?_⟩⟩
      intro m h1 h2
      omega
    · simp only
      obtain ⟨h1, h2⟩ := ih (i + 1)
      refine ⟨by omega, fun hn => ?_⟩
      obtain ⟨k, hk, hek, hc, hr, hall⟩ := h2 hn
      refine ⟨k, by omega, hek, hc, hr, ?_⟩
      intro m hm1 hm2
      by_cases hmi : m = i
      · subst hmi
        rw [he]
        simp
      · exact hall m (by omega) hm2

theorem initDB_loop_calls (connect : Nat → Option String) (migrate : Option String) :
    ∀ (remaining i : Nat) (err : Option String),
      (initDB.loop connect migrate remaining i err).2 ≤ i + remaining ∧
      ((∀ m, i ≤ m → m < i + remaining → connect m ≠ none) → 0 < remaining →
        (initDB.loop connect migrate remaining i err).1.1 = none ∧
        (initDB.loop connect migrate remaining i err).1.2 ≠ none) := by
  intro remaining
  induction remaining with
  | zero =>
    intro i err
    simp [initDB.loop]
  | succ n ih =>
    intro i err
    rcases hc : connect i with _ | e
    · refine ⟨?_, fun hall _ => absurd hc (hall i (le_refl i) (by omega))⟩
      cases migrate <;> simp only [initDB.loop, hc] <;> omega
    · simp only [initDB.loop, hc]
      obtain ⟨h1, h2⟩ := ih (i + 1) (some e)
      refine ⟨by omega, fun hall _ => ?_⟩
      cases n with
      | zero => simp [initDB.loop]
      | succ n => exact h2 (fun m hm1 hm2 => hall m (by omega) (by omega)) (by omega)

theorem retryConnection_bounded {R : Type} (times : Int)
    (exec : Nat → Option R × Option String) :
    (provider.RetryConnection times exec).2 ≤ times.toNat ∧
    ((∀ m, m < times.toNat → (exec m).2 ≠ none) →
      (provider.RetryConnection times exec).1.2 ≠ none) := by
  obtain ⟨h1, h2⟩ := retryConnection_loop_calls exec times.toNat 0
  refine ⟨by simpa [provider.RetryConnection] using h1, fun hall hnone => ?_⟩
  obtain ⟨k, -, hek, hc, -, -⟩ := h2 hnone
  have hk : k < times.toNat := by omega
  exact hall k hk hek

theorem initDB_bounded (ReconnRetry : Int) (connect : Nat → Option String)
    (migrate : Option String) :
    (initDB ReconnRetry connect migrate).2 ≤ ReconnRetry.toNat ∧
    (0 < ReconnRetry → (∀ m, m < ReconnRetry.toNat → connect m ≠ none) →
      (initDB ReconnRetry connect migrate).1.1 = none ∧
      (initDB ReconnRetry connect migrate).1.2 ≠ none) := by
  obtain ⟨h1, h2⟩ := initDB_loop_calls connect migrate ReconnRetry.toNat 0 none
  refine ⟨by simpa [initDB] using h1, fun hpos hall => ?_⟩
  exact h2 (fun m _ hm => hall m (by omega)) (by omega)

/-- C28, the code at a retry count that is zero or negative: the loop of
`initDB` makes no connection attempt and the function returns the nil
repository together with a nil error, whatever the database would answer.
The gateway's `RetryConnection` returns its error `retry connection failed`
for the same count. -/
theorem initDB_without_attempts_returns_nil_nil (r : Int) (hr : r ≤ 0)
    (connect : Nat → Option String) (migrate : Option String)
    (exec : Nat → Option Unit × Option String) :
    initDB r connect migrate = ((none, none), 0) ∧
    provider.RetryConnection r exec = ((none, some "retry connection failed"), 0) := by
  have h0 : r.toNat = 0 := Int.toNat_eq_zero.2 hr
  simp only [initDB, provider.RetryConnection, h0, initDB.loop, provider.RetryConnection.loop,
    and_self]

/-- C28 at the retry count 0 (the value of a configuration without the key
`postgres.retry`) and at -1, with a database that would accept the first
connection. -/
theorem initDB_without_attempts_returns_nil_nil_witness :
    initDB 0 (fun _ => none) none = ((none, none), 0) ∧
    initDB (-1) (fun _ => none) none = ((none, none), 0) ∧
    initDB 1 (fun _ => none) none = ((some 0, none), 1) ∧
    initDB 2 (fun _ => some "connection refused") none =
      ((none, some "connection refused"), 2) :=
  ⟨(initDB_without_attempts_returns_nil_nil 0 (le_refl 0) (fun _ => none) none
      (fun _ => (none, none))).1,
   (initDB_without_attempts_returns_nil_nil (-1) (by decide) (fun _ => none) none
      (fun _ => (none, none))).1,
   by decide, by decide⟩

/-! ## Matching a regular expression -/

theorem matches_empty (s : List Nat) : regexp.Regex.empty.matches s = false := by
  induction s with
  | nil => rfl
  | cons x s ih => exact ih

theorem matches_seq_empty (r : regexp.Regex) (s : List Nat) :
    (regexp.Regex.seq .empty r).matches s = false := by
  induction s with
  | nil => rfl
  | cons x s ih => exact ih

theorem matches_alt (a b : regexp.Regex) (s : List Nat) :
    (regexp.Regex.alt a b).matches s = (a.matches s || b.matches s) := by
  induction s generalizing a b with
  | nil => rfl
  | cons x s ih => exact ih _ _

theorem matches_seq_eps (r : regexp.Regex) (s : List Nat) :
    (regexp.Regex.seq .eps r).matches s = r.matches s := by
  cases s with
  | nil => rfl
  | cons x s =>
    show (regexp.Regex.alt (.seq .empty r) (r.deriv x)).matches s = (r.deriv x).matches s
    rw [matches_alt, matches_seq_empty, Bool.false_or]

theorem matches_seq_cls (c : regexp.Class) (r : regexp.Regex) (x : Nat) (s : List Nat) :
    (regexp.Regex.seq (.cls c) r).matches (x :: s) = (c.mem x && r.matches s) := by
  show (regexp.Regex.seq (if c.mem x then .eps else .empty) r).matches s = _
  cases c.mem x
  · simp only [Bool.false_eq_true, if_false, matches_seq_empty, Bool.false_and]
  · simp only [if_true, matches_seq_eps, Bool.true_and]

theorem matches_cls (c : regexp.Class) (x : Nat) (s : List Nat) :
    (regexp.Regex.cls c).matches (x :: s) = (c.mem x && s.isEmpty) := by
  show (if c.mem x then regexp.Regex.eps else .empty).matches s = _
  cases c.mem x
  · simp only [Bool.false_eq_true, if_false, matches_empty, Bool.false_and]
  · simp only [if_true, Bool.true_and]
    cases s with
    | nil => rfl
    | cons y s => exact matches_empty s

theorem matches_ofClasses (items : List regexp.Class) :
    ∀ s : List Nat, (regexp.Regex.ofClasses items).matches s =
      (decide (s.length = items.length) && (List.zipWith regexp.Class.mem items s).all id) := by
  induction items with
  | nil =>
    intro s
    cases s with
    | nil => rfl
    | cons x s => simpa [regexp.Regex.ofClasses, regexp.Regex.matches, regexp.Regex.deriv] using
        matches_empty s
  | cons c rest ih =>
    intro s
    cases rest with
    | nil =>
      cases s with
      | nil => rfl
      | cons x s =>
        rw [regexp.Regex.ofClasses, matches_cls]
        cases s <;> simp
    | cons d rest =>
      cases s with
      | nil => rfl
      | cons x s =>
        rw [regexp.Regex.ofClasses, matches_seq_cls, ih s]
        simp only [List.length_cons, add_left_inj, List.zipWith_cons_cons, List.all_cons, id_eq]
        cases c.mem x <;> simp

/-! ## C30: the strings `ValidateTimeFormat` accepts -/

theorem daysIn_eq_daysOfMonth (year month : Nat) (h1 : 1 ≤ month) (h2 : month ≤ 12) :
    time.daysIn month year = daysOfMonth year month := by
  interval_cases month <;> simp [time.daysIn, time.daysBefore, daysOfMonth, time.isLeap]

theorem getyear_digits (a b c d : Nat) (rest : List Nat) (ha : time.isDigit a = true)
    (hb : time.isDigit b = true) (hc : time.isDigit c = true) (hd : time.isDigit d = true) :
    time.getyear (a :: b :: c :: d :: rest) =
      some ((a - 0x30) * 1000 + (b - 0x30) * 100 + (c - 0x30) * 10 + (d - 0x30), rest) := by
  simp [time.getyear, ha, hb, hc, hd]

theorem getnum_digits (a b : Nat) (rest : List Nat) (fixed : Bool) (ha : time.isDigit a = true)
    (hb : time.isDigit b = true) :
    time.getnum (a :: b :: rest) fixed = some ((a - 0x30) * 10 + (b - 0x30), rest) := by
  simp [time.getnum, ha, hb]

theorem skipChar_same (x : Nat) (rest : List Nat) : time.skipChar x (x :: rest) = some rest := by
  simp [time.skipChar]

theorem skipSpace_digit (a : Nat) (rest : List Nat) (ha : time.isDigit a = true) :
    time.skipSpace (0x20 :: a :: rest) = some (a :: rest) := by
  have h : (a == 0x20) = false := by
    simp only [time.isDigit, Bool.and_eq_true, decide_eq_true_eq] at ha
    simp only [beq_eq_false_iff_ne, ne_eq]
    omega
  simp [time.skipSpace, List.dropWhile, h]

theorem isDigit_iff (b : Nat) : time.isDigit b = true ↔ 48 ≤ b ∧ b ≤ 57 := by
  simp [time.isDigit]

theorem timeCheck_eq (bs : List Nat) :
    (if !(decide (bs.length = validation.timeItems.length) &&
          (List.zipWith regexp.Class.mem validation.timeItems bs).all id) then false
     else time.Parse bs) =
      (hasShape "DDDD-DD-DD DD:DD:DD" bs &&
        decide (1 ≤ numberAt bs 5 2 ∧ numberAt bs 5 2 ≤ 12 ∧
          1 ≤ numberAt bs 8 2 ∧
          numberAt bs 8 2 ≤ daysOfMonth (numberAt bs 0 4) (numberAt bs 5 2) ∧
          numberAt bs 11 2 ≤ 23 ∧ numberAt bs 14 2 ≤ 59 ∧ numberAt bs 17 2 ≤ 59)) := by
  have hitems : validation.timeItems.length = 19 := rfl
  have htemplate : "DDDD-DD-DD DD:DD:DD".length = 19 := rfl
  by_cases hlen : bs.length = 19
  · rcases bs with _ | ⟨b0, _ | ⟨b1, _ | ⟨b2, _ | ⟨b3, _ | ⟨b4, _ | ⟨b5, _ | ⟨b6, _ | ⟨b7, _ | ⟨b8, _ | ⟨b9, _ | ⟨b10, _ | ⟨b11, _ | ⟨b12, _ | ⟨b13, _ | ⟨b14, _ | ⟨b15, _ | ⟨b16, _ | ⟨b17, _ | ⟨b18, _ | ⟨b19, rest⟩⟩⟩⟩⟩⟩⟩⟩⟩⟩⟩⟩⟩⟩⟩⟩⟩⟩⟩⟩
    all_goals try (simp at hlen; done)
    clear hlen
    have hmatch : (decide ([b0, b1, b2, b3, b4, b5, b6, b7, b8, b9, b10, b11, b12, b13, b14, b15,
          b16, b17, b18].length = validation.timeItems.length) &&
        (List.zipWith regexp.Class.mem validation.timeItems [b0, b1, b2, b3, b4, b5, b6, b7, b8,
          b9, b10, b11, b12, b13, b14, b15, b16, b17, b18]).all id) =
        hasShape "DDDD-DD-DD DD:DD:DD" [b0, b1, b2, b3, b4, b5, b6, b7, b8, b9, b10, b11, b12,
          b13, b14, b15, b16, b17, b18] := by
      rw [Bool.eq_iff_iff]
      simp [hasShape, validation.timeItems, regexp.Class.mem, regexp.digit, regexp.lit]
      rw [htemplate]
      omega
    rw [hmatch]
    by_cases hshape : hasShape "DDDD-DD-DD DD:DD:DD" [b0, b1, b2, b3, b4, b5, b6, b7, b8, b9, b10,
        b11, b12, b13, b14, b15, b16, b17, b18] = true
    · rw [hshape]
      simp [hasShape] at hshape
      obtain ⟨-, h0, h1, h2, h3, rfl, h5, h6, rfl, h8, h9, rfl, h11, h12, rfl, h14, h15, rfl, h17,
        h18⟩ := hshape
      rw [← isDigit_iff] at h0 h1 h2 h3 h5 h6 h8 h9 h11 h12 h14 h15 h17 h18
      simp only [time.Parse, getyear_digits _ _ _ _ _ h0 h1 h2 h3, skipChar_same,
        getnum_digits _ _ _ _ h5 h6, getnum_digits _ _ _ _ h8 h9, skipSpace_digit _ _ h11,
        getnum_digits _ _ _ _ h11 h12, getnum_digits _ _ _ _ h14 h15,
        getnum_digits _ _ _ _ h17 h18, time.skipFraction, List.length_nil, numberAt,
        List.drop, List.take, List.foldl, Nat.zero_mul, Nat.zero_add, Bool.true_and]
      have hy : (((b0 - 48) * 10 + (b1 - 48)) * 10 + (b2 - 48)) * 10 + (b3 - 48) =
          (b0 - 48) * 1000 + (b1 - 48) * 100 + (b2 - 48) * 10 + (b3 - 48) := by ring
      rw [hy]
      generalize (b0 - 48) * 1000 + (b1 - 48) * 100 + (b2 - 48) * 10 + (b3 - 48) = year
      generalize (b5 - 48) * 10 + (b6 - 48) = month
      generalize (b8 - 48) * 10 + (b9 - 48) = day
      generalize (b11 - 48) * 10 + (b12 - 48) = hour
      generalize (b14 - 48) * 10 + (b15 - 48) = minute
      generalize (b17 - 48) * 10 + (b18 - 48) = second
      by_cases hm : 1 ≤ month ∧ month ≤ 12
      · rw [daysIn_eq_daysOfMonth year month hm.1 hm.2]
        generalize daysOfMonth year month = dm
        rw [Bool.eq_iff_iff]
        simp only [Bool.not_true, Bool.false_eq_true, if_false, Bool.or_eq_true,
          decide_eq_true_eq, gt_iff_lt, lt_self_iff_false]
        split_ifs <;> simp only [Bool.false_eq_true, false_iff, true_iff] <;> omega
      · rw [Bool.eq_iff_iff]
        simp only [Bool.not_true, Bool.false_eq_true, if_false, Bool.or_eq_true,
          decide_eq_true_eq]
        rw [if_pos (by omega)]
        simp only [Bool.false_eq_true, false_iff]
        omega
    · simp only [Bool.not_eq_true] at hshape
      rw [hshape]
      rfl
  · simp [hitems, htemplate, hlen, hasShape]

/-- C30: `ValidateTimeFormat` accepts a string exactly when it has the shape
`DDDD-DD-DD DD:DD:DD` (19 characters, each `D` an ASCII digit) and denotes a
real date and time of day: month from 1 to 12, day from 1 to the number of
days of that month in that year (29 for February of a leap year), hour at most
23, minute and second at most 59.  The strings `2023-02-30 10:00:00` and
`2023-01-01 24:00:00` are rejected, `2024-02-29 23:59:59` is accepted. -/
theorem validateTimeFormat_accepts_real_date_times :
    (∀ s : GoString, validation.ValidateTimeFormat s = isRealDateTime s) ∧
    validation.ValidateTimeFormat (GoString.ofString "2023-02-30 10:00:00") = false ∧
    validation.ValidateTimeFormat (GoString.ofString "2023-01-01 24:00:00") = false ∧
    validation.ValidateTimeFormat (GoString.ofString "2024-02-29 23:59:59") = true ∧
    validation.ValidateTimeFormat (GoString.ofString "2023-02-29 23:59:59") = false ∧
    validation.ValidateTimeFormat (GoString.ofString "2023-1-01 10:00:00") = false ∧
    validation.ValidateTimeFormat (GoString.ofString "2023-01-01 10:00:00 ") = false := by
  refine ⟨?_, by decide, by decide, by decide, by decide, by decide, by decide⟩
  intro s
  unfold validation.ValidateTimeFormat isRealDateTime regexp.MatchString validation.timePattern
  rw [matches_ofClasses]
  exact timeCheck_eq _

/-! ## C26: requests that fail the validation -/

theorem fieldError_ne_nil (field : String) (tags : List (String × Bool)) :
    validator.fieldError field tags ≠ [] ↔ ∃ t ∈ tags, t.2 = false := by
  unfold validator.fieldError
  cases h : tags.find? (fun t => !t.2) with
  | none =>
    rw [List.find?_eq_none] at h
    simp only [ne_eq, not_true_eq_false, false_iff, not_exists, not_and]
    intro t ht
    simpa using h t ht
  | some t =>
    simp only [ne_eq, List.cons_ne_nil, not_false_eq_true, true_iff]
    exact ⟨t, List.mem_of_find?_eq_some h, by simpa using List.find?_some h⟩

theorem fieldError_required_ne_nil (field tag : String) (value : GoString) (ok : Bool)
    (hempty : value = [] → ok = false) :
    validator.fieldError field [("required", !value.isEmpty), (tag, ok)] ≠ [] ↔ ok = false := by
  rw [fieldError_ne_nil]
  simp only [List.mem_cons, List.mem_singleton, exists_eq_or_imp, exists_eq_left,
    Bool.not_eq_false', List.isEmpty_iff, List.not_mem_nil, false_and, exists_false, or_false]
  exact ⟨fun h => h.elim hempty id, Or.inr⟩

theorem validateAddress_nil : validation.ValidateAddress [] = false := rfl

theorem validateOwnerName_nil : validation.ValidateOwnerName [] = false := rfl

theorem validateTimeFormat_nil : validation.ValidateTimeFormat [] = false := rfl

theorem fieldError_name_ne_nil (name : GoString) :
    validator.fieldError "Name"
      [("required", !name.isEmpty), ("min", decide (3 ≤ validator.RuneCountInString name)),
       ("max", decide (validator.RuneCountInString name ≤ 40))] ≠ [] ↔
      (validator.RuneCountInString name < 3 ∨ 40 < validator.RuneCountInString name) := by
  rw [fieldError_ne_nil]
  simp only [List.mem_cons, List.mem_singleton, exists_eq_or_imp, exists_eq_left,
    Bool.not_eq_false', List.isEmpty_iff, decide_eq_false_iff_not, not_le, List.not_mem_nil,
    false_and, exists_false, or_false]
  constructor
  · rintro (h | h | h)
    · subst h
      exact Or.inl (by decide)
    · exact Or.inl h
    · exact Or.inr h
  · rintro (h | h)
    · exact Or.inr (Or.inl h)
    · exact Or.inr (Or.inr h)

theorem store_struct_ne_nil (store : gateway.Store) :
    gateway.Store.Struct store ≠ [] ↔
      ((validator.RuneCountInString store.Name < 3 ∨
          40 < validator.RuneCountInString store.Name) ∨
        validation.ValidateAddress store.Address = false ∨
        validation.ValidateOwnerName store.OwnerName = false ∨
        validation.ValidateTimeFormat store.OpeningTime = false ∨
        validation.ValidateTimeFormat store.ClosingTime = false) := by
  unfold gateway.Store.Struct
  simp only [ne_eq, List.append_eq_nil, not_and_or, or_assoc]
  simp only [← ne_eq]
  rw [fieldError_name_ne_nil,
    fieldError_required_ne_nil _ _ _ _ (fun h => by rw [h]; exact validateAddress_nil),
    fieldError_required_ne_nil _ _ _ _ (fun h => by rw [h]; exact validateOwnerName_nil),
    fieldError_required_ne_nil _ _ _ _ (fun h => by rw [h]; exact validateTimeFormat_nil),
    fieldError_required_ne_nil _ _ _ _ (fun h => by rw [h]; exact validateTimeFormat_nil)]
  simp only [or_assoc]

theorem storeVersion_struct_ne_nil (v : gateway.StoreVersion) :
    gateway.StoreVersion.Struct v ≠ [] ↔
      (validation.ValidateOwnerName v.OwnerName = false ∨
        validation.ValidateTimeFormat v.OpeningTime = false ∨
        validation.ValidateTimeFormat v.ClosingTime = false) := by
  unfold gateway.StoreVersion.Struct
  simp only [ne_eq, List.append_eq_nil, not_and_or, or_assoc]
  simp only [← ne_eq]
  rw [fieldError_required_ne_nil _ _ _ _ (fun h => by rw [h]; exact validateOwnerName_nil),
    fieldError_required_ne_nil _ _ _ _ (fun h => by rw [h]; exact validateTimeFormat_nil),
    fieldError_required_ne_nil _ _ _ _ (fun h => by rw [h]; exact validateTimeFormat_nil)]

/-- C26: a `CreateStore` or `CreateStoreVersion` request whose body is not
bound (`c.ShouldBindJSON` returns an error: the decoder finds no JSON value at
the front of the body, or the value does not fit the struct) or whose bound
struct fails `structValidator.Struct` is answered with status 400 and no
message is passed to `Publish`, whatever the broker would do and whatever
bytes follow the first JSON value of the body.  The struct of a store fails
exactly when its name has fewer than 3 or more than 40 characters, or its
address, owner name, opening time or closing time fails its format validator;
a missing or empty field is among these (the empty string has no characters
and fails every format).  The struct of a version fails exactly when its owner
name, opening time or closing time fails its format validator. -/
theorem invalid_request_is_rejected (publish : Option String) (c : gateway.Request) :
    ((∀ store, gateway.Store.bind c.body = .ok store → gateway.Store.Struct store ≠ []) →
      (gateway.StoresHandler.CreateStore publish c).status = 400 ∧
      (gateway.StoresHandler.CreateStore publish c).published = []) ∧
    ((∀ storeVersion, gateway.StoreVersion.bind c.body = .ok storeVersion →
        gateway.StoreVersion.Struct storeVersion ≠ []) →
      (gateway.StoresHandler.CreateStoreVersion publish c).status = 400 ∧
      (gateway.StoresHandler.CreateStoreVersion publish c).published = []) ∧
    (∀ store : gateway.Store, gateway.Store.Struct store ≠ [] ↔
      ((validator.RuneCountInString store.Name < 3 ∨
          40 < validator.RuneCountInString store.Name) ∨
        validation.ValidateAddress store.Address = false ∨
        validation.ValidateOwnerName store.OwnerName = false ∨
        validation.ValidateTimeFormat store.OpeningTime = false ∨
        validation.ValidateTimeFormat store.ClosingTime = false)) ∧
    (∀ storeVersion : gateway.StoreVersion, gateway.StoreVersion.Struct storeVersion ≠ [] ↔
      (validation.ValidateOwnerName storeVersion.OwnerName = false ∨
        validation.ValidateTimeFormat storeVersion.OpeningTime = false ∨
        validation.ValidateTimeFormat storeVersion.ClosingTime = false)) := by
  refine ⟨?_, ?_, store_struct_ne_nil, storeVersion_struct_ne_nil⟩
  · intro h
    unfold gateway.StoresHandler.CreateStore
    cases hb : gateway.Store.bind c.body with
    | error e => exact ⟨rfl, rfl⟩
    | ok store =>
      have hs := h store hb
      simp only
      cases hv : gateway.Store.Struct store with
      | nil => exact absurd hv hs
      | cons e errs => exact ⟨rfl, rfl⟩
  · intro h
    unfold gateway.StoresHandler.CreateStoreVersion
    cases hb : gateway.StoreVersion.bind c.body with
    | error e => exact ⟨rfl, rfl⟩
    | ok storeVersion =>
      have hs := h storeVersion hb
      simp only
      cases hv : gateway.StoreVersion.Struct storeVersion with
      | nil => exact absurd hv hs
      | cons e errs => exact ⟨rfl, rfl⟩

/-- C26 at a store body whose name has two characters, at a version body whose
closing time is the 30th of February, and at a body at whose front the decoder
finds no JSON value. -/
theorem invalid_request_is_rejected_witness :
    ((gateway.StoresHandler.CreateStore none (sampleRequest sampleShortNameBody)).status = 400 ∧
      (gateway.StoresHandler.CreateStore none (sampleRequest sampleShortNameBody)).published
        = []) ∧
    ((gateway.StoresHandler.CreateStoreVersion none (sampleRequest sampleBadTimeBody)).status
        = 400 ∧
      (gateway.StoresHandler.CreateStoreVersion none (sampleRequest sampleBadTimeBody)).published
        = []) ∧
    ((gateway.StoresHandler.CreateStore none (sampleRequest .invalid)).status = 400 ∧
      (gateway.StoresHandler.CreateStore none (sampleRequest .invalid)).published = []) ∧
    (gateway.StoresHandler.CreateStore none (sampleRequest sampleShortNameBody)).body =
      { Message := "Error", Body := .fields [("Name", "min")] } :=
  ⟨(invalid_request_is_rejected none (sampleRequest sampleShortNameBody)).1
      (fun store hb => by
        rw [← Except.ok.inj hb]
        decide),
   (invalid_request_is_rejected none (sampleRequest sampleBadTimeBody)).2.1
      (fun storeVersion hb => by
        rw [← Except.ok.inj hb]
        decide),
   (invalid_request_is_rejected none (sampleRequest .invalid)).1
      (fun store hb => by cases hb),
   rfl⟩

/-! ## C21: the response of the gateway handlers -/

theorem route_delete_store (login storeId versionId : GoString) :
    route ⟨gateway.buildMessage .nil (GoString.ofString "delete_store") login storeId versionId⟩ =
      some (.DeleteStore (GoString.toValidUTF8 storeId) (GoString.toValidUTF8 login)) := by
  simp [route, unmarshal_buildMessage, toValidUTF8_ofString]

theorem route_delete_store_version (login storeId versionId : GoString) :
    route ⟨gateway.buildMessage .nil (GoString.ofString "delete_store_version") login storeId
        versionId⟩ =
      some (.DeleteStoreVersion (GoString.toValidUTF8 storeId) (GoString.toValidUTF8 versionId)
        (GoString.toValidUTF8 login)) := by
  simp [route, unmarshal_buildMessage, toValidUTF8_ofString]

theorem route_get_store (login storeId versionId : GoString) :
    route ⟨gateway.buildMessage .nil (GoString.ofString "get_store") login storeId versionId⟩ =
      some (.GetStoreByID (GoString.toValidUTF8 storeId)) := by
  simp [route, unmarshal_buildMessage, toValidUTF8_ofString]

theorem route_get_store_history (login storeId versionId : GoString) :
    route ⟨gateway.buildMessage .nil (GoString.ofString "get_store_history") login storeId
        versionId⟩ =
      some (.GetStoreVersionHistory (GoString.toValidUTF8 storeId)) := by
  simp [route, unmarshal_buildMessage, toValidUTF8_ofString]

theorem route_get_store_version (login storeId versionId : GoString) :
    route ⟨gateway.buildMessage .nil (GoString.ofString "get_store_version") login storeId
        versionId⟩ =
      some (.GetStoreVersionByID (GoString.toValidUTF8 storeId)
        (GoString.toValidUTF8 versionId)) := by
  simp [route, unmarshal_buildMessage, toValidUTF8_ofString]

theorem route_create_store (store : gateway.Store) (login storeId versionId : GoString) :
    route ⟨gateway.buildMessage (.store store) (GoString.ofString "create_store") login storeId
        versionId⟩ =
      some (.CreateStore
        { Name := GoString.toValidUTF8 store.Name, Address := GoString.toValidUTF8 store.Address,
          OwnerName := GoString.toValidUTF8 store.OwnerName,
          OpeningTime := GoString.toValidUTF8 store.OpeningTime,
          ClosingTime := GoString.toValidUTF8 store.ClosingTime }
        (GoString.toValidUTF8 login)) := by
  simp [route, unmarshal_buildMessage, toValidUTF8_ofString, unmarshal_store]

theorem route_create_store_version (v : gateway.StoreVersion) (login storeId versionId : GoString) :
    route ⟨gateway.buildMessage (.storeVersion v) (GoString.ofString "create_store_version") login
        storeId versionId⟩ =
      some (.CreateStoreVersion
        { OwnerName := GoString.toValidUTF8 v.OwnerName,
          OpeningTime := GoString.toValidUTF8 v.OpeningTime,
          ClosingTime := GoString.toValidUTF8 v.ClosingTime, CreatedAt := "" }
        (GoString.toValidUTF8 storeId) (GoString.toValidUTF8 login)) := by
  simp [route, unmarshal_buildMessage, toValidUTF8_ofString, unmarshal_storeVersion]

/-- C21: each of the seven handlers, for a request that passes the validation
(every request for the five handlers without a body; for `CreateStore` and
`CreateStoreVersion` a body whose first JSON value `c.ShouldBindJSON` binds,
whatever bytes follow it, and whose struct passes `structValidator.Struct`),
passes exactly one message to `Publish`, built with the action tag of the
handler, and answers by the outcome of `Publish` alone: status 500 with
`Failed to publish a message` when `Publish` returns an error, status 200 with
the fixed text `Storage service is processing your message. Check status
through logs` otherwise.  The storage service routes each of these messages to
the operation of the tag; none is dropped as an unknown action. -/
theorem gateway_response_follows_publish (publish : Option String) (c : gateway.Request) :
    (∀ store, gateway.Store.bind c.body = .ok store → gateway.Store.Struct store = [] →
      (gateway.StoresHandler.CreateStore publish c).published =
        [gateway.buildMessage (.store store) (GoString.ofString "create_store") c.login [] []] ∧
      ((gateway.StoresHandler.CreateStore publish c).status,
        (gateway.StoresHandler.CreateStore publish c).body) = gateway.replyToPublish publish ∧
      route ⟨gateway.buildMessage (.store store) (GoString.ofString "create_store") c.login []
          []⟩ =
        some (.CreateStore
          { Name := GoString.toValidUTF8 store.Name,
            Address := GoString.toValidUTF8 store.Address,
            OwnerName := GoString.toValidUTF8 store.OwnerName,
            OpeningTime := GoString.toValidUTF8 store.OpeningTime,
            ClosingTime := GoString.toValidUTF8 store.ClosingTime }
          (GoString.toValidUTF8 c.login))) ∧
    (∀ storeVersion, gateway.StoreVersion.bind c.body = .ok storeVersion →
      gateway.StoreVersion.Struct storeVersion = [] →
      (gateway.StoresHandler.CreateStoreVersion publish c).published =
        [gateway.buildMessage (.storeVersion storeVersion)
          (GoString.ofString "create_store_version") c.login c.id []] ∧
      ((gateway.StoresHandler.CreateStoreVersion publish c).status,
        (gateway.StoresHandler.CreateStoreVersion publish c).body) =
          gateway.replyToPublish publish ∧
      route ⟨gateway.buildMessage (.storeVersion storeVersion)
          (GoString.ofString "create_store_version") c.login c.id []⟩ =
        some (.CreateStoreVersion
          { OwnerName := GoString.toValidUTF8 storeVersion.OwnerName,
            OpeningTime := GoString.toValidUTF8 storeVersion.OpeningTime,
            ClosingTime := GoString.toValidUTF8 storeVersion.ClosingTime, CreatedAt := "" }
          (GoString.toValidUTF8 c.id) (GoString.toValidUTF8 c.login))) ∧
    ((gateway.StoresHandler.DeleteStore publish c).published =
        [gateway.buildMessage .nil (GoString.ofString "delete_store") c.login c.id []] ∧
      ((gateway.StoresHandler.DeleteStore publish c).status,
        (gateway.StoresHandler.DeleteStore publish c).body) = gateway.replyToPublish publish ∧
      route ⟨gateway.buildMessage .nil (GoString.ofString "delete_store") c.login c.id []⟩ =
        some (.DeleteStore (GoString.toValidUTF8 c.id) (GoString.toValidUTF8 c.login))) ∧
    ((gateway.StoresHandler.DeleteStoreVersion publish c).published =
        [gateway.buildMessage .nil (GoString.ofString "delete_store_version") c.login c.id c.versionId] ∧
      ((gateway.StoresHandler.DeleteStoreVersion publish c).status,
        (gateway.StoresHandler.DeleteStoreVersion publish c).body) = gateway.replyToPublish publish ∧
      route ⟨gateway.buildMessage .nil (GoString.ofString "delete_store_version") c.login c.id c.versionId⟩ =
        some (.DeleteStoreVersion (GoString.toValidUTF8 c.id) (GoString.toValidUTF8 c.versionId)
          (GoString.toValidUTF8 c.login))) ∧
    ((gateway.StoresHandler.GetStore publish c).published =
        [gateway.buildMessage .nil (GoString.ofString "get_store") c.login c.id []] ∧
      ((gateway.StoresHandler.GetStore publish c).status,
        (gateway.StoresHandler.GetStore publish c).body) = gateway.replyToPublish publish ∧
      route ⟨gateway.buildMessage .nil (GoString.ofString "get_store") c.login c.id []⟩ =
        some (.GetStoreByID (GoString.toValidUTF8 c.id))) ∧
    ((gateway.StoresHandler.GetStoreHistory publish c).published =
        [gateway.buildMessage .nil (GoString.ofString "get_store_history") c.login c.id []] ∧
      ((gateway.StoresHandler.GetStoreHistory publish c).status,
        (gateway.StoresHandler.GetStoreHistory publish c).body) = gateway.replyToPublish publish ∧
      route ⟨gateway.buildMessage .nil (GoString.ofString "get_store_history") c.login c.id []⟩ =
        some (.GetStoreVersionHistory (GoString.toValidUTF8 c.id))) ∧
    ((gateway.StoresHandler.GetStoreVersion publish c).published =
        [gateway.buildMessage .nil (GoString.ofString "get_store_version") c.login c.id c.versionId] ∧
      ((gateway.StoresHandler.GetStoreVersion publish c).status,
        (gateway.StoresHandler.GetStoreVersion publish c).body) = gateway.replyToPublish publish ∧
      route ⟨gateway.buildMessage .nil (GoString.ofString "get_store_version") c.login c.id c.versionId⟩ =
        some (.GetStoreVersionByID (GoString.toValidUTF8 c.id) (GoString.toValidUTF8 c.versionId))) := by
  refine ⟨?_, ?_, ⟨?_, ?_, route_delete_store _ _ _⟩, ⟨?_, ?_, route_delete_store_version _ _ _⟩,
    ⟨?_, ?_, route_get_store _ _ _⟩, ⟨?_, ?_, route_get_store_history _ _ _⟩,
    ⟨?_, ?_, route_get_store_version _ _ _⟩⟩
  · intro store hb hv
    refine ⟨?_, ?_, route_create_store _ _ _ _⟩
    · unfold gateway.StoresHandler.CreateStore
      simp only [hb, hv]
      cases publish <;> rfl
    · unfold gateway.StoresHandler.CreateStore
      simp only [hb, hv]
      cases publish <;> rfl
  · intro storeVersion hb hv
    refine ⟨?_, ?_, route_create_store_version _ _ _ _⟩
    · unfold gateway.StoresHandler.CreateStoreVersion
      simp only [hb, hv]
      cases publish <;> rfl
    · unfold gateway.StoresHandler.CreateStoreVersion
      simp only [hb, hv]
      cases publish <;> rfl
  all_goals cases publish <;> rfl

/-- C21 at a store body that passes the validation, the broker refusing the
message in one run and taking it in the other, and at the same JSON object
followed by the bytes `xyz`, which the decoder of gin binds as well. -/
theorem gateway_response_follows_publish_witness :
    (gateway.StoresHandler.CreateStore none sampleTrailingRequest).status = 200 ∧
    (gateway.StoresHandler.CreateStore none sampleTrailingRequest).published.length = 1 ∧
    (gateway.StoresHandler.CreateStore (some "channel closed")
        (sampleRequest sampleStoreBody)).status = 500 ∧
    (gateway.StoresHandler.CreateStore (some "channel closed")
        (sampleRequest sampleStoreBody)).body =
      { Message := "Error", Body := .text "Failed to publish a message" } ∧
    (gateway.StoresHandler.CreateStore (some "channel closed")
        (sampleRequest sampleStoreBody)).published.length = 1 ∧
    (gateway.StoresHandler.CreateStore none (sampleRequest sampleStoreBody)).status = 200 ∧
    ((gateway.StoresHandler.CreateStore none (sampleRequest sampleStoreBody)).status,
      (gateway.StoresHandler.CreateStore none (sampleRequest sampleStoreBody)).body) =
        gateway.replyToPublish none :=
  ⟨by decide, by decide, by decide, by decide, by decide, by decide,
   ((gateway_response_follows_publish none (sampleRequest sampleStoreBody)).1 _ rfl
      (by decide)).2.1⟩

/-! ## C5 and C6: a `CreateStore` that returns nil and stores nothing -/

theorem repoCreateStore_commit_failure (db : DB) (store : Store) (storeID versionID : Nat)
    (msg : String) (hstore : storeKeyTaken db storeID = false)
    (hversion : versionKeyTaken db versionID = false) :
    Repository.CreateStore db store storeID versionID (failingAt .Commit msg) = (none, db) := by
  unfold Repository.CreateStore
  simp [failingAt, insertStore, insertStoreVersion, hstore, storeRowPresent]
  simp only [versionKeyTaken] at hversion ⊢
  simp [hversion]

theorem serviceCreateStore_commit_failure (db : DB) (data : service.Store) (login now : String)
    (storeID versionID : Nat) (msg : String) (hstore : storeKeyTaken db storeID = false)
    (hversion : versionKeyTaken db versionID = false) :
    service.StoreService.CreateStore db data login now storeID versionID
      (failingAt .Commit msg) = (none, db) := by
  unfold service.StoreService.CreateStore
  simp only [repoCreateStore_commit_failure db _ storeID versionID msg hstore hversion]

/-- C5, the code at the failing input, with `n = 0`: start from a database that
satisfies the foreign key of `store_versions`.  When the driver fails at
`Commit` (and at no other round trip) and the keys the database assigns are
free, `StoreService.CreateStore` returns nil, so the call is a successful one
for its caller; no call of `CreateStoreVersion` follows.  The store has no
version row, where the claim has the one version numbered 1 and marked
`is_last`, and `StoreService.GetStoreVersionHistory` returns `ErrStoreNotFound`. -/
theorem history_missing_after_unreported_commit_failure (db : DB) (data : service.Store)
    (login now : String) (storeID versionID : Nat) (msg : String)
    (hfk : db.VersionsReferStores) (hstore : storeKeyTaken db storeID = false)
    (hversion : versionKeyTaken db versionID = false) :
    service.StoreService.CreateStore db data login now storeID versionID
      (failingAt .Commit msg) = (none, db) ∧
    createVersions db storeID [] = some db ∧
    versionsOf db storeID = [] ∧
    service.StoreService.GetStoreVersionHistory db storeID none = .error .ErrStoreNotFound := by
  have hnil : versionsOf db storeID = [] := versionsOf_eq_nil_of_fresh hfk hstore
  refine ⟨serviceCreateStore_commit_failure db data login now storeID versionID msg hstore
    hversion, rfl, hnil, ?_⟩
  rw [serviceHistory_none, if_pos hnil]

/-- C5 at the empty database and the sample store, the driver failing at
`Commit` with `connection lost`. -/
theorem history_missing_after_unreported_commit_failure_witness :
    DB.empty.VersionsReferStores ∧ storeKeyTaken DB.empty 1 = false ∧
    versionKeyTaken DB.empty 1 = false ∧
    service.StoreService.CreateStore DB.empty sampleData "alice" "2024-01-01 10:00:00" 1 1
      (failingAt .Commit "connection lost") = (none, DB.empty) ∧
    versionsOf DB.empty 1 = [] :=
  ⟨empty_refers, rfl, rfl,
   (history_missing_after_unreported_commit_failure DB.empty sampleData "alice"
      "2024-01-01 10:00:00" 1 1 "connection lost" empty_refers rfl rfl).1,
   (history_missing_after_unreported_commit_failure DB.empty sampleData "alice"
      "2024-01-01 10:00:00" 1 1 "connection lost" empty_refers rfl rfl).2.2.1⟩

/-- C6, the code at the failing input: when the driver fails at `Commit` (and
at no other round trip) and the keys the database assigns are free,
`StoreService.CreateStore` returns nil, so the call is a successful one for its
caller, and the database after the call is the database before it: no row was
added to `stores` and none to `store_versions`, where the claim has one new
store row and its version 1. -/
theorem createStore_nil_adds_no_row (db : DB) (data : service.Store) (login now : String)
    (storeID versionID : Nat) (msg : String) (hstore : storeKeyTaken db storeID = false)
    (hversion : versionKeyTaken db versionID = false) :
    (service.StoreService.CreateStore db data login now storeID versionID
      (failingAt .Commit msg)).1 = none ∧
    (service.StoreService.CreateStore db data login now storeID versionID
      (failingAt .Commit msg)).2.stores = db.stores ∧
    (service.StoreService.CreateStore db data login now storeID versionID
      (failingAt .Commit msg)).2.store_versions = db.store_versions ∧
    (∀ s ∈ (service.StoreService.CreateStore db data login now storeID versionID
      (failingAt .Commit msg)).2.stores, s.StoreID ≠ storeID) := by
  rw [serviceCreateStore_commit_failure db data login now storeID versionID msg hstore hversion]
  exact ⟨rfl, rfl, rfl, (storeKeyTaken_eq_false_iff db storeID).1 hstore⟩

/-- C6 at the empty database and the sample store: `CreateStore` returns nil
and both tables are still empty, while with a healthy driver the same call
stores the store row and its version 1. -/
theorem createStore_nil_adds_no_row_witness :
    storeKeyTaken DB.empty 1 = false ∧ versionKeyTaken DB.empty 1 = false ∧
    (service.StoreService.CreateStore DB.empty sampleData "alice" "2024-01-01 10:00:00" 1 1
      (failingAt .Commit "connection lost")).1 = none ∧
    (service.StoreService.CreateStore DB.empty sampleData "alice" "2024-01-01 10:00:00" 1 1
      (failingAt .Commit "connection lost")).2.stores = [] ∧
    service.StoreService.CreateStore DB.empty sampleData "alice" "2024-01-01 10:00:00" 1 1
      healthy = (none, sampleStoreDb) :=
  ⟨rfl, rfl,
   (createStore_nil_adds_no_row DB.empty sampleData "alice" "2024-01-01 10:00:00" 1 1
      "connection lost" rfl rfl).1,
   (createStore_nil_adds_no_row DB.empty sampleData "alice" "2024-01-01 10:00:00" 1 1
      "connection lost" rfl rfl).2.1,
   by decide⟩

end VersionsStorage
